import Mathlib

/-!
# Medical-Supply-Dapp: the front end and its ledger

A shallow embedding of `src/Dapp/src/services/IPFSService.js`, of
`src/Dapp/src/hooks/useTokenCounter.js`, of `src/Dapp/Dapp/src/RoleGranter.jsx`
and of the functions of `src/Dapp/Dapp/src/App.jsx` that talk to the ledger and
to the artifact store (`createQRCode`, `mintDrug`, `DrugMintForm.handleSubmit`,
`verifyDrug`, `createPrescription`, `checkUserRoles`, `loadPendingClaims`,
`renderTabContent`). The ledger contract itself is not among the sources: the
part on the ledger models it from the specification.

Conventions of the embedding.
* JavaScript numbers that the sources treat as integers (token ids, medicine
  ids, seconds, milliseconds) are `Int`; their `toString()` is the decimal
  rendering, which is what JavaScript prints for integers of magnitude below
  `10^21`.
* A thrown `Error` is its `message : String`; an `async` function returns an
  `Outcome`: the effects it performed, in order, and either the value it
  resolved with or the message it rejected with.
* Everything the program does not compute itself is a parameter: the HTTP
  peer, the QR library and the clock are fields of `World`, and the ledger
  client is a structure with the methods a function calls.
-/

namespace MedicalSupply

/-! ## JavaScript runtime -/

/-- Truthiness of a possibly undefined string: `undefined` and `''` are falsy. -/
def isTruthy : Option String → Bool
  | none => false
  | some s => s != ""

/-- The value of `a || b` for a possibly undefined string `a`. -/
def orElse (a : Option String) (b : String) : String :=
  match a with
  | none => b
  | some s => if s != "" then s else b

/-- The method `Number.prototype.toString` on an integer. -/
def numberToString (n : Int) : String := toString n

/-- The method `String.prototype.startsWith`. -/
def startsWith (s p : String) : Bool := p.toList.isPrefixOf s.toList

/-- Replace the first occurrence of `pat` in a list of characters by `rep`. -/
def replaceFirstChars (pat rep : List Char) : List Char → List Char
  | [] => if pat.isEmpty then rep else []
  | c :: cs =>
    if pat.isPrefixOf (c :: cs) then rep ++ (c :: cs).drop pat.length
    else c :: replaceFirstChars pat rep cs

/-- The method `String.prototype.replace` with a string pattern: only the first
occurrence is replaced. (The replacement strings of the sources contain no `$`.) -/
def replace (s pat rep : String) : String :=
  String.mk (replaceFirstChars pat.toList rep.toList s.toList)

/-! ### JSON.stringify -/

/-- JSON values built by the sources' object literals. -/
inductive Json where
  | str (s : String)
  | num (n : Int)
  | arr (items : List Json)
  | obj (fields : List (String × Json))
  deriving Repr

/-- Lower-case hexadecimal digit. -/
def hexDigit (n : Nat) : Char :=
  if n < 10 then Char.ofNat (48 + n) else Char.ofNat (87 + n)

/-- One character of a JSON string literal (QuoteJSONString of ECMA-262). -/
def escapeChar (c : Char) : List Char :=
  if c.toNat = 34 then [Char.ofNat 92, Char.ofNat 34]
  else if c.toNat = 92 then [Char.ofNat 92, Char.ofNat 92]
  else if c.toNat = 8 then [Char.ofNat 92, 'b']
  else if c.toNat = 9 then [Char.ofNat 92, 't']
  else if c.toNat = 10 then [Char.ofNat 92, 'n']
  else if c.toNat = 12 then [Char.ofNat 92, 'f']
  else if c.toNat = 13 then [Char.ofNat 92, 'r']
  else if c.toNat < 32 then
    [Char.ofNat 92, 'u', '0', '0', hexDigit (c.toNat / 16), hexDigit (c.toNat % 16)]
  else [c]

/-- A string as a JSON string literal, quotes included. -/
def quoteJSON (s : String) : String :=
  String.mk (Char.ofNat 34 :: ((s.toList.map escapeChar).flatten ++ [Char.ofNat 34]))

mutual
/-- The function `JSON.stringify` without indentation. -/
def Json.stringify : Json → String
  | .str s => quoteJSON s
  | .num n => numberToString n
  | .arr xs => "[" ++ stringifyItems xs ++ "]"
  | .obj fs => "\x7b" ++ stringifyFields fs ++ "\x7d"
/-- The elements of an array, comma separated. -/
def stringifyItems : List Json → String
  | [] => ""
  | [x] => x.stringify
  | x :: y :: r => x.stringify ++ "," ++ stringifyItems (y :: r)
/-- The members of an object, comma separated, in insertion order. -/
def stringifyFields : List (String × Json) → String
  | [] => ""
  | [(k, v)] => quoteJSON k ++ ":" ++ v.stringify
  | (k, v) :: y :: r => quoteJSON k ++ ":" ++ v.stringify ++ "," ++ stringifyFields (y :: r)
end

/-- The keys of a JSON object, in order (empty for other values). -/
def Json.keys : Json → List String
  | .obj fs => fs.map Prod.fst
  | _ => []

/-- The first member of a JSON object with the given key. -/
def Json.get? (j : Json) (k : String) : Option Json :=
  match j with
  | .obj fs => (fs.find? (fun kv => kv.1 == k)).map Prod.snd
  | _ => none

/-! ### Date.prototype.toISOString -/

/-- Decimal rendering of `n`, left-padded with zeros to `width` digits. -/
def padZero (width n : Nat) : String :=
  let s := toString n
  String.mk (List.replicate (width - s.length) '0') ++ s

/-- Milliseconds per day. -/
def msPerDay : Int := 86400000

/-- The largest time value of a valid `Date` (TimeClip of ECMA-262). -/
def maxTime : Int := 8640000000000000

/-- The proleptic Gregorian (year, month, day) of a day number counted from
1970-01-01. -/
def civilFromDays (days : Int) : Int × Int × Int :=
  let z := days + 719468
  let era := z / 146097
  let doe := z - era * 146097
  let yoe := (doe - doe / 1460 + doe / 36524 - doe / 146096) / 365
  let doy := doe - (365 * yoe + yoe / 4 - yoe / 100)
  let mp := (5 * doy + 2) / 153
  let d := doy - (153 * mp + 2) / 5 + 1
  let m := if mp < 10 then mp + 3 else mp - 9
  let y := yoe + era * 400 + (if m ≤ 2 then 1 else 0)
  (y, m, d)

/-- The year of an ISO date: four digits for 0..9999, else a sign and six digits. -/
def isoYear (y : Int) : String :=
  if 0 ≤ y ∧ y ≤ 9999 then padZero 4 y.toNat
  else if y < 0 then "-" ++ padZero 6 (-y).toNat
  else "+" ++ padZero 6 y.toNat

/-- The expression `new Date(t).toISOString()`: a `RangeError` when `t` is not a
valid time value, else `YYYY-MM-DDTHH:mm:ss.sssZ`. -/
def toISOString (t : Int) : Except String String :=
  if t < -maxTime ∨ maxTime < t then .error "Invalid time value"
  else
    let civil := civilFromDays (t / msPerDay)
    let ms := (t % msPerDay).toNat
    .ok (isoYear civil.1 ++ "-" ++ padZero 2 civil.2.1.toNat ++ "-" ++ padZero 2 civil.2.2.toNat
      ++ "T" ++ padZero 2 (ms / 3600000) ++ ":" ++ padZero 2 (ms / 60000 % 60) ++ ":"
      ++ padZero 2 (ms / 1000 % 60) ++ "." ++ padZero 3 (ms % 1000) ++ "Z")

/-! ## The outside world -/

/-- The image `canvas.toBlob(resolve, 'image/png')` yields after
`QRCode.toCanvas(canvas, text, { width })`: the QR symbol of `text`. -/
structure Blob where
  text : String
  width : Nat
  type : String
  deriving DecidableEq, Repr

/-- A `File` built by `new File([blob], name, { type })`. -/
structure File where
  content : Blob
  name : String
  type : String
  deriving DecidableEq, Repr

/-- A value appended to a `FormData`. -/
inductive FormValue where
  | file (f : File)
  | text (s : String)
  deriving DecidableEq, Repr

/-- The body of an HTTP request. -/
inductive Body where
  | none
  | formData (entries : List (String × FormValue))
  | text (s : String)
  deriving DecidableEq, Repr

/-- The arguments of a `fetch` call; a header whose value is `undefined` is `none`. -/
structure Request where
  url : String
  method : String
  headers : List (String × Option String)
  body : Body
  deriving DecidableEq, Repr

/-- What the sources read of a parsed response body: `result.IpfsHash`. -/
structure ParsedBody where
  IpfsHash : String
  deriving DecidableEq, Repr

/-- A received HTTP response: `response.ok`, `response.status`, the body as
`response.text()` gives it, and what `response.json()` resolves with or the
message it rejects with when the body does not parse. -/
structure Response where
  ok : Bool
  status : Nat
  text : String
  json : Except String ParsedBody

/-- The receipt `tx.wait()` resolves with; `tokenId` is the id the ledger
assigned to the minted token. -/
structure Receipt where
  tokenId : Int
  deriving DecidableEq, Repr

/-- The ledger client (`new Contract(contract_address, abi, signer)`), as far as
the mint pipeline uses it: `mintDrug(...)` rejects, or resolves with a
transaction whose `wait()` rejects or resolves with a receipt. -/
structure Contract where
  mintDrug : Int → String → Int → String → Except String (Except String Receipt)

/-- Everything outside the program during one run. -/
structure World where
  /-- The HTTP peer: `fetch` rejects with a message or resolves with a response. -/
  fetch : Request → Except String Response
  /-- The error `QRCode.toCanvas` passes to its callback for a text, if any. -/
  toCanvasError : String → Option String
  /-- The clock: `now k` is the value of the `k`-th reading of `Date.now()`
  (or `new Date()`) in the run, counted from 0. -/
  now : Nat → Int
  /-- The rendering by `Number.prototype.toString` of a quotient `a / b` that is
  not an integer (floating point, left uninterpreted). -/
  fractionToString : Int → Int → String

/-- The expression `(a / b).toString()` for integers `a` and `b ≠ 0`. -/
def World.divToString (w : World) (a b : Int) : String :=
  if a % b = 0 then numberToString (a / b) else w.fractionToString a b

/-- Build-time configuration: `contract_address` of `Cert.json` and the
`import.meta.env` variables read by `IPFSService`. -/
structure Config where
  contract_address : String
  VITE_PINATA_JWT : Option String
  VITE_PINATA_GATEWAY : Option String
  REACT_APP_PINATA_API_KEY : Option String
  REACT_APP_PINATA_SECRET_KEY : Option String

/-- An argument of a call to a method of the ledger client. -/
inductive LedgerArg where
  | int (n : Int)
  | str (s : String)
  | bool (b : Bool)
  deriving DecidableEq, Repr

/-- The record `contract.drugs(tokenId)` resolves with; the numbers are the
unsigned integers (`bigint`) of the ledger. -/
structure DrugInfo where
  tokenId : Nat
  medicineId : Nat
  name : String
  expiryTimestamp : Nat
  status : Nat
  currentHolder : String
  deriving DecidableEq, Repr

/-- The ledger client as far as `verifyDrug` uses it: four queries, whose
results are used as data, and the method `verifyDrug`, whose result is a
transaction that the caller waits for. -/
structure VerifyContract where
  drugs : Int → Except String DrugInfo
  isDrugExpired : Int → Except String Bool
  ownerOf : Int → Except String String
  tokenURI : Int → Except String String
  verifyDrug : Int → Except String (Except String Receipt)

/-- The ledger client as far as `createPrescription` uses it. -/
structure PrescriptionContract where
  createPrescription : String → Int → Int → Except String (Except String Receipt)

/-- The ledger client as far as `useTokenCounter` uses it: the query
`getNextTokenId()` rejects or resolves with an unsigned integer (`bigint`). -/
structure CounterContract where
  getNextTokenId : Except String Nat

/-- The ledger client as far as `checkUserRoles` uses it: the queries for the
identifiers of the seven roles, and the query `hasRole(role, account)`. -/
structure RolesContract where
  DEFAULT_ADMIN_ROLE : Except String String
  MFG_ROLE : Except String String
  INT_ROLE : Except String String
  PHAR_ROLE : Except String String
  DOC_ROLE : Except String String
  PAT_ROLE : Except String String
  INS_ROLE : Except String String
  hasRole : String → String → Except String Bool

/-- The record `contract.insuranceClaims(claimId)` resolves with, as far as the
sources read it; the number is an unsigned integer (`bigint`) of the ledger. -/
structure ClaimInfo where
  prescriptionId : Nat
  isApproved : Bool
  deriving DecidableEq, Repr

/-- The ledger client as far as `loadPendingClaims` uses it: the query
`getPendingClaims()`, which resolves with an array of unsigned integers, and
the query `insuranceClaims(claimId)`. -/
structure ClaimsContract where
  getPendingClaims : Except String (List Nat)
  insuranceClaims : Nat → Except String ClaimInfo

/-- The ledger client as far as `handleGrantRole` uses it: the query for the
identifier of the admin role, and the seven methods that grant a role, whose
results are transactions that the caller waits for. -/
structure GrantContract where
  DEFAULT_ADMIN_ROLE : Except String String
  grantRole : String → String → Except String (Except String Receipt)
  grantMfg : String → Except String (Except String Receipt)
  grantInt : String → Except String (Except String Receipt)
  grantPhar : String → Except String (Except String Receipt)
  grantDoc : String → Except String (Except String Receipt)
  grantPat : String → Except String (Except String Receipt)
  grantIns : String → Except String (Except String Receipt)

/-! ## Effects -/

/-- The argument of `setMintedQrData`. -/
structure MintedQrData where
  medicineId : Int
  tokenId : String
  name : String
  qrImageUrl : String
  qrImageUri : String
  metadataUrl : String
  metadataUri : String
  qrData : String
  deriving DecidableEq, Repr

/-- The object `drugInfo` of a verification result. -/
structure DrugSnapshot where
  tokenId : String
  medicineId : String
  name : String
  expiryTimestamp : String
  status : Nat
  currentHolder : String
  owner : String
  isExpired : Bool
  tokenURI : String
  deriving DecidableEq, Repr

/-- The argument of `setVerificationResult`; an absent field is `none`. -/
structure VerificationResult where
  tokenId : Int
  verified : Bool
  drugInfo : Option DrugSnapshot
  error : Option String
  timestamp : String
  deriving DecidableEq, Repr

/-- An entry of the state `claims`, as `loadPendingClaims` builds it. -/
structure ClaimEntry where
  claimId : String
  prescriptionId : String
  isApproved : Bool
  deriving DecidableEq, Repr

/-- The state `grantData` of `RoleGranter`. -/
structure GrantData where
  address : String
  role : String
  deriving DecidableEq, Repr

/-- An observable effect of the program. Of a `console` call the first argument
is kept, and the message of the error when the second argument is an error. -/
inductive Event where
  | setMintLoading (b : Bool)
  | consoleLog (label : String)
  | consoleError (label : String) (message : String)
  | fetch (req : Request)
  | toCanvas (text : String) (width : Nat)
  | contractMintDrug (medicineId : Int) (name : String) (expiry : Int) (uri : String)
  | txWait
  | setMintedQrData (d : MintedQrData)
  | alert (msg : String)
  | setDrugs
  | incrementTokenId
  | contractCall (method : String) (args : List LedgerArg)
  | contractSend (method : String) (args : List LedgerArg)
  | setVerifyLoading (b : Bool)
  | setVerificationResult (r : VerificationResult)
  | setLoading (b : Bool)
  | setNextTokenId (n : Option Int)
  | setUserRoles (roles : List String)
  | setClaims (claims : List ClaimEntry)
  | setGrantData (d : GrantData)
  deriving DecidableEq, Repr

/-- The effects of a computation, in order, and how it ended. -/
structure Outcome (α : Type) where
  trace : List Event
  result : Except String α

namespace Outcome

/-- Resolve with a value, without effects. -/
def ret {α : Type} (a : α) : Outcome α := ⟨[], .ok a⟩

/-- Sequencing (`await`): the effects of both, unless the first rejects. -/
def andThen {α β : Type} (x : Outcome α) (f : α → Outcome β) : Outcome β :=
  match x.result with
  | .error e => ⟨x.trace, .error e⟩
  | .ok a => ⟨x.trace ++ (f a).trace, (f a).result⟩

/-- The statement `throw new Error(msg)`. -/
def throw {α : Type} (msg : String) : Outcome α := ⟨[], .error msg⟩

/-- An operation of the runtime that may throw, without effects of its own. -/
def lift {α : Type} (r : Except String α) : Outcome α := ⟨[], r⟩

/-- One effect. -/
def emit (e : Event) : Outcome Unit := ⟨[e], .ok ()⟩

/-- The statement `try { x } catch (error) { h error }`. -/
def tryCatch {α : Type} (x : Outcome α) (h : String → Outcome α) : Outcome α :=
  match x.result with
  | .ok a => ⟨x.trace, .ok a⟩
  | .error e => ⟨x.trace ++ (h e).trace, (h e).result⟩

/-- The statement `try { x } finally { f }` for an `f` that does not throw. -/
def tryFinally {α : Type} (x : Outcome α) (f : List Event) : Outcome α :=
  ⟨x.trace ++ f, x.result⟩

instance : Monad Outcome where
  pure := ret
  bind := andThen

end Outcome

/-- The call `await fetch(url, options)`. -/
def World.doFetch (w : World) (req : Request) : Outcome Response :=
  ⟨[.fetch req], w.fetch req⟩

/-! ## IPFSService.js -/

/-- The fields set by the constructor of `IPFSService`. -/
structure IPFSService where
  pinataJWT : Option String
  pinataGateway : String
  pinataBaseUrl : String
  pinataApiKey : Option String
  pinataSecretKey : Option String

/-- The constructor of `IPFSService`. -/
def IPFSService.new (cfg : Config) : IPFSService where
  pinataJWT := cfg.VITE_PINATA_JWT
  pinataGateway := orElse cfg.VITE_PINATA_GATEWAY "https://gateway.pinata.cloud"
  pinataBaseUrl := "https://api.pinata.cloud"
  pinataApiKey := cfg.REACT_APP_PINATA_API_KEY
  pinataSecretKey := cfg.REACT_APP_PINATA_SECRET_KEY

/-- The authentication headers: the JWT when it is set, else the key pair. -/
def IPFSService.authHeaders (svc : IPFSService) : List (String × Option String) :=
  if isTruthy svc.pinataJWT then
    [("Authorization", some ("Bearer " ++ svc.pinataJWT.getD "undefined"))]
  else
    [("pinata_api_key", svc.pinataApiKey), ("pinata_secret_api_key", svc.pinataSecretKey)]

/-- The method `getHttpUrl(ipfsUri)`. -/
def IPFSService.getHttpUrl (svc : IPFSService) (ipfsUri : String) : String :=
  if startsWith ipfsUri "ipfs://" then
    let hash := replace ipfsUri "ipfs://" ""
    svc.pinataGateway ++ "/ipfs/" ++ hash
  else ipfsUri

/-- What `uploadFile` and `uploadJSON` return. -/
structure UploadResult where
  ipfsUri : String
  ipfsUrl : String
  hash : String
  deriving DecidableEq, Repr

/-- The message of the error thrown on a response that is not OK. -/
def httpErrorMessage (response : Response) : String :=
  "HTTP error! status: " ++ toString response.status ++ ", message: " ++ response.text

/-- The request `uploadFile` sends; `now` is its reading of `Date.now()`. -/
def IPFSService.uploadFileRequest (svc : IPFSService) (now : Int) (file : File)
    (filename : String) : Request :=
  let metadata := (Json.obj [("name", .str filename),
    ("keyvalues", .obj [("type", .str "qr-code-image"),
      ("timestamp", .str (numberToString now))])]).stringify
  let options := (Json.obj [("cidVersion", .num 1)]).stringify
  { url := svc.pinataBaseUrl ++ "/pinning/pinFileToIPFS"
    method := "POST"
    headers := svc.authHeaders
    body := .formData [("file", .file file), ("pinataMetadata", .text metadata),
      ("pinataOptions", .text options)] }

/-- The method `uploadFile(file, filename)`. -/
def IPFSService.uploadFile (svc : IPFSService) (w : World) (now : Int) (file : File)
    (filename : String) : Outcome UploadResult :=
  Outcome.tryCatch
    (do
      let response ← w.doFetch (svc.uploadFileRequest now file filename)
      if !response.ok then
        let errorText := response.text
        Outcome.throw ("HTTP error! status: " ++ toString response.status ++ ", message: "
          ++ errorText)
      else
        let result ← Outcome.lift response.json
        let ipfsUri := "ipfs://" ++ result.IpfsHash
        let httpUrl := svc.getHttpUrl ipfsUri
        pure { ipfsUri := ipfsUri, ipfsUrl := httpUrl, hash := result.IpfsHash })
    (fun error => do
      Outcome.emit (.consoleError "Error uploading file to IPFS:" error)
      Outcome.throw error)

/-- The request `uploadJSON` sends; `now` is its reading of `Date.now()`. -/
def IPFSService.uploadJSONRequest (svc : IPFSService) (now : Int) (jsonData : Json)
    (filename : String) : Request :=
  { url := svc.pinataBaseUrl ++ "/pinning/pinJSONToIPFS"
    method := "POST"
    headers := ("Content-Type", some "application/json") :: svc.authHeaders
    body := .text (Json.obj [("pinataContent", jsonData),
      ("pinataMetadata", .obj [("name", .str filename),
        ("keyvalues", .obj [("type", .str "nft-metadata"),
          ("timestamp", .str (numberToString now))])])]).stringify }

/-- The method `uploadJSON(jsonData, filename)`. -/
def IPFSService.uploadJSON (svc : IPFSService) (w : World) (now : Int) (jsonData : Json)
    (filename : String) : Outcome UploadResult :=
  Outcome.tryCatch
    (do
      let response ← w.doFetch (svc.uploadJSONRequest now jsonData filename)
      if !response.ok then
        let errorText := response.text
        Outcome.throw ("HTTP error! status: " ++ toString response.status ++ ", message: "
          ++ errorText)
      else
        let result ← Outcome.lift response.json
        let ipfsUri := "ipfs://" ++ result.IpfsHash
        let httpUrl := svc.getHttpUrl ipfsUri
        pure { ipfsUri := ipfsUri, ipfsUrl := httpUrl, hash := result.IpfsHash })
    (fun error => do
      Outcome.emit (.consoleError "Error uploading JSON to IPFS:" error)
      Outcome.throw error)

/-- The request `testConnection` sends. -/
def IPFSService.testConnectionRequest (svc : IPFSService) : Request :=
  { url := svc.pinataBaseUrl ++ "/data/testAuthentication"
    method := "GET"
    headers := svc.authHeaders
    body := .none }

/-- The method `testConnection()`. -/
def IPFSService.testConnection (svc : IPFSService) (w : World) : Outcome Bool :=
  Outcome.tryCatch
    (do
      let response ← w.doFetch svc.testConnectionRequest
      if response.ok then
        let _result ← Outcome.lift response.json
        Outcome.emit (.consoleLog "Pinata connection successful:")
        pure true
      else
        Outcome.emit (.consoleError "Pinata connection failed:" (toString response.status))
        pure false)
    (fun error => do
      Outcome.emit (.consoleError "Error testing Pinata connection:" error)
      pure false)

/-! ## App.jsx: the mint pipeline -/

/-- The object `data` of `createQRCode`, given the ISO rendering of `expiryDate`. -/
def qrCodeData (cfg : Config) (tokenId medicineId : Int) (drugName : String)
    (expiryDate : String) : Json :=
  .obj [("tokenId", .str (numberToString tokenId)),
    ("drugName", .str drugName),
    ("medicineId", .str (numberToString medicineId)),
    ("expiryDate", .str expiryDate),
    ("contractAddress", .str cfg.contract_address),
    ("network", .str "sepolia")]

/-- The function `createQRCode(tokenId, medicineId, drugName, expirySeconds)`;
`now` is its reading of `Date.now()`. An exception of the executor (the
`RangeError` of `toISOString`) rejects the promise. -/
def createQRCode (cfg : Config) (w : World) (now : Int) (tokenId medicineId : Int)
    (drugName : String) (expirySeconds : Int) : Outcome Blob := do
  let expiryDate := now + expirySeconds * 1000
  let iso ← Outcome.lift (toISOString expiryDate)
  let data := qrCodeData cfg tokenId medicineId drugName iso
  let text := data.stringify
  Outcome.emit (.toCanvas text 256)
  match w.toCanvasError text with
  | some error => do
    Outcome.emit (.consoleError "Error generating QR code:" error)
    Outcome.throw error
  | none => pure { text := text, width := 256, type := "image/png" }

/-- The object `metadata` of `mintDrug`; `created` is `new Date().toISOString()`. -/
def mintMetadata (cfg : Config) (w : World) (medicineId : Int) (name : String) (expiry : Int)
    (qrResponse : UploadResult) (created : String) : Json :=
  .obj [("name", .str (name ++ " - Medicine #" ++ numberToString medicineId)),
    ("description", .str ("Medical drug token for " ++ name ++ " with QR code verification")),
    ("image", .str qrResponse.ipfsUrl),
    ("attributes", .arr [
      .obj [("trait_type", .str "Medicine ID"), ("value", .str (numberToString medicineId))],
      .obj [("trait_type", .str "Drug Name"), ("value", .str name)],
      .obj [("trait_type", .str "Expiry (days)"),
        ("value", .str (w.divToString expiry (24 * 60 * 60)))],
      .obj [("trait_type", .str "Created"), ("value", .str created)],
      .obj [("trait_type", .str "Contract"), ("value", .str cfg.contract_address)]]),
    ("external_url", .str ("https://sepolia.etherscan.io/address/" ++ cfg.contract_address)),
    ("qr_code", .str qrResponse.ipfsUrl),
    ("qr_ipfs", .str qrResponse.ipfsUrl)]

/-- The object serialized into `qrData` by `mintDrug` after the mint, given the
ISO rendering of its expiry date. -/
def mintedQrPayload (cfg : Config) (nextTokenId medicineId : Int) (name : String)
    (expiryDate : String) : Json :=
  .obj [("tokenId", .str (numberToString nextTokenId)),
    ("drugName", .str name),
    ("medicineId", .str (numberToString medicineId)),
    ("expiryDate", .str expiryDate),
    ("contractAddress", .str cfg.contract_address),
    ("network", .str "sepolia")]

/-- The text of the alert after a successful mint. -/
def mintSuccessAlert (nextTokenId medicineId : Int) (qrResponse metadataResponse : UploadResult) :
    String :=
  "Drug minted successfully!\nNFT Token ID: " ++ numberToString nextTokenId
    ++ "\nMedicine ID: " ++ numberToString medicineId
    ++ "\nQR Code: " ++ qrResponse.ipfsUrl ++ "\nMetadata: " ++ metadataResponse.ipfsUrl

/-- The call `await contract.mintDrug(...)` followed by `await tx.wait()`. -/
def Contract.doMintDrug (contract : Contract) (medicineId : Int) (name : String) (expiry : Int)
    (uri : String) : Outcome Receipt := do
  let tx ← (⟨[.contractMintDrug medicineId name expiry uri],
    contract.mintDrug medicineId name expiry uri⟩ : Outcome (Except String Receipt))
  (⟨[.txWait], tx⟩ : Outcome Receipt)

/-- The body of the `try` block of `mintDrug`. -/
def mintDrugTry (cfg : Config) (w : World) (contract : Contract) (nextTokenId : Int)
    (medicineId : Int) (name : String) (expiry : Int) : Outcome Unit := do
  let ipfsService := IPFSService.new cfg
  Outcome.emit (.setMintLoading true)
  Outcome.emit (.consoleLog "Testing IPFS connection...")
  let connectionTest ← ipfsService.testConnection w
  if !connectionTest then
    Outcome.throw "Failed to connect to IPFS service. Please check your API credentials."
  else
    Outcome.emit (.consoleLog "IPFS connection successful!")
    Outcome.emit (.consoleLog "Next Token ID will be:")
    Outcome.emit (.consoleLog "Step 2: Generating QR code for token ID:")
    let qrBlob ← createQRCode cfg w (w.now 0) nextTokenId medicineId name expiry
    let qrFile := File.mk qrBlob ("medicine_qr_" ++ numberToString nextTokenId ++ ".png")
      "image/png"
    Outcome.emit (.consoleLog "Step 3: Uploading QR code to IPFS...")
    let qrResponse ← ipfsService.uploadFile w (w.now 1) qrFile
      ("Medicine QR Code Token " ++ numberToString nextTokenId)
    Outcome.emit (.consoleLog "QR uploaded:")
    let created ← Outcome.lift (toISOString (w.now 2))
    let metadata := mintMetadata cfg w medicineId name expiry qrResponse created
    Outcome.emit (.consoleLog "Step 3-4: Creating and uploading metadata to IPFS...")
    let metadataResponse ← ipfsService.uploadJSON w (w.now 3) metadata
      ("Medicine " ++ numberToString medicineId ++ " Metadata")
    Outcome.emit (.consoleLog "Metadata uploaded:")
    Outcome.emit (.consoleLog "Step 5: Minting drug with HTTP metadata URL...")
    let _receipt ← contract.doMintDrug medicineId name expiry metadataResponse.ipfsUrl
    let iso ← Outcome.lift (toISOString (w.now 4 + expiry * 1000))
    Outcome.emit (.setMintedQrData {
      medicineId := medicineId
      tokenId := numberToString nextTokenId
      name := name
      qrImageUrl := qrResponse.ipfsUrl
      qrImageUri := qrResponse.ipfsUrl
      metadataUrl := metadataResponse.ipfsUrl
      metadataUri := metadataResponse.ipfsUrl
      qrData := (mintedQrPayload cfg nextTokenId medicineId name iso).stringify })
    Outcome.emit (.alert (mintSuccessAlert nextTokenId medicineId qrResponse metadataResponse))
    Outcome.emit .setDrugs
    Outcome.emit .incrementTokenId

/-- The function `mintDrug(medicineId, name, expiry, uri)` of `App`, run with
the ledger client `contract` (`null` is `none`) and the predicted token id
`nextTokenId` of the token-counter hook. -/
def mintDrug (cfg : Config) (w : World) (contract : Option Contract) (nextTokenId : Int)
    (medicineId : Int) (name : String) (expiry : Int) (_uri : String) : Outcome Unit :=
  match contract with
  | none => pure ()
  | some c =>
    Outcome.tryFinally
      (Outcome.tryCatch (mintDrugTry cfg w c nextTokenId medicineId name expiry)
        (fun error => do
          Outcome.emit (.consoleError "Failed to mint drug:" error)
          Outcome.emit (.alert ("Failed to mint drug: " ++ error))))
      [.setMintLoading false]

/-- The handler `handleSubmit` of `DrugMintForm`, for form fields that
`parseInt` reads as the integers `medicineId` and `days`. -/
def handleSubmit (cfg : Config) (w : World) (contract : Option Contract) (nextTokenId : Int)
    (medicineId : Int) (name : String) (days : Int) : Outcome Unit :=
  let expirySeconds := days * 24 * 60 * 60
  mintDrug cfg w contract nextTokenId medicineId name expirySeconds ""

/-! ## App.jsx: verification and prescriptions -/

/-- A query of the ledger client: `await contract.method(...args)`, the result
being used as data. -/
def Outcome.call {α : Type} (method : String) (args : List LedgerArg)
    (answer : Except String α) : Outcome α :=
  ⟨[.contractCall method args], answer⟩

/-- A transaction: `const tx = await contract.method(...args)` followed by
`await tx.wait()`. -/
def Outcome.send (method : String) (args : List LedgerArg)
    (answer : Except String (Except String Receipt)) : Outcome Receipt := do
  let tx ← (⟨[.contractSend method args], answer⟩ : Outcome (Except String Receipt))
  (⟨[.txWait], tx⟩ : Outcome Receipt)

/-- The body of the `try` block of `verifyDrug`; `now` is the reading of the
clock by `new Date()`. -/
def verifyDrugTry (c : VerifyContract) (tokenId : Int) (now : Int) : Outcome Unit := do
  Outcome.emit (.setVerifyLoading true)
  let drugInfo ← Outcome.call "drugs" [.int tokenId] (c.drugs tokenId)
  let isExpired ← Outcome.call "isDrugExpired" [.int tokenId] (c.isDrugExpired tokenId)
  let owner ← Outcome.call "ownerOf" [.int tokenId] (c.ownerOf tokenId)
  let tokenURI ← Outcome.call "tokenURI" [.int tokenId] (c.tokenURI tokenId)
  let _receipt ← Outcome.send "verifyDrug" [.int tokenId] (c.verifyDrug tokenId)
  let timestamp ← Outcome.lift (toISOString now)
  Outcome.emit (.setVerificationResult {
    tokenId := tokenId
    verified := true
    drugInfo := some {
      tokenId := toString drugInfo.tokenId
      medicineId := toString drugInfo.medicineId
      name := drugInfo.name
      expiryTimestamp := toString drugInfo.expiryTimestamp
      status := drugInfo.status
      currentHolder := drugInfo.currentHolder
      owner := owner
      isExpired := isExpired
      tokenURI := tokenURI }
    error := none
    timestamp := timestamp })
  Outcome.emit (.alert ("Drug token " ++ numberToString tokenId ++ " verified successfully!"))

/-- The `catch` block of `verifyDrug`; `now` is the reading of the clock by
`new Date()`. -/
def verifyDrugCatch (tokenId : Int) (now : Int) (error : String) : Outcome Unit := do
  Outcome.emit (.consoleError "Failed to verify drug:" error)
  let timestamp ← Outcome.lift (toISOString now)
  Outcome.emit (.setVerificationResult {
    tokenId := tokenId
    verified := false
    drugInfo := none
    error := some error
    timestamp := timestamp })
  Outcome.emit (.alert ("Failed to verify drug: " ++ error))

/-- The function `verifyDrug(tokenId)` of `App`, run with the ledger client
`contract` (`null` is `none`); `nowTry` and `nowCatch` are the readings of the
clock in the `try` block and in the `catch` block. -/
def verifyDrug (contract : Option VerifyContract) (tokenId : Int) (nowTry nowCatch : Int) :
    Outcome Unit :=
  match contract with
  | none => pure ()
  | some c =>
    Outcome.tryFinally
      (Outcome.tryCatch (verifyDrugTry c tokenId nowTry) (verifyDrugCatch tokenId nowCatch))
      [.setVerifyLoading false]

/-- The function `createPrescription(patientAddress, medicineId, validityDays)`
of `App`. -/
def createPrescription (contract : Option PrescriptionContract) (patientAddress : String)
    (medicineId validityDays : Int) : Outcome Unit :=
  match contract with
  | none => pure ()
  | some c =>
    Outcome.tryFinally
      (Outcome.tryCatch
        (do
          Outcome.emit (.setLoading true)
          let validityTime := validityDays * 24 * 60 * 60
          let _receipt ← Outcome.send "createPrescription"
            [.str patientAddress, .int medicineId, .int validityTime]
            (c.createPrescription patientAddress medicineId validityTime)
          Outcome.emit (.alert "Prescription created successfully!"))
        (fun error => do
          Outcome.emit (.consoleError "Failed to create prescription:" error)
          Outcome.emit (.alert ("Failed to create prescription: " ++ error))))
      [.setLoading false]

/-- The handler `handleSubmit` of `PrescriptionForm`, for form fields that
`parseInt` reads as the integers `medicineId` and `validityDays`. -/
def PrescriptionForm.handleSubmit (contract : Option PrescriptionContract)
    (patientAddress : String) (medicineId validityDays : Int) : Outcome Unit :=
  createPrescription contract patientAddress medicineId validityDays

/-! ## useTokenCounter.js -/

/-- White space and line terminators, which `parseInt` skips at the start. -/
def isWhiteSpace (c : Char) : Bool :=
  c.toNat ∈ [9, 10, 11, 12, 13, 32, 160, 5760, 8232, 8233, 8239, 8287, 12288, 65279]
    || (8192 ≤ c.toNat && c.toNat ≤ 8202)

/-- The value of a character as a digit of the given radix, if it is one. -/
def digitOf (radix : Nat) (c : Char) : Option Nat :=
  let v :=
    if 48 ≤ c.toNat ∧ c.toNat ≤ 57 then c.toNat - 48
    else if 97 ≤ c.toNat ∧ c.toNat ≤ 122 then c.toNat - 87
    else if 65 ≤ c.toNat ∧ c.toNat ≤ 90 then c.toNat - 55
    else radix
  if v < radix then some v else none

/-- The values of the longest prefix of digits of the given radix. -/
def leadingDigits (radix : Nat) : List Char → List Nat
  | [] => []
  | c :: cs =>
    match digitOf radix c with
    | some d => d :: leadingDigits radix cs
    | none => []

/-- The integer written by a list of digits, most significant first. -/
def digitsValue (radix : Nat) (ds : List Nat) : Nat :=
  ds.foldl (fun acc d => acc * radix + d) 0

/-- The Number nearest to an integer: the integer itself when its magnitude is
below `2^53`, else its rounding `round` (floating point, left uninterpreted). -/
def toNumber (round : Int → Int) (m : Int) : Int :=
  if -(2 ^ 53) < m ∧ m < 2 ^ 53 then m else round m

/-- The function `parseInt(string)` without a radix; `none` is `NaN`. -/
def parseInt (round : Int → Int) (s : String) : Option Int :=
  let trimmed := s.toList.dropWhile isWhiteSpace
  let negative := trimmed.head? = some '-'
  let unsigned :=
    if trimmed.head? = some '-' ∨ trimmed.head? = some '+' then trimmed.tail else trimmed
  let hex := unsigned.take 2 = ['0', 'x'] ∨ unsigned.take 2 = ['0', 'X']
  let radix := if hex then 16 else 10
  let digits := leadingDigits radix (if hex then unsigned.drop 2 else unsigned)
  if digits = [] then none
  else
    let mathInt : Int := digitsValue radix digits
    some (toNumber round (if negative then -mathInt else mathInt))

/-- The function `fetchNextTokenId` of the effect of `useTokenCounter`. -/
def fetchNextTokenId (round : Int → Int) (contract : Option CounterContract) : Outcome Unit :=
  match contract with
  | none => pure ()
  | some c =>
    Outcome.tryCatch
      (do
        let nextId ← Outcome.call "getNextTokenId" [] c.getNextTokenId
        Outcome.emit (.setNextTokenId (parseInt round (toString nextId))))
      (fun error => do
        Outcome.emit (.consoleError "Error fetching next token ID:" error)
        Outcome.emit (.setNextTokenId (some 1)))

/-- The state `nextTokenId` after an effect; `none` is `NaN`. -/
def applyToCounter (nextTokenId : Option Int) : Event → Option Int
  | .setNextTokenId n => n
  | .incrementTokenId => nextTokenId.map (fun prev => prev + 1)
  | _ => nextTokenId

/-- The hook `useTokenCounter(contract)`: the state `nextTokenId`, which starts
at 1, after the effect has run for `contract`. -/
def useTokenCounter (round : Int → Int) (contract : Option CounterContract) : Option Int :=
  (fetchNextTokenId round contract).trace.foldl applyToCounter (some 1)

/-! ## App.jsx: roles and claims -/

/-- The loop `for (let role of roleChecks)` of `checkUserRoles` over the
remaining pairs of a name and an identifier, entered with the array `roles`
built so far. -/
def checkRoleLoop (c : RolesContract) (address : String) :
    List (String × String) → List String → Outcome (List String)
  | [], roles => pure roles
  | (name, hash) :: rest, roles => do
    let hasRole ← Outcome.call "hasRole" [.str hash, .str address] (c.hasRole hash address)
    Outcome.emit (.consoleLog ("Role " ++ name ++ " (" ++ hash ++ "):"))
    checkRoleLoop c address rest (if hasRole then roles ++ [name] else roles)

/-- The function `checkUserRoles(contractInstance, address)` of `App`. -/
def checkUserRoles (c : RolesContract) (address : String) : Outcome Unit :=
  Outcome.tryCatch
    (do
      let adminHash ← Outcome.call "DEFAULT_ADMIN_ROLE" [] c.DEFAULT_ADMIN_ROLE
      let mfgHash ← Outcome.call "MFG_ROLE" [] c.MFG_ROLE
      let intHash ← Outcome.call "INT_ROLE" [] c.INT_ROLE
      let pharHash ← Outcome.call "PHAR_ROLE" [] c.PHAR_ROLE
      let docHash ← Outcome.call "DOC_ROLE" [] c.DOC_ROLE
      let patHash ← Outcome.call "PAT_ROLE" [] c.PAT_ROLE
      let insHash ← Outcome.call "INS_ROLE" [] c.INS_ROLE
      let roleChecks := [("Admin", adminHash), ("Manufacturer", mfgHash),
        ("Intermediary", intHash), ("Pharmacist", pharHash), ("Doctor", docHash),
        ("Patient", patHash), ("Insurer", insHash)]
      Outcome.emit (.consoleLog "Checking roles for address:")
      let roles ← checkRoleLoop c address roleChecks []
      Outcome.emit (.consoleLog "Final user roles:")
      Outcome.emit (.setUserRoles roles))
    (fun error => Outcome.emit (.consoleError "Failed to check roles:" error))

/-- The callback of `pendingClaimIds.map` in `loadPendingClaims`. -/
def loadClaimDetail (c : ClaimsContract) (claimId : Nat) : Outcome (Option ClaimEntry) :=
  Outcome.tryCatch
    (do
      let claim ← Outcome.call "insuranceClaims" [.int claimId] (c.insuranceClaims claimId)
      pure (some {
        claimId := toString claimId
        prescriptionId := toString claim.prescriptionId
        isApproved := claim.isApproved }))
    (fun error => do
      Outcome.emit (.consoleError ("Error loading claim " ++ toString claimId ++ ":") error)
      pure none)

/-- The expression `await Promise.all(promises)`: the values of the promises in
their order, or the message of the first of them that rejects. All promises
run; their effects, which may interleave, are listed promise by promise. -/
def Outcome.all {α : Type} : List (Outcome α) → Outcome (List α)
  | [] => ⟨[], .ok []⟩
  | x :: xs =>
    ⟨x.trace ++ (Outcome.all xs).trace,
      match x.result, (Outcome.all xs).result with
      | .ok a, .ok rest => .ok (a :: rest)
      | .error e, _ => .error e
      | .ok _, .error e => .error e⟩

/-- The function `loadPendingClaims()` of `App`, run with the ledger client
`contract` (`null` is `none`) and the state `userRoles`. -/
def loadPendingClaims (contract : Option ClaimsContract) (userRoles : List String) :
    Outcome Unit :=
  match contract with
  | none => pure ()
  | some c =>
    if !userRoles.contains "Insurer" then pure ()
    else
      Outcome.tryCatch
        (do
          let pendingClaimIds ← Outcome.call "getPendingClaims" [] c.getPendingClaims
          let claimsWithDetails ← Outcome.all (pendingClaimIds.map (loadClaimDetail c))
          Outcome.emit (.setClaims (claimsWithDetails.filterMap (fun claim => claim))))
        (fun error => Outcome.emit (.consoleError "Failed to load pending claims:" error))

/-! ## RoleGranter.jsx -/

/-- The submission of a transaction: `tx = await contract.method(...args)`. -/
def Outcome.submit (method : String) (args : List LedgerArg)
    (answer : Except String (Except String Receipt)) : Outcome (Except String Receipt) :=
  ⟨[.contractSend method args], answer⟩

/-- The statement `switch (grantData.role)` of `handleGrantRole`, which assigns
the transaction `tx` or throws. -/
def grantTransaction (c : GrantContract) (grantData : GrantData) :
    Outcome (Except String Receipt) :=
  match grantData.role with
  | "admin" => do
    let adminRole ← Outcome.call "DEFAULT_ADMIN_ROLE" [] c.DEFAULT_ADMIN_ROLE
    Outcome.submit "grantRole" [.str adminRole, .str grantData.address]
      (c.grantRole adminRole grantData.address)
  | "manufacturer" =>
    Outcome.submit "grantMfg" [.str grantData.address] (c.grantMfg grantData.address)
  | "intermediary" =>
    Outcome.submit "grantInt" [.str grantData.address] (c.grantInt grantData.address)
  | "pharmacist" =>
    Outcome.submit "grantPhar" [.str grantData.address] (c.grantPhar grantData.address)
  | "doctor" =>
    Outcome.submit "grantDoc" [.str grantData.address] (c.grantDoc grantData.address)
  | "patient" =>
    Outcome.submit "grantPat" [.str grantData.address] (c.grantPat grantData.address)
  | "insurer" =>
    Outcome.submit "grantIns" [.str grantData.address] (c.grantIns grantData.address)
  | _ => Outcome.throw "Invalid role selected"

/-- The handler `handleGrantRole` of `RoleGranter`, run with the ledger client
`contract` (`null` is `none`) and the state `grantData` of the form. -/
def handleGrantRole (contract : Option GrantContract) (grantData : GrantData) : Outcome Unit :=
  match contract with
  | none => pure ()
  | some c =>
    Outcome.tryFinally
      (Outcome.tryCatch
        (do
          Outcome.emit (.setLoading true)
          let tx ← grantTransaction c grantData
          let _receipt ← (⟨[.txWait], tx⟩ : Outcome Receipt)
          Outcome.emit (.alert ("Successfully granted " ++ grantData.role ++ " role to "
            ++ grantData.address))
          Outcome.emit (.setGrantData ⟨"", "manufacturer"⟩))
        (fun error => do
          Outcome.emit (.consoleError "Failed to grant role:" error)
          Outcome.emit (.alert ("Failed to grant role: " ++ error))))
      [.setLoading false]

/-- What the component `RoleGranter` renders: the notice `Admin Access Required`,
which has no form, or the form `Grant Roles (Admin Only)`, whose submission runs
`handleGrantRole`. -/
inductive RoleGranterView where
  | adminRequired
  | grantForm
  deriving DecidableEq, Repr

/-- The component `RoleGranter`, by the state `userRoles` it is given. -/
def RoleGranter (userRoles : List String) : RoleGranterView :=
  if !userRoles.contains "Admin" then .adminRequired else .grantForm

/-- A submission to what `RoleGranter` renders: `handleGrantRole` is the
`onSubmit` handler of the form, and the notice has nothing to submit. -/
def RoleGranter.submit (contract : Option GrantContract) (userRoles : List String)
    (grantData : GrantData) : Outcome Unit :=
  match RoleGranter userRoles with
  | .adminRequired => pure ()
  | .grantForm => handleGrantRole contract grantData

/-! ## App.jsx: the tabs -/

/-- What `renderTabContent` returns: a component, the line that refuses access,
or the overview. -/
inductive TabContent where
  | roleGranter (view : RoleGranterView)
  | drugMintForm
  | intermediaryForm
  | pharmacistForm
  | prescriptionForm
  | insurerForm
  | patientForm
  | noAccess
  | overview
  deriving DecidableEq, Repr

/-- The function `renderTabContent()` of `App`, by the states `activeTab` and
`userRoles`. The list of pending claims is rendered by `InsurerForm` only. -/
def renderTabContent (activeTab : String) (userRoles : List String) : TabContent :=
  match activeTab with
  | "admin" => .roleGranter (RoleGranter userRoles)
  | "manufacturer" => if userRoles.contains "Manufacturer" then .drugMintForm else .noAccess
  | "intermediary" => if userRoles.contains "Intermediary" then .intermediaryForm else .noAccess
  | "pharmacist" => if userRoles.contains "Pharmacist" then .pharmacistForm else .noAccess
  | "doctor" => if userRoles.contains "Doctor" then .prescriptionForm else .noAccess
  | "insurer" => if userRoles.contains "Insurer" then .insurerForm else .noAccess
  | "patient" => .patientForm
  | _ => .overview

/-! ## Definitions used in the statements -/

/-- The result of an upload, from what `fetch` answered. -/
def IPFSService.pinned (svc : IPFSService) (b : ParsedBody) : UploadResult :=
  { ipfsUri := "ipfs://" ++ b.IpfsHash
    ipfsUrl := svc.getHttpUrl ("ipfs://" ++ b.IpfsHash)
    hash := b.IpfsHash }

/-- The text `createQRCode` hands to the QR library, given the ISO expiry date. -/
def qrText (cfg : Config) (tokenId medicineId : Int) (drugName iso : String) : String :=
  (qrCodeData cfg tokenId medicineId drugName iso).stringify

/-- The result of an upload as a function of what `fetch` answered. -/
def IPFSService.uploadOutcome (svc : IPFSService) (answer : Except String Response) :
    Except String UploadResult :=
  match answer with
  | .error e => .error e
  | .ok resp =>
    if resp.ok then
      match resp.json with
      | .error e => .error e
      | .ok b => .ok (svc.pinned b)
    else .error (httpErrorMessage resp)

/-! ### The runs of `mintDrug` -/

section Run

variable (cfg : Config) (w : World) (c : Contract) (nextTokenId medicineId : Int)
  (name : String) (expiry : Int)

/-- Step 0 of a run: the connectivity test. -/
abbrev stepConnection : Outcome Bool := (IPFSService.new cfg).testConnection w

/-- Step 2 of a run: the QR encoding. -/
abbrev stepEncode : Outcome Blob :=
  createQRCode cfg w (w.now 0) nextTokenId medicineId name expiry

/-- Step 3 of a run: the upload of the QR image `blob`. -/
abbrev stepUploadQR (blob : Blob) : Outcome UploadResult :=
  (IPFSService.new cfg).uploadFile w (w.now 1)
    (File.mk blob ("medicine_qr_" ++ numberToString nextTokenId ++ ".png") "image/png")
    ("Medicine QR Code Token " ++ numberToString nextTokenId)

/-- Step 4 of a run: the upload of the metadata document. -/
abbrev stepUploadMetadata (qr : UploadResult) (created : String) : Outcome UploadResult :=
  (IPFSService.new cfg).uploadJSON w (w.now 3)
    (mintMetadata cfg w medicineId name expiry qr created)
    ("Medicine " ++ numberToString medicineId ++ " Metadata")

/-- The connectivity test returned true and the QR encoding, the QR-image upload
(with result `qr`) and the metadata upload (with result `md`) each succeeded. -/
def ArtifactsStored (qr md : UploadResult) : Prop :=
  ∃ blob created,
    (stepConnection cfg w).result = .ok true ∧
    (stepEncode cfg w nextTokenId medicineId name expiry).result = .ok blob ∧
    (stepUploadQR cfg w nextTokenId blob).result = .ok qr ∧
    toISOString (w.now 2) = .ok created ∧
    (stepUploadMetadata cfg w medicineId name expiry qr created).result = .ok md

/-- The request of the QR-image upload of a run whose payload has expiry date `iso`. -/
def qrUploadRequest (iso : String) : Request :=
  (IPFSService.new cfg).uploadFileRequest (w.now 1)
    (File.mk ⟨qrText cfg nextTokenId medicineId name iso, 256, "image/png"⟩
      ("medicine_qr_" ++ numberToString nextTokenId ++ ".png") "image/png")
    ("Medicine QR Code Token " ++ numberToString nextTokenId)

/-- The request of the metadata upload of a run. -/
def metadataUploadRequest (qr : UploadResult) (created : String) : Request :=
  (IPFSService.new cfg).uploadJSONRequest (w.now 3)
    (mintMetadata cfg w medicineId name expiry qr created)
    ("Medicine " ++ numberToString medicineId ++ " Metadata")

/-- The effects of a run up to the connectivity request. -/
def traceToConnection : List Event :=
  [.setMintLoading true, .consoleLog "Testing IPFS connection...",
    .fetch (IPFSService.new cfg).testConnectionRequest]

/-- The effects of a run from the answer of the connectivity test to the QR encoding. -/
def traceToEncode : List Event :=
  [.consoleLog "Pinata connection successful:", .consoleLog "IPFS connection successful!",
    .consoleLog "Next Token ID will be:", .consoleLog "Step 2: Generating QR code for token ID:"]

/-- The effects of a run from the QR encoding to the request of the QR-image upload. -/
def traceToUploadQR (iso : String) : List Event :=
  [.toCanvas (qrText cfg nextTokenId medicineId name iso) 256,
    .consoleLog "Step 3: Uploading QR code to IPFS...",
    .fetch (qrUploadRequest cfg w nextTokenId medicineId name iso)]

/-- The effects of a run from the answer of the QR-image upload to the request of
the metadata upload. -/
def traceToUploadMetadata (qr : UploadResult) (created : String) : List Event :=
  [.consoleLog "QR uploaded:", .consoleLog "Step 3-4: Creating and uploading metadata to IPFS...",
    .fetch (metadataUploadRequest cfg w medicineId name expiry qr created)]

/-- The effects of a run before the ledger call, when steps 1 to 4 succeeded. -/
def traceBeforeMint (iso : String) (qr : UploadResult) (created : String) : List Event :=
  traceToConnection cfg ++ traceToEncode ++ traceToUploadQR cfg w nextTokenId medicineId name iso
    ++ traceToUploadMetadata cfg w medicineId name expiry qr created
    ++ [.consoleLog "Metadata uploaded:",
      .consoleLog "Step 5: Minting drug with HTTP metadata URL..."]

/-- The effects of the `catch` and `finally` blocks of `mintDrug` for the error `e`. -/
def traceOfFailure (e : String) : List Event :=
  [.consoleError "Failed to mint drug:" e, .alert ("Failed to mint drug: " ++ e),
    .setMintLoading false]

/-- The effects of a run after a successful `tx.wait()`. -/
def traceOfSuccess (iso : String) (qr md : UploadResult) : List Event :=
  [.setMintedQrData {
      medicineId := medicineId
      tokenId := numberToString nextTokenId
      name := name
      qrImageUrl := qr.ipfsUrl
      qrImageUri := qr.ipfsUrl
      metadataUrl := md.ipfsUrl
      metadataUri := md.ipfsUrl
      qrData := (mintedQrPayload cfg nextTokenId medicineId name iso).stringify },
    .alert (mintSuccessAlert nextTokenId medicineId qr md),
    .setDrugs, .incrementTokenId, .setMintLoading false]

/-- The runs of `mintDrug` with a ledger client, one constructor per place where
the run can end; the index is the list of effects of the run. -/
inductive MintRun : List Event → Prop where
  | connectionFailed (l m : String)
      (h0 : stepConnection cfg w
        = ⟨[.fetch (IPFSService.new cfg).testConnectionRequest, .consoleError l m], .ok false⟩) :
      MintRun (traceToConnection cfg ++ [.consoleError l m] ++ traceOfFailure
        "Failed to connect to IPFS service. Please check your API credentials.")
  | expiryInvalid (e : String)
      (h0 : (stepConnection cfg w).result = .ok true)
      (h1 : toISOString (w.now 0 + expiry * 1000) = .error e)
      (h2 : stepEncode cfg w nextTokenId medicineId name expiry = ⟨[], .error e⟩) :
      MintRun (traceToConnection cfg ++ traceToEncode ++ traceOfFailure e)
  | encodingFailed (iso e : String)
      (h0 : (stepConnection cfg w).result = .ok true)
      (h1 : toISOString (w.now 0 + expiry * 1000) = .ok iso)
      (h2 : (stepEncode cfg w nextTokenId medicineId name expiry).result = .error e) :
      MintRun (traceToConnection cfg ++ traceToEncode
        ++ [.toCanvas (qrText cfg nextTokenId medicineId name iso) 256,
          .consoleError "Error generating QR code:" e] ++ traceOfFailure e)
  | uploadQRFailed (iso e : String)
      (h0 : (stepConnection cfg w).result = .ok true)
      (h1 : toISOString (w.now 0 + expiry * 1000) = .ok iso)
      (h2 : (stepEncode cfg w nextTokenId medicineId name expiry).result
        = .ok ⟨qrText cfg nextTokenId medicineId name iso, 256, "image/png"⟩)
      (h3 : (stepUploadQR cfg w nextTokenId
        ⟨qrText cfg nextTokenId medicineId name iso, 256, "image/png"⟩).result = .error e) :
      MintRun (traceToConnection cfg ++ traceToEncode
        ++ traceToUploadQR cfg w nextTokenId medicineId name iso
        ++ [.consoleError "Error uploading file to IPFS:" e] ++ traceOfFailure e)
  | createdInvalid (iso e : String) (qr : UploadResult)
      (h0 : (stepConnection cfg w).result = .ok true)
      (h1 : toISOString (w.now 0 + expiry * 1000) = .ok iso)
      (h2 : (stepEncode cfg w nextTokenId medicineId name expiry).result
        = .ok ⟨qrText cfg nextTokenId medicineId name iso, 256, "image/png"⟩)
      (h3 : (stepUploadQR cfg w nextTokenId
        ⟨qrText cfg nextTokenId medicineId name iso, 256, "image/png"⟩).result = .ok qr)
      (h4 : toISOString (w.now 2) = .error e) :
      MintRun (traceToConnection cfg ++ traceToEncode
        ++ traceToUploadQR cfg w nextTokenId medicineId name iso
        ++ [.consoleLog "QR uploaded:"] ++ traceOfFailure e)
  | uploadMetadataFailed (iso e created : String) (qr : UploadResult)
      (h0 : (stepConnection cfg w).result = .ok true)
      (h1 : toISOString (w.now 0 + expiry * 1000) = .ok iso)
      (h2 : (stepEncode cfg w nextTokenId medicineId name expiry).result
        = .ok ⟨qrText cfg nextTokenId medicineId name iso, 256, "image/png"⟩)
      (h3 : (stepUploadQR cfg w nextTokenId
        ⟨qrText cfg nextTokenId medicineId name iso, 256, "image/png"⟩).result = .ok qr)
      (h4 : toISOString (w.now 2) = .ok created)
      (h5 : (stepUploadMetadata cfg w medicineId name expiry qr created).result = .error e) :
      MintRun (traceToConnection cfg ++ traceToEncode
        ++ traceToUploadQR cfg w nextTokenId medicineId name iso
        ++ traceToUploadMetadata cfg w medicineId name expiry qr created
        ++ [.consoleError "Error uploading JSON to IPFS:" e] ++ traceOfFailure e)
  | mintRejected (iso e created : String) (qr md : UploadResult)
      (h1 : toISOString (w.now 0 + expiry * 1000) = .ok iso)
      (h4 : toISOString (w.now 2) = .ok created)
      (hs : ArtifactsStored cfg w nextTokenId medicineId name expiry qr md)
      (h6 : c.mintDrug medicineId name expiry md.ipfsUrl = .error e) :
      MintRun (traceBeforeMint cfg w nextTokenId medicineId name expiry iso qr created
        ++ [.contractMintDrug medicineId name expiry md.ipfsUrl] ++ traceOfFailure e)
  | waitRejected (iso e created : String) (qr md : UploadResult)
      (h1 : toISOString (w.now 0 + expiry * 1000) = .ok iso)
      (h4 : toISOString (w.now 2) = .ok created)
      (hs : ArtifactsStored cfg w nextTokenId medicineId name expiry qr md)
      (h6 : c.mintDrug medicineId name expiry md.ipfsUrl = .ok (.error e)) :
      MintRun (traceBeforeMint cfg w nextTokenId medicineId name expiry iso qr created
        ++ [.contractMintDrug medicineId name expiry md.ipfsUrl, .txWait] ++ traceOfFailure e)
  | recordInvalid (iso e created : String) (qr md : UploadResult) (r : Receipt)
      (h1 : toISOString (w.now 0 + expiry * 1000) = .ok iso)
      (h4 : toISOString (w.now 2) = .ok created)
      (hs : ArtifactsStored cfg w nextTokenId medicineId name expiry qr md)
      (h6 : c.mintDrug medicineId name expiry md.ipfsUrl = .ok (.ok r))
      (h7 : toISOString (w.now 4 + expiry * 1000) = .error e) :
      MintRun (traceBeforeMint cfg w nextTokenId medicineId name expiry iso qr created
        ++ [.contractMintDrug medicineId name expiry md.ipfsUrl, .txWait] ++ traceOfFailure e)
  | minted (iso created iso2 : String) (qr md : UploadResult) (r : Receipt)
      (h1 : toISOString (w.now 0 + expiry * 1000) = .ok iso)
      (h4 : toISOString (w.now 2) = .ok created)
      (hs : ArtifactsStored cfg w nextTokenId medicineId name expiry qr md)
      (h6 : c.mintDrug medicineId name expiry md.ipfsUrl = .ok (.ok r))
      (h7 : toISOString (w.now 4 + expiry * 1000) = .ok iso2) :
      MintRun (traceBeforeMint cfg w nextTokenId medicineId name expiry iso qr created
        ++ [.contractMintDrug medicineId name expiry md.ipfsUrl, .txWait]
        ++ traceOfSuccess cfg nextTokenId medicineId name iso2 qr md)

end Run

/-! ### Kinds of effects -/

/-- The ledger mint call `contract.mintDrug(...)`. -/
def Event.isLedgerMint : Event → Bool
  | .contractMintDrug _ _ _ _ => true
  | _ => false

/-- A call to the artifact store (an HTTP request of `IPFSService`). -/
def Event.isStoreCall : Event → Bool
  | .fetch _ => true
  | _ => false

/-- A step of the pipeline that calls a collaborator: an HTTP request, the QR
encoder, the ledger mint call or the wait for its transaction. -/
def Event.isStep : Event → Bool
  | .fetch _ => true
  | .toCanvas _ _ => true
  | .contractMintDrug _ _ _ _ => true
  | .txWait => true
  | _ => false

/-- An alert shown to the user. -/
def Event.isAlert : Event → Bool
  | .alert _ => true
  | _ => false

/-- The call `setMintedQrData(...)`. -/
def Event.isRecord : Event → Bool
  | .setMintedQrData _ => true
  | _ => false

/-- The verification payload an effect carries: the text handed to the QR
encoder, or the `qrData` recorded for display. -/
def Event.payload? : Event → Option String
  | .toCanvas text _ => some text
  | .setMintedQrData d => some d.qrData
  | _ => none

/-! ### The verdict of a run -/

section Verdict

variable (cfg : Config) (w : World) (c : Contract) (nextTokenId medicineId : Int)
  (name : String) (expiry : Int)

/-- How steps 1 to 4 of a run end: the message of the first error, or the
results of the two uploads. -/
def artifactsVerdict : Except String (UploadResult × UploadResult) :=
  match (stepConnection cfg w).result with
  | .error e => .error e
  | .ok false => .error "Failed to connect to IPFS service. Please check your API credentials."
  | .ok true =>
    match (stepEncode cfg w nextTokenId medicineId name expiry).result with
    | .error e => .error e
    | .ok blob =>
      match (stepUploadQR cfg w nextTokenId blob).result with
      | .error e => .error e
      | .ok qr =>
        match toISOString (w.now 2) with
        | .error e => .error e
        | .ok created =>
          match (stepUploadMetadata cfg w medicineId name expiry qr created).result with
          | .error e => .error e
          | .ok md => .ok (qr, md)

/-- How the `try` block of a run ends: the message of the first error, or the
results of the two uploads when the token was minted. -/
def mintVerdict : Except String (UploadResult × UploadResult) :=
  match artifactsVerdict cfg w nextTokenId medicineId name expiry with
  | .error e => .error e
  | .ok (qr, md) =>
    match c.mintDrug medicineId name expiry md.ipfsUrl with
    | .error e => .error e
    | .ok (.error e) => .error e
    | .ok (.ok _) =>
      match toISOString (w.now 4 + expiry * 1000) with
      | .error e => .error e
      | .ok _ => .ok (qr, md)

/-- The alert of a run that ended with the given verdict. -/
def alertOf (v : Except String (UploadResult × UploadResult)) : Event :=
  match v with
  | .error e => .alert ("Failed to mint drug: " ++ e)
  | .ok (qr, md) => .alert (mintSuccessAlert nextTokenId medicineId qr md)

end Verdict

/-- The ledger client `c` with the receipts of its mints replaced by `f`. -/
def Contract.mapReceipt (c : Contract) (f : Receipt → Receipt) : Contract :=
  ⟨fun medicineId name expiry uri => (c.mintDrug medicineId name expiry uri).map (Except.map f)⟩

/-- The address of the endpoint that pins a JSON document. -/
def pinJSONUrl : String := "https://api.pinata.cloud/pinning/pinJSONToIPFS"

instance instDecidableEqExcept {ε α : Type} [DecidableEq ε] [DecidableEq α] :
    DecidableEq (Except ε α)
  | .ok a, .ok b => if h : a = b then isTrue (by rw [h]) else isFalse (fun h2 => h (Except.ok.inj h2))
  | .error a, .error b =>
    if h : a = b then isTrue (by rw [h]) else isFalse (fun h2 => h (Except.error.inj h2))
  | .ok _, .error _ => isFalse (fun h => Except.noConfusion h)
  | .error _, .ok _ => isFalse (fun h => Except.noConfusion h)

/-! ### Sample configuration and worlds -/

/-- A sample configuration: a JWT is set, the gateway is the default one. -/
def sampleConfig : Config := ⟨"0xC0FFEE", some "jwt", none, none, none⟩

/-- A sample world: every request is answered `200 OK` with the hash `QmHash`,
the QR library succeeds and the clock advances by a second per reading. -/
def sampleWorld : World where
  fetch := fun _ => .ok ⟨true, 200, "", .ok ⟨"QmHash"⟩⟩
  toCanvasError := fun _ => none
  now := fun k => 1700000000000 + 1000 * k
  fractionToString := fun a b => toString a ++ "/" ++ toString b

/-- A ledger client that accepts every mint and assigns the token id `n`. -/
def ledgerAssigning (n : Int) : Contract := ⟨fun _ _ _ _ => .ok (.ok ⟨n⟩)⟩

/-- A ledger client that rejects every mint with the message `msg`. -/
def ledgerRejecting (msg : String) : Contract := ⟨fun _ _ _ _ => .error msg⟩

/-- The result of both uploads in the sample world. -/
def sampleUpload : UploadResult :=
  ⟨"ipfs://QmHash", "https://gateway.pinata.cloud/ipfs/QmHash", "QmHash"⟩

/-- A world like the sample world, except that requests to `failingUrl` are
answered `500` with the body `boom`. -/
def worldFailingAt (failingUrl : String) : World where
  fetch := fun req =>
    if req.url = failingUrl then .ok ⟨false, 500, "boom", .error "Unexpected token b in JSON"⟩
    else .ok ⟨true, 200, "", .ok ⟨"QmHash"⟩⟩
  toCanvasError := fun _ => none
  now := fun k => 1700000000000 + 1000 * k
  fractionToString := fun a b => toString a ++ "/" ++ toString b

/-- A world whose store answers every request `200 OK` with a body that is not JSON. -/
def worldAnsweringHtml : World where
  fetch := fun _ => .ok ⟨true, 200, "<html>", .error "Unexpected token < in JSON at position 0"⟩
  toCanvasError := fun _ => none
  now := fun _ => 0
  fractionToString := fun a b => toString a ++ "/" ++ toString b

/-- A sample QR image. -/
def sampleFile : File := ⟨⟨"text", 256, "image/png"⟩, "medicine_qr_1.png", "image/png"⟩

/-! ### Ledger accesses and state updates -/

/-- An access to the ledger: a query, a transaction or the wait for one. -/
def Event.isLedgerAccess : Event → Bool
  | .contractCall _ _ => true
  | .contractSend _ _ => true
  | .contractMintDrug _ _ _ _ => true
  | .txWait => true
  | _ => false

/-- An update of the state of the application (a `set...` call of a hook). -/
def Event.isStateUpdate : Event → Bool
  | .setMintLoading _ => true
  | .setMintedQrData _ => true
  | .setDrugs => true
  | .incrementTokenId => true
  | .setVerifyLoading _ => true
  | .setVerificationResult _ => true
  | .setLoading _ => true
  | .setNextTokenId _ => true
  | .setUserRoles _ => true
  | .setClaims _ => true
  | .setGrantData _ => true
  | _ => false

/-- A call to a collaborator, by what is called: an HTTP request by its address,
a ledger query or transaction by its method. -/
inductive Step where
  | request (url : String)
  | qrEncoding
  | ledgerMint
  | transactionWait
  | ledgerCall (method : String)
  | ledgerSend (method : String)
  deriving DecidableEq, Repr

/-- The call to a collaborator that an effect is, if it is one. -/
def Event.step? : Event → Option Step
  | .fetch req => some (.request req.url)
  | .toCanvas _ _ => some .qrEncoding
  | .contractMintDrug _ _ _ _ => some .ledgerMint
  | .txWait => some .transactionWait
  | .contractCall method _ => some (.ledgerCall method)
  | .contractSend method _ => some (.ledgerSend method)
  | _ => none

/-- The calls of a complete run of the mint pipeline, in order. -/
def pipelineSteps : List Step :=
  [.request "https://api.pinata.cloud/data/testAuthentication", .qrEncoding,
    .request "https://api.pinata.cloud/pinning/pinFileToIPFS",
    .request "https://api.pinata.cloud/pinning/pinJSONToIPFS", .ledgerMint, .transactionWait]

/-- The calls to the ledger of a complete run of `verifyDrug`, in order. -/
def verifySteps : List Step :=
  [.ledgerCall "drugs", .ledgerCall "isDrugExpired", .ledgerCall "ownerOf",
    .ledgerCall "tokenURI", .ledgerSend "verifyDrug", .transactionWait]

/-! ### Sample ledger clients -/

/-- A ledger client whose query `getNextTokenId` answers `n`. -/
def counterAnswering (n : Nat) : CounterContract := ⟨.ok n⟩

/-- A ledger client that knows the token 1 of the sample run and accepts the
verification transaction. -/
def sampleVerifyContract : VerifyContract where
  drugs := fun _ => .ok ⟨1, 101, "Aspirin", 1702592000, 0, "0xMFG"⟩
  isDrugExpired := fun _ => .ok false
  ownerOf := fun _ => .ok "0xMFG"
  tokenURI := fun _ => .ok "https://gateway.pinata.cloud/ipfs/QmHash"
  verifyDrug := fun _ => .ok (.ok ⟨1⟩)

/-- A ledger client that accepts every prescription. -/
def samplePrescriptionContract : PrescriptionContract := ⟨fun _ _ _ => .ok (.ok ⟨1⟩)⟩

/-! ### Verification, roles, grants and claims -/

/-- The message of the first ledger call of `verifyDrug`, in the order of the
calls, that fails, if one does. -/
def VerifyContract.firstFailure (c : VerifyContract) (tokenId : Int) : Option String :=
  match c.drugs tokenId with
  | .error e => some e
  | .ok _ =>
    match c.isDrugExpired tokenId with
    | .error e => some e
    | .ok _ =>
      match c.ownerOf tokenId with
      | .error e => some e
      | .ok _ =>
        match c.tokenURI tokenId with
        | .error e => some e
        | .ok _ =>
          match c.verifyDrug tokenId with
          | .error e => some e
          | .ok (.error e) => some e
          | .ok (.ok _) => none

/-- A ledger client that rejects every call of `verifyDrug` with `NotFound`. -/
def verifyContractRejecting : VerifyContract where
  drugs := fun _ => .error "NotFound"
  isDrugExpired := fun _ => .error "NotFound"
  ownerOf := fun _ => .error "NotFound"
  tokenURI := fun _ => .error "NotFound"
  verifyDrug := fun _ => .error "NotFound"

/-- The names of the roles, in the order in which `checkUserRoles` checks them. -/
def roleNames : List String :=
  ["Admin", "Manufacturer", "Intermediary", "Pharmacist", "Doctor", "Patient", "Insurer"]

/-- A ledger client for `checkUserRoles`: the account `0xA` holds the roles of
admin and of doctor, and no other account holds a role. -/
def sampleRolesContract : RolesContract where
  DEFAULT_ADMIN_ROLE := .ok "0x00"
  MFG_ROLE := .ok "0xMFG"
  INT_ROLE := .ok "0xINT"
  PHAR_ROLE := .ok "0xPHAR"
  DOC_ROLE := .ok "0xDOC"
  PAT_ROLE := .ok "0xPAT"
  INS_ROLE := .ok "0xINS"
  hasRole := fun role account => .ok (account == "0xA" && (role == "0x00" || role == "0xDOC"))

/-- The entry of the list of claims for a pending claim: the one built from the
answer of the query `insuranceClaims(claimId)`, none when the query fails. -/
def ClaimsContract.entry? (c : ClaimsContract) (claimId : Nat) : Option ClaimEntry :=
  match c.insuranceClaims claimId with
  | .ok claim => some ⟨toString claimId, toString claim.prescriptionId, claim.isApproved⟩
  | .error _ => none

/-- A ledger client for `loadPendingClaims`: the claims 1, 2 and 3 are pending,
the claim `k` is for the prescription `k + 10`, and the query for the claim 2
fails. -/
def sampleClaimsContract : ClaimsContract where
  getPendingClaims := .ok [1, 2, 3]
  insuranceClaims := fun claimId =>
    if claimId = 2 then .error "boom" else .ok ⟨claimId + 10, claimId == 3⟩

/-- A transaction submitted to the ledger. -/
def Event.isTransaction : Event → Bool
  | .contractSend _ _ => true
  | .contractMintDrug _ _ _ _ => true
  | _ => false

/-- A ledger client for `handleGrantRole` that accepts every grant. -/
def sampleGrantContract : GrantContract where
  DEFAULT_ADMIN_ROLE := .ok "0x00"
  grantRole := fun _ _ => .ok (.ok ⟨0⟩)
  grantMfg := fun _ => .ok (.ok ⟨0⟩)
  grantInt := fun _ => .ok (.ok ⟨0⟩)
  grantPhar := fun _ => .ok (.ok ⟨0⟩)
  grantDoc := fun _ => .ok (.ok ⟨0⟩)
  grantPat := fun _ => .ok (.ok ⟨0⟩)
  grantIns := fun _ => .ok (.ok ⟨0⟩)

/-! ### Sessions of mints -/

/-- The state `nextTokenId` of the hook `useTokenCounter` after the effects `t`,
from the state `n`. -/
def counterAfter (n : Option Int) (t : List Event) : Option Int :=
  t.foldl applyToCounter n

/-- The `try` block of a run of `mintDrug` ran to its end (there is a ledger
client, steps 1 to 4 succeeded, the ledger minted the token and the record for
display was written). -/
def mintCompleted (cfg : Config) (w : World) (contract : Option Contract)
    (nextTokenId medicineId : Int) (name : String) (expiry : Int) : Bool :=
  match contract with
  | none => false
  | some c => (mintVerdict cfg w c nextTokenId medicineId name expiry).toBool

/-- A call of `mintDrug`: the world and the ledger client of the run, and the
arguments. -/
structure MintAttempt where
  world : World
  contract : Option Contract
  medicineId : Int
  name : String
  expiry : Int
  uri : String

/-- The state `nextTokenId` after successive calls of `mintDrug`, each run with
the state the previous one left, from the state `n` (`none` when a state is
`NaN`). -/
def mintSession (cfg : Config) : Int → List MintAttempt → Option Int
  | n, [] => some n
  | n, a :: rest =>
    (counterAfter (some n)
      (mintDrug cfg a.world a.contract n a.medicineId a.name a.expiry a.uri).trace).bind
      (fun m => mintSession cfg m rest)

/-- The attempt to mint Aspirin, valid for 30 days, in the sample world on a
ledger that accepts the mint. -/
def sampleAttempt : MintAttempt :=
  ⟨sampleWorld, some (ledgerAssigning 1), 101, "Aspirin", 2592000, ""⟩

/-- The sample configuration with the gateway `g` set in `VITE_PINATA_GATEWAY`. -/
def configWithGateway (g : String) : Config := ⟨"0xC0FFEE", some "jwt", some g, none, none⟩

/-! ## The ledger, modelled from the spec -/

/-- Modelled from the spec: the ledger contract (`PrescriptionAndInsuranceManager`,
deployed by `MedicalSupplyChain.js`) is not among the sources. The roles of
section 3. -/
inductive Role where
  | Admin | Manufacturer | Intermediary | Pharmacist | Doctor | Patient | Insurer
  deriving DecidableEq, Repr

/-- Modelled from the spec: the ledger contract is not among the sources. The
status of a drug token (section 3), in the order of the custody chain. -/
inductive Status where
  | Minted | WithIntermediary | WithPharmacy | Dispensed
  deriving DecidableEq, Repr

/-- Modelled from the spec: the ledger contract is not among the sources. The
position of a status in the chain Minted, WithIntermediary, WithPharmacy,
Dispensed. -/
def Status.rank : Status → Nat
  | .Minted => 0
  | .WithIntermediary => 1
  | .WithPharmacy => 2
  | .Dispensed => 3

/-- Modelled from the spec: the ledger contract is not among the sources. The
failures of the ledger operations (section 7). -/
inductive LedgerError where
  | Unauthorized | NotOwner | WrongState | RoleMismatch | NotFound | Expired
  | NoMatchingPrescription | NoInventory | AlreadyProcessed | NotEligible | InvalidInput
  deriving DecidableEq, Repr

/-- Modelled from the spec: the ledger contract is not among the sources. The
record of a drug token (section 3). -/
structure DrugToken where
  tokenId : Nat
  medicineId : Int
  name : String
  expiryTimestamp : Int
  status : Status
  currentHolder : String
  deriving DecidableEq, Repr

/-- Modelled from the spec: the ledger contract is not among the sources. The
record of a prescription (section 3). -/
structure Prescription where
  id : Nat
  patientAddress : String
  medicineId : Int
  validUntil : Int
  consumed : Bool
  deriving DecidableEq, Repr

/-- Modelled from the spec: the ledger contract is not among the sources. The
record of an insurance claim (section 3); `isApproved` is false while the claim
is pending. -/
structure InsuranceClaim where
  claimId : Nat
  prescriptionId : Nat
  isApproved : Bool
  processed : Bool
  deriving DecidableEq, Repr

/-- Modelled from the spec: the ledger contract is not among the sources. The
state of the ledger: the role registry and the three record stores, each in the
order of creation, the record with identifier `k + 1` being at position `k`. -/
structure Ledger where
  roles : List (String × Role)
  tokens : List DrugToken
  prescriptions : List Prescription
  claims : List InsuranceClaim
  deriving DecidableEq, Repr

/-- Modelled from the spec: the ledger contract is not among the sources. The
operations that change the ledger (sections 4.1 to 4.5), with their caller and
arguments. -/
inductive Op where
  | grantRole (granter grantee : String) (role : Role)
  | registerAsPatient (caller : String)
  | mint (caller : String) (medicineId : Int) (name : String) (expirySeconds : Int)
      (artifactLocator : String)
  | transferToIntermediary (caller : String) (tokenId : Nat) (recipient : String)
  | transferToPharmacy (caller : String) (tokenId : Nat) (recipient : String)
  | dispense (caller : String) (patientAddress : String)
  | createPrescription (caller : String) (patientAddress : String) (medicineId : Int)
      (validityDays : Int)
  | createClaim (caller : String) (prescriptionId : Nat)
  | processClaim (caller : String) (claimId : Nat) (approve : Bool)
  deriving DecidableEq, Repr

/-- Modelled from the spec: the ledger contract is not among the sources. The
record with the identifier `id` in a store; identifiers start at 1. -/
def lookup {α : Type} (store : List α) (id : Nat) : Option α :=
  match id with
  | 0 => none
  | k + 1 => store[k]?

/-- Modelled from the spec: the ledger contract is not among the sources. The
position of the last record of a store that satisfies `p` (the most recent
one). -/
def findLastIdx? {α : Type} (p : α → Bool) : List α → Option Nat
  | [] => none
  | a :: l =>
    match findLastIdx? p l with
    | some j => some (j + 1)
    | none => if p a then some 0 else none

/-- Modelled from the spec: the ledger contract is not among the sources. Among
the tokens that satisfy `q`, the position and the record of one with the
soonest expiry (earliest-expiry-first; of several, the oldest token). -/
def earliestIdx? (q : DrugToken → Bool) : List DrugToken → Option (Nat × DrugToken)
  | [] => none
  | t :: ts =>
    match earliestIdx? q ts with
    | none => if q t then some (0, t) else none
    | some (j, u) =>
      if q t && decide (t.expiryTimestamp ≤ u.expiryTimestamp) then some (0, t)
      else some (j + 1, u)

namespace Ledger

/-- Modelled from the spec: the ledger contract is not among the sources. The
operation `hasRole(identity, role)` of section 4.1. -/
def hasRole (s : Ledger) (identity : String) (role : Role) : Bool :=
  s.roles.contains (identity, role)

/-- Modelled from the spec: the ledger contract is not among the sources. A
ledger without records, with the given role registry. -/
def initial (roles : List (String × Role)) : Ledger :=
  { roles := roles, tokens := [], prescriptions := [], claims := [] }

/-- Modelled from the spec: the ledger contract is not among the sources. The
operations `grantRole` and `registerAsPatient` of section 4.1. -/
def grantRole (s : Ledger) (granter grantee : String) (role : Role) : Except LedgerError Ledger :=
  if s.hasRole granter .Admin then
    if s.hasRole grantee role then .ok s
    else .ok { s with roles := s.roles ++ [(grantee, role)] }
  else .error .Unauthorized

/-- Modelled from the spec: the ledger contract is not among the sources. The
self-registration of section 4.1. -/
def registerAsPatient (s : Ledger) (caller : String) : Except LedgerError Ledger :=
  if s.hasRole caller .Patient then .ok s
  else .ok { s with roles := s.roles ++ [(caller, .Patient)] }

/-- Modelled from the spec: the ledger contract is not among the sources. The
operation `mint` of section 4.2 at the time `now`. -/
def mint (s : Ledger) (now : Int) (caller : String) (medicineId : Int) (name : String)
    (expirySeconds : Int) (artifactLocator : String) : Except LedgerError Ledger :=
  if !s.hasRole caller .Manufacturer then .error .Unauthorized
  else if artifactLocator = "" then .error .InvalidInput
  else if expirySeconds ≤ 0 then .error .InvalidInput
  else .ok { s with tokens := s.tokens ++ [{
    tokenId := s.tokens.length + 1
    medicineId := medicineId
    name := name
    expiryTimestamp := now + expirySeconds
    status := .Minted
    currentHolder := caller }] }

/-- Modelled from the spec: the ledger contract is not among the sources. The
operation `transferToIntermediary` of section 4.2. The spec names the failures
`NotOwner`, `WrongState` and `RoleMismatch` without an order; as section 8 asks
for `WrongState` on any attempt from another status, the status is checked
first. -/
def transferToIntermediary (s : Ledger) (caller : String) (tokenId : Nat) (recipient : String) :
    Except LedgerError Ledger :=
  match lookup s.tokens tokenId with
  | none => .error .NotFound
  | some t =>
    if t.status ≠ .Minted then .error .WrongState
    else if t.currentHolder ≠ caller then .error .NotOwner
    else if !s.hasRole recipient .Intermediary then .error .RoleMismatch
    else
      let moved : DrugToken := { t with status := .WithIntermediary, currentHolder := recipient }
      .ok { s with tokens := s.tokens.set (tokenId - 1) moved }

/-- Modelled from the spec: the ledger contract is not among the sources. The
operation `transferToPharmacy` of section 4.2, symmetric to
`transferToIntermediary`. -/
def transferToPharmacy (s : Ledger) (caller : String) (tokenId : Nat) (recipient : String) :
    Except LedgerError Ledger :=
  match lookup s.tokens tokenId with
  | none => .error .NotFound
  | some t =>
    if t.status ≠ .WithIntermediary then .error .WrongState
    else if t.currentHolder ≠ caller then .error .NotOwner
    else if !s.hasRole recipient .Pharmacist then .error .RoleMismatch
    else
      let moved : DrugToken := { t with status := .WithPharmacy, currentHolder := recipient }
      .ok { s with tokens := s.tokens.set (tokenId - 1) moved }

/-- Modelled from the spec: the ledger contract is not among the sources. The
operation `dispense` of section 4.2 at the time `now`: the most recent
unconsumed, unexpired prescription of the patient is matched with the token of
the same medicine, held by the caller with status `WithPharmacy`, that is not
expired and expires soonest; the token becomes `Dispensed` and the prescription
consumed in one step. -/
def dispense (s : Ledger) (now : Int) (caller : String) (patientAddress : String) :
    Except LedgerError Ledger :=
  if !s.hasRole caller .Pharmacist then .error .Unauthorized
  else
    match findLastIdx? (fun p => p.patientAddress == patientAddress && !p.consumed
        && decide (now ≤ p.validUntil)) s.prescriptions with
    | none => .error .NoMatchingPrescription
    | some j =>
      match s.prescriptions[j]? with
      | none => .error .NoMatchingPrescription
      | some p =>
        let candidate : DrugToken → Bool := fun t =>
          t.status == .WithPharmacy && t.currentHolder == caller && t.medicineId == p.medicineId
        if !s.tokens.any candidate then .error .NoInventory
        else
          match earliestIdx? (fun t => candidate t && decide (now ≤ t.expiryTimestamp))
              s.tokens with
          | none => .error .Expired
          | some (i, t) =>
            let dispensed : DrugToken := { t with status := .Dispensed }
            let consumed : Prescription := { p with consumed := true }
            .ok { s with
              tokens := s.tokens.set i dispensed,
              prescriptions := s.prescriptions.set j consumed }

/-- Modelled from the spec: the ledger contract is not among the sources. The
operation `createPrescription` of section 4.3 at the time `now`. -/
def createPrescription (s : Ledger) (now : Int) (caller : String) (patientAddress : String)
    (medicineId : Int) (validityDays : Int) : Except LedgerError Ledger :=
  if !s.hasRole caller .Doctor then .error .Unauthorized
  else .ok { s with prescriptions := s.prescriptions ++ [{
    id := s.prescriptions.length + 1
    patientAddress := patientAddress
    medicineId := medicineId
    validUntil := now + validityDays * 86400
    consumed := false }] }

/-- Modelled from the spec: the ledger contract is not among the sources. The
operation `createClaim` of section 4.5. -/
def createClaim (s : Ledger) (caller : String) (prescriptionId : Nat) :
    Except LedgerError Ledger :=
  match lookup s.prescriptions prescriptionId with
  | none => .error .NotEligible
  | some p =>
    if p.patientAddress = caller ∧ p.consumed = true
        ∧ s.claims.all (fun c => c.prescriptionId != prescriptionId) then
      .ok { s with claims := s.claims ++ [{
        claimId := s.claims.length + 1
        prescriptionId := prescriptionId
        isApproved := false
        processed := false }] }
    else .error .NotEligible

/-- Modelled from the spec: the ledger contract is not among the sources. The
operation `processClaim` of section 4.5. -/
def processClaim (s : Ledger) (caller : String) (claimId : Nat) (approve : Bool) :
    Except LedgerError Ledger :=
  if !s.hasRole caller .Insurer then .error .Unauthorized
  else
    match lookup s.claims claimId with
    | none => .error .NotFound
    | some c =>
      if c.processed then .error .AlreadyProcessed
      else
        let decided : InsuranceClaim := { c with isApproved := approve, processed := true }
        .ok { s with claims := s.claims.set (claimId - 1) decided }

/-- Modelled from the spec: the ledger contract is not among the sources. One
operation as a transaction at the time `now`: the new state, or the failure. -/
def apply (s : Ledger) (now : Int) : Op → Except LedgerError Ledger
  | .grantRole granter grantee role => s.grantRole granter grantee role
  | .registerAsPatient caller => s.registerAsPatient caller
  | .mint caller medicineId name expirySeconds artifactLocator =>
    s.mint now caller medicineId name expirySeconds artifactLocator
  | .transferToIntermediary caller tokenId recipient => s.transferToIntermediary caller tokenId recipient
  | .transferToPharmacy caller tokenId recipient => s.transferToPharmacy caller tokenId recipient
  | .dispense caller patientAddress => s.dispense now caller patientAddress
  | .createPrescription caller patientAddress medicineId validityDays =>
    s.createPrescription now caller patientAddress medicineId validityDays
  | .createClaim caller prescriptionId => s.createClaim caller prescriptionId
  | .processClaim caller claimId approve => s.processClaim caller claimId approve

/-- Modelled from the spec: the ledger contract is not among the sources. The
state after an attempted operation: a failed transaction leaves the ledger as
it was (section 5). -/
def exec (s : Ledger) (now : Int) (op : Op) : Ledger :=
  match s.apply now op with
  | .ok s2 => s2
  | .error _ => s

/-- Modelled from the spec: the ledger contract is not among the sources. The
states the ledger can reach from a ledger without records by attempted
operations, at any times. -/
inductive Reachable : Ledger → Prop where
  | start (roles : List (String × Role)) : Reachable (initial roles)
  | step {s : Ledger} (now : Int) (op : Op) : Reachable s → Reachable (s.exec now op)

end Ledger

/-- Modelled from the spec: the ledger contract is not among the sources. A
role registry with one identity per role. -/
def sampleRoles : List (String × Role) :=
  [("admin", .Admin), ("mfg", .Manufacturer), ("int", .Intermediary), ("phar", .Pharmacist),
    ("doc", .Doctor), ("pat", .Patient), ("ins", .Insurer)]

/-- Modelled from the spec: the ledger contract is not among the sources. The
ledger after the scenarios A, C and D of section 8: a token is minted, moved
along the chain and dispensed against a prescription, and the claim for that
prescription is approved. -/
def sampleLedger : Ledger :=
  [((0 : Int), Op.mint "mfg" 101 "Aspirin" 2592000 "loc"),
    (1, .transferToIntermediary "mfg" 1 "int"),
    (2, .transferToPharmacy "int" 1 "phar"),
    (3, .createPrescription "doc" "pat" 101 7),
    (4, .dispense "phar" "pat"),
    (5, .createClaim "pat" 1),
    (6, .processClaim "ins" 1 true)].foldl (fun s x => s.exec x.1 x.2)
    (Ledger.initial sampleRoles)

/-! ## Closed forms of the service calls -/

@[simp] theorem Outcome.bind_eq {α β : Type} (x : Outcome α) (f : α → Outcome β) :
    x >>= f = x.andThen f := rfl

@[simp] theorem Outcome.pure_eq {α : Type} (a : α) : (pure a : Outcome α) = Outcome.ret a := rfl

theorem testConnection_cases (svc : IPFSService) (w : World) :
    svc.testConnection w = ⟨[.fetch svc.testConnectionRequest,
        .consoleLog "Pinata connection successful:"], .ok true⟩ ∨
    ∃ l m, svc.testConnection w = ⟨[.fetch svc.testConnectionRequest, .consoleError l m],
        .ok false⟩ := by
  unfold IPFSService.testConnection World.doFetch
  cases hf : w.fetch svc.testConnectionRequest with
  | error e =>
    right
    exact ⟨"Error testing Pinata connection:", e, by
      simp [Outcome.tryCatch, Outcome.andThen, Outcome.emit, Outcome.ret, hf]⟩
  | ok resp =>
    cases hok : resp.ok with
    | false =>
      right
      exact ⟨"Pinata connection failed:", toString resp.status, by
        simp [Outcome.tryCatch, Outcome.andThen, Outcome.emit, Outcome.ret, hf, hok]⟩
    | true =>
      cases hj : resp.json with
      | error e =>
        right
        exact ⟨"Error testing Pinata connection:", e, by
          simp [Outcome.tryCatch, Outcome.andThen, Outcome.emit, Outcome.ret, Outcome.lift,
            hf, hok, hj]⟩
      | ok b =>
        left
        simp [Outcome.tryCatch, Outcome.andThen, Outcome.emit, Outcome.ret, Outcome.lift,
          hf, hok, hj]

theorem uploadFile_cases (svc : IPFSService) (w : World) (now : Int) (file : File)
    (filename : String) :
    (∃ r, svc.uploadFile w now file filename
        = ⟨[.fetch (svc.uploadFileRequest now file filename)], .ok r⟩) ∨
    ∃ e, svc.uploadFile w now file filename
        = ⟨[.fetch (svc.uploadFileRequest now file filename),
            .consoleError "Error uploading file to IPFS:" e], .error e⟩ := by
  unfold IPFSService.uploadFile World.doFetch
  cases hf : w.fetch (svc.uploadFileRequest now file filename) with
  | error e =>
    right
    exact ⟨e, by simp [Outcome.tryCatch, Outcome.andThen, Outcome.emit, Outcome.throw, hf]⟩
  | ok resp =>
    cases hok : resp.ok with
    | false =>
      right
      exact ⟨httpErrorMessage resp, by
        simp [Outcome.tryCatch, Outcome.andThen, Outcome.emit, Outcome.throw, hf, hok,
          httpErrorMessage]⟩
    | true =>
      cases hj : resp.json with
      | error e =>
        right
        exact ⟨e, by
          simp [Outcome.tryCatch, Outcome.andThen, Outcome.emit, Outcome.throw, Outcome.lift,
            hf, hok, hj]⟩
      | ok b =>
        left
        exact ⟨svc.pinned b, by
          simp [Outcome.tryCatch, Outcome.andThen, Outcome.ret, Outcome.lift, hf, hok, hj,
            IPFSService.pinned]⟩

theorem uploadJSON_cases (svc : IPFSService) (w : World) (now : Int) (jsonData : Json)
    (filename : String) :
    (∃ r, svc.uploadJSON w now jsonData filename
        = ⟨[.fetch (svc.uploadJSONRequest now jsonData filename)], .ok r⟩) ∨
    ∃ e, svc.uploadJSON w now jsonData filename
        = ⟨[.fetch (svc.uploadJSONRequest now jsonData filename),
            .consoleError "Error uploading JSON to IPFS:" e], .error e⟩ := by
  unfold IPFSService.uploadJSON World.doFetch
  cases hf : w.fetch (svc.uploadJSONRequest now jsonData filename) with
  | error e =>
    right
    exact ⟨e, by simp [Outcome.tryCatch, Outcome.andThen, Outcome.emit, Outcome.throw, hf]⟩
  | ok resp =>
    cases hok : resp.ok with
    | false =>
      right
      exact ⟨httpErrorMessage resp, by
        simp [Outcome.tryCatch, Outcome.andThen, Outcome.emit, Outcome.throw, hf, hok,
          httpErrorMessage]⟩
    | true =>
      cases hj : resp.json with
      | error e =>
        right
        exact ⟨e, by
          simp [Outcome.tryCatch, Outcome.andThen, Outcome.emit, Outcome.throw, Outcome.lift,
            hf, hok, hj]⟩
      | ok b =>
        left
        exact ⟨svc.pinned b, by
          simp [Outcome.tryCatch, Outcome.andThen, Outcome.ret, Outcome.lift, hf, hok, hj,
            IPFSService.pinned]⟩

theorem createQRCode_cases (cfg : Config) (w : World) (now tokenId medicineId : Int)
    (drugName : String) (expirySeconds : Int) :
    (∃ iso, toISOString (now + expirySeconds * 1000) = .ok iso ∧
      createQRCode cfg w now tokenId medicineId drugName expirySeconds
        = ⟨[.toCanvas (qrText cfg tokenId medicineId drugName iso) 256],
            .ok ⟨qrText cfg tokenId medicineId drugName iso, 256, "image/png"⟩⟩) ∨
    (∃ e, toISOString (now + expirySeconds * 1000) = .error e ∧
      createQRCode cfg w now tokenId medicineId drugName expirySeconds = ⟨[], .error e⟩) ∨
    ∃ iso e, toISOString (now + expirySeconds * 1000) = .ok iso ∧
      createQRCode cfg w now tokenId medicineId drugName expirySeconds
        = ⟨[.toCanvas (qrText cfg tokenId medicineId drugName iso) 256,
            .consoleError "Error generating QR code:" e], .error e⟩ := by
  unfold createQRCode
  cases hi : toISOString (now + expirySeconds * 1000) with
  | error e =>
    right; left
    exact ⟨e, rfl, by simp [Outcome.andThen, Outcome.lift, hi]⟩
  | ok iso =>
    cases hc : w.toCanvasError (qrText cfg tokenId medicineId drugName iso) with
    | none =>
      left
      refine ⟨iso, rfl, ?_⟩
      simp only [qrText] at hc
      simp [Outcome.andThen, Outcome.lift, Outcome.emit, Outcome.ret, hi, hc, qrText]
    | some e =>
      right; right
      refine ⟨iso, e, rfl, ?_⟩
      simp only [qrText] at hc
      simp [Outcome.andThen, Outcome.lift, Outcome.emit, Outcome.throw, hi, hc, qrText]

/-! ## Strings and locators -/

theorem isPrefixOf_append (p r : List Char) : p.isPrefixOf (p ++ r) = true := by
  induction p with
  | nil => simp [List.isPrefixOf]
  | cons a p ih => simp [List.isPrefixOf, ih]

theorem startsWith_append (p h : String) : startsWith (p ++ h) p = true := by
  simp [startsWith, String.toList, isPrefixOf_append]

theorem replaceFirstChars_append (p rep r : List Char) :
    replaceFirstChars p rep (p ++ r) = rep ++ r := by
  cases p with
  | nil =>
    cases r with
    | nil => simp [replaceFirstChars]
    | cons a r => simp [replaceFirstChars, List.isPrefixOf]
  | cons a p =>
    have h := isPrefixOf_append (a :: p) r
    simp only [List.cons_append] at h
    simp [replaceFirstChars, h]

theorem replace_append (p h : String) : replace (p ++ h) p "" = h := by
  simp [replace, String.toList, replaceFirstChars_append]

theorem getHttpUrl_ipfs (svc : IPFSService) (h : String) :
    svc.getHttpUrl ("ipfs://" ++ h) = svc.pinataGateway ++ "/ipfs/" ++ h := by
  simp [IPFSService.getHttpUrl, startsWith_append, replace_append]

theorem gateway_url_ne_empty (g h : String) : g ++ "/ipfs/" ++ h ≠ "" := by
  intro hc
  have hl := congrArg String.length hc
  simp [String.length_append] at hl
  exact absurd hl.1.2 (by decide)

theorem uploadFile_result (svc : IPFSService) (w : World) (now : Int) (file : File)
    (filename : String) :
    (svc.uploadFile w now file filename).result
      = svc.uploadOutcome (w.fetch (svc.uploadFileRequest now file filename)) := by
  unfold IPFSService.uploadFile World.doFetch IPFSService.uploadOutcome
  cases hf : w.fetch (svc.uploadFileRequest now file filename) with
  | error e => simp [Outcome.tryCatch, Outcome.andThen, Outcome.emit, Outcome.throw, hf]
  | ok resp =>
    cases hok : resp.ok with
    | false =>
      simp [Outcome.tryCatch, Outcome.andThen, Outcome.emit, Outcome.throw, hf, hok,
        httpErrorMessage]
    | true =>
      cases hj : resp.json with
      | error e =>
        simp [Outcome.tryCatch, Outcome.andThen, Outcome.emit, Outcome.throw, Outcome.lift,
          hf, hok, hj]
      | ok b =>
        simp [Outcome.tryCatch, Outcome.andThen, Outcome.ret, Outcome.lift, hf, hok, hj,
          IPFSService.pinned]

theorem uploadJSON_result (svc : IPFSService) (w : World) (now : Int) (jsonData : Json)
    (filename : String) :
    (svc.uploadJSON w now jsonData filename).result
      = svc.uploadOutcome (w.fetch (svc.uploadJSONRequest now jsonData filename)) := by
  unfold IPFSService.uploadJSON World.doFetch IPFSService.uploadOutcome
  cases hf : w.fetch (svc.uploadJSONRequest now jsonData filename) with
  | error e => simp [Outcome.tryCatch, Outcome.andThen, Outcome.emit, Outcome.throw, hf]
  | ok resp =>
    cases hok : resp.ok with
    | false =>
      simp [Outcome.tryCatch, Outcome.andThen, Outcome.emit, Outcome.throw, hf, hok,
        httpErrorMessage]
    | true =>
      cases hj : resp.json with
      | error e =>
        simp [Outcome.tryCatch, Outcome.andThen, Outcome.emit, Outcome.throw, Outcome.lift,
          hf, hok, hj]
      | ok b =>
        simp [Outcome.tryCatch, Outcome.andThen, Outcome.ret, Outcome.lift, hf, hok, hj,
          IPFSService.pinned]

theorem uploadOutcome_ok_iff (svc : IPFSService) (answer : Except String Response)
    (r : UploadResult) :
    svc.uploadOutcome answer = .ok r ↔
      ∃ resp b, answer = .ok resp ∧ resp.ok = true ∧ resp.json = .ok b ∧ r = svc.pinned b := by
  cases answer with
  | error e => simp [IPFSService.uploadOutcome]
  | ok resp =>
    cases hok : resp.ok with
    | false => simp [IPFSService.uploadOutcome, hok]
    | true =>
      cases hj : resp.json with
      | error e => simp [IPFSService.uploadOutcome, hok, hj]
      | ok b =>
        simp only [IPFSService.uploadOutcome, hok, hj, if_true, Except.ok.injEq]
        constructor
        · intro h
          exact ⟨resp, b, rfl, hok, hj, h.symm⟩
        · rintro ⟨resp2, b2, h1, _, h3, h4⟩
          cases h1
          rw [hj] at h3
          cases h3
          exact h4.symm

/-! ## Every run of `mintDrug` is a `MintRun` -/

section RunProof

variable (cfg : Config) (w : World) (c : Contract) (nextTokenId medicineId : Int)
  (name : String) (expiry : Int)

/-- Every run of `mintDrug` with a ledger client is one of the runs of `MintRun`,
and resolves (the `catch` block does not rethrow). -/
theorem mintDrug_run (uri : String) :
    MintRun cfg w c nextTokenId medicineId name expiry
      (mintDrug cfg w (some c) nextTokenId medicineId name expiry uri).trace ∧
    (mintDrug cfg w (some c) nextTokenId medicineId name expiry uri).result = .ok () := by
  rcases testConnection_cases (IPFSService.new cfg) w with h0 | ⟨l, m, h0⟩
  swap
  · have ht : mintDrug cfg w (some c) nextTokenId medicineId name expiry uri
        = ⟨traceToConnection cfg ++ [.consoleError l m] ++ traceOfFailure
          "Failed to connect to IPFS service. Please check your API credentials.", .ok ()⟩ := by
      simp [mintDrug, mintDrugTry, Outcome.tryFinally, Outcome.tryCatch, Outcome.andThen,
        Outcome.emit, Outcome.throw, Outcome.ret, h0, traceToConnection, traceOfFailure]
    rw [ht]
    exact ⟨MintRun.connectionFailed l m h0, rfl⟩
  have h0r : (stepConnection cfg w).result = .ok true := by rw [stepConnection, h0]
  rcases createQRCode_cases cfg w (w.now 0) nextTokenId medicineId name expiry with
    ⟨iso, h1, h2⟩ | ⟨e, h1, h2⟩ | ⟨iso, e, h1, h2⟩
  rotate_left
  · have ht : mintDrug cfg w (some c) nextTokenId medicineId name expiry uri
        = ⟨traceToConnection cfg ++ traceToEncode ++ traceOfFailure e, .ok ()⟩ := by
      simp [mintDrug, mintDrugTry, Outcome.tryFinally, Outcome.tryCatch, Outcome.andThen,
        Outcome.emit, Outcome.throw, Outcome.ret, h0, h2, traceToConnection, traceToEncode,
        traceOfFailure]
    rw [ht]
    exact ⟨MintRun.expiryInvalid e h0r h1 h2, rfl⟩
  · have ht : mintDrug cfg w (some c) nextTokenId medicineId name expiry uri
        = ⟨traceToConnection cfg ++ traceToEncode
          ++ [.toCanvas (qrText cfg nextTokenId medicineId name iso) 256,
            .consoleError "Error generating QR code:" e] ++ traceOfFailure e, .ok ()⟩ := by
      simp [mintDrug, mintDrugTry, Outcome.tryFinally, Outcome.tryCatch, Outcome.andThen,
        Outcome.emit, Outcome.throw, Outcome.ret, h0, h2, traceToConnection, traceToEncode,
        traceOfFailure]
    rw [ht]
    exact ⟨MintRun.encodingFailed iso e h0r h1 (by rw [stepEncode, h2]), rfl⟩
  have h2r : (stepEncode cfg w nextTokenId medicineId name expiry).result
      = .ok ⟨qrText cfg nextTokenId medicineId name iso, 256, "image/png"⟩ := by
    rw [stepEncode, h2]
  rcases uploadFile_cases (IPFSService.new cfg) w (w.now 1)
    (File.mk ⟨qrText cfg nextTokenId medicineId name iso, 256, "image/png"⟩
      ("medicine_qr_" ++ numberToString nextTokenId ++ ".png") "image/png")
    ("Medicine QR Code Token " ++ numberToString nextTokenId) with ⟨qr, h3⟩ | ⟨e, h3⟩
  swap
  · have ht : mintDrug cfg w (some c) nextTokenId medicineId name expiry uri
        = ⟨traceToConnection cfg ++ traceToEncode
          ++ traceToUploadQR cfg w nextTokenId medicineId name iso
          ++ [.consoleError "Error uploading file to IPFS:" e] ++ traceOfFailure e, .ok ()⟩ := by
      simp [mintDrug, mintDrugTry, Outcome.tryFinally, Outcome.tryCatch, Outcome.andThen,
        Outcome.emit, Outcome.throw, Outcome.ret, h0, h2, h3, traceToConnection, traceToEncode,
        traceToUploadQR, qrUploadRequest, traceOfFailure]
    rw [ht]
    exact ⟨MintRun.uploadQRFailed iso e h0r h1 h2r (by rw [stepUploadQR, h3]), rfl⟩
  have h3r : (stepUploadQR cfg w nextTokenId
      ⟨qrText cfg nextTokenId medicineId name iso, 256, "image/png"⟩).result = .ok qr := by
    rw [stepUploadQR, h3]
  cases h4 : toISOString (w.now 2) with
  | error e =>
    have ht : mintDrug cfg w (some c) nextTokenId medicineId name expiry uri
        = ⟨traceToConnection cfg ++ traceToEncode
          ++ traceToUploadQR cfg w nextTokenId medicineId name iso
          ++ [.consoleLog "QR uploaded:"] ++ traceOfFailure e, .ok ()⟩ := by
      simp [mintDrug, mintDrugTry, Outcome.tryFinally, Outcome.tryCatch, Outcome.andThen,
        Outcome.emit, Outcome.throw, Outcome.ret, Outcome.lift, h0, h2, h3, h4,
        traceToConnection, traceToEncode, traceToUploadQR, qrUploadRequest, traceOfFailure]
    rw [ht]
    exact ⟨MintRun.createdInvalid iso e qr h0r h1 h2r h3r h4, rfl⟩
  | ok created =>
    rcases uploadJSON_cases (IPFSService.new cfg) w (w.now 3)
      (mintMetadata cfg w medicineId name expiry qr created)
      ("Medicine " ++ numberToString medicineId ++ " Metadata") with ⟨md, h5⟩ | ⟨e, h5⟩
    swap
    · have ht : mintDrug cfg w (some c) nextTokenId medicineId name expiry uri
          = ⟨traceToConnection cfg ++ traceToEncode
            ++ traceToUploadQR cfg w nextTokenId medicineId name iso
            ++ traceToUploadMetadata cfg w medicineId name expiry qr created
            ++ [.consoleError "Error uploading JSON to IPFS:" e] ++ traceOfFailure e,
            .ok ()⟩ := by
        simp [mintDrug, mintDrugTry, Outcome.tryFinally, Outcome.tryCatch, Outcome.andThen,
          Outcome.emit, Outcome.throw, Outcome.ret, Outcome.lift, h0, h2, h3, h4, h5,
          traceToConnection, traceToEncode, traceToUploadQR, qrUploadRequest,
          traceToUploadMetadata, metadataUploadRequest, traceOfFailure]
      rw [ht]
      exact ⟨MintRun.uploadMetadataFailed iso e created qr h0r h1 h2r h3r h4
        (by rw [stepUploadMetadata, h5]), rfl⟩
    have hs : ArtifactsStored cfg w nextTokenId medicineId name expiry qr md :=
      ⟨_, created, h0r, h2r, h3r, h4, by rw [stepUploadMetadata, h5]⟩
    cases h6 : c.mintDrug medicineId name expiry md.ipfsUrl with
    | error e =>
      have ht : mintDrug cfg w (some c) nextTokenId medicineId name expiry uri
          = ⟨traceBeforeMint cfg w nextTokenId medicineId name expiry iso qr created
            ++ [.contractMintDrug medicineId name expiry md.ipfsUrl] ++ traceOfFailure e,
            .ok ()⟩ := by
        simp [mintDrug, mintDrugTry, Contract.doMintDrug, Outcome.tryFinally, Outcome.tryCatch,
          Outcome.andThen, Outcome.emit, Outcome.throw, Outcome.ret, Outcome.lift, h0, h2, h3,
          h4, h5, h6, traceBeforeMint, traceToConnection, traceToEncode, traceToUploadQR,
          qrUploadRequest, traceToUploadMetadata, metadataUploadRequest, traceOfFailure]
      rw [ht]
      exact ⟨MintRun.mintRejected iso e created qr md h1 h4 hs h6, rfl⟩
    | ok tx =>
      cases tx with
      | error e =>
        have ht : mintDrug cfg w (some c) nextTokenId medicineId name expiry uri
            = ⟨traceBeforeMint cfg w nextTokenId medicineId name expiry iso qr created
              ++ [.contractMintDrug medicineId name expiry md.ipfsUrl, .txWait]
              ++ traceOfFailure e, .ok ()⟩ := by
          simp [mintDrug, mintDrugTry, Contract.doMintDrug, Outcome.tryFinally,
            Outcome.tryCatch, Outcome.andThen, Outcome.emit, Outcome.throw, Outcome.ret,
            Outcome.lift, h0, h2, h3, h4, h5, h6, traceBeforeMint, traceToConnection,
            traceToEncode, traceToUploadQR, qrUploadRequest, traceToUploadMetadata,
            metadataUploadRequest, traceOfFailure]
        rw [ht]
        exact ⟨MintRun.waitRejected iso e created qr md h1 h4 hs h6, rfl⟩
      | ok r =>
        cases h7 : toISOString (w.now 4 + expiry * 1000) with
        | error e =>
          have ht : mintDrug cfg w (some c) nextTokenId medicineId name expiry uri
              = ⟨traceBeforeMint cfg w nextTokenId medicineId name expiry iso qr created
                ++ [.contractMintDrug medicineId name expiry md.ipfsUrl, .txWait]
                ++ traceOfFailure e, .ok ()⟩ := by
            simp [mintDrug, mintDrugTry, Contract.doMintDrug, Outcome.tryFinally,
              Outcome.tryCatch, Outcome.andThen, Outcome.emit, Outcome.throw, Outcome.ret,
              Outcome.lift, h0, h2, h3, h4, h5, h6, h7, traceBeforeMint, traceToConnection,
              traceToEncode, traceToUploadQR, qrUploadRequest, traceToUploadMetadata,
              metadataUploadRequest, traceOfFailure]
          rw [ht]
          exact ⟨MintRun.recordInvalid iso e created qr md r h1 h4 hs h6 h7, rfl⟩
        | ok iso2 =>
          have ht : mintDrug cfg w (some c) nextTokenId medicineId name expiry uri
              = ⟨traceBeforeMint cfg w nextTokenId medicineId name expiry iso qr created
                ++ [.contractMintDrug medicineId name expiry md.ipfsUrl, .txWait]
                ++ traceOfSuccess cfg nextTokenId medicineId name iso2 qr md, .ok ()⟩ := by
            simp [mintDrug, mintDrugTry, Contract.doMintDrug, Outcome.tryFinally,
              Outcome.tryCatch, Outcome.andThen, Outcome.emit, Outcome.throw, Outcome.ret,
              Outcome.lift, h0, h2, h3, h4, h5, h6, h7, traceBeforeMint, traceToConnection,
              traceToEncode, traceToUploadQR, qrUploadRequest, traceToUploadMetadata,
              metadataUploadRequest, traceOfSuccess]
          rw [ht]
          exact ⟨MintRun.minted iso created iso2 qr md r h1 h4 hs h6 h7, rfl⟩

end RunProof

/-! ## Facts about runs -/

theorem no_mint_of_all {t : List Event} (hall : t.all (fun x => !x.isLedgerMint) = true)
    {e : Event} (he : e ∈ t) (hm : e.isLedgerMint = true) : False := by
  have h := List.all_eq_true.1 hall e he
  rw [hm] at h
  cases h

theorem not_mem_of_all (p : Event → Bool) {t : List Event}
    (hall : t.all (fun x => !p x) = true) {e : Event} (he : e ∈ t) (hp : p e = true) : False := by
  have h := List.all_eq_true.1 hall e he
  rw [hp] at h
  cases h

section RunFacts

variable {cfg : Config} {w : World} {c : Contract} {nextTokenId medicineId : Int}
  {name : String} {expiry : Int}

/-- A ledger mint call of a run comes after the effects of steps 1 to 4, which
all succeeded, carries the locator of the metadata upload, and is followed by
neither a second mint call nor a call to the artifact store. -/
theorem MintRun.of_mint_mem {t : List Event}
    (h : MintRun cfg w c nextTokenId medicineId name expiry t) (e : Event) (he : e ∈ t)
    (hm : e.isLedgerMint = true) :
    ∃ iso created qr md rest,
      toISOString (w.now 0 + expiry * 1000) = .ok iso ∧
      toISOString (w.now 2) = .ok created ∧
      ArtifactsStored cfg w nextTokenId medicineId name expiry qr md ∧
      e = .contractMintDrug medicineId name expiry md.ipfsUrl ∧
      t = traceBeforeMint cfg w nextTokenId medicineId name expiry iso qr created ++ e :: rest ∧
      ∀ x ∈ rest, x.isLedgerMint = false ∧ x.isStoreCall = false ∧
        (x.isStep = true → x = .txWait) := by
  have key : ∀ (pre rest : List Event) (m : Event),
      pre.all (fun x => !x.isLedgerMint) = true → rest.all (fun x => !x.isLedgerMint) = true →
      e ∈ pre ++ m :: rest → e = m := by
    intro pre rest m hp hr hmem
    rcases List.mem_append.1 hmem with h1 | h1
    · exact (no_mint_of_all hp h1 hm).elim
    · rcases List.mem_cons.1 h1 with h2 | h2
      · exact h2
      · exact (no_mint_of_all hr h2 hm).elim
  have hpre : ∀ iso qr created,
      (traceBeforeMint cfg w nextTokenId medicineId name expiry iso qr created).all
        (fun x => !x.isLedgerMint) = true := by
    intro iso qr created
    simp [traceBeforeMint, traceToConnection, traceToEncode, traceToUploadQR,
      traceToUploadMetadata, Event.isLedgerMint]
  cases h with
  | connectionFailed l m h0 =>
    exact (no_mint_of_all (by simp [traceToConnection, traceOfFailure, Event.isLedgerMint])
      he hm).elim
  | expiryInvalid e1 h0 h1 h2 =>
    exact (no_mint_of_all (by
      simp [traceToConnection, traceToEncode, traceOfFailure, Event.isLedgerMint]) he hm).elim
  | encodingFailed iso e1 h0 h1 h2 =>
    exact (no_mint_of_all (by
      simp [traceToConnection, traceToEncode, traceOfFailure, Event.isLedgerMint]) he hm).elim
  | uploadQRFailed iso e1 h0 h1 h2 h3 =>
    exact (no_mint_of_all (by
      simp [traceToConnection, traceToEncode, traceToUploadQR, traceOfFailure,
        Event.isLedgerMint]) he hm).elim
  | createdInvalid iso e1 qr h0 h1 h2 h3 h4 =>
    exact (no_mint_of_all (by
      simp [traceToConnection, traceToEncode, traceToUploadQR, traceOfFailure,
        Event.isLedgerMint]) he hm).elim
  | uploadMetadataFailed iso e1 created qr h0 h1 h2 h3 h4 h5 =>
    exact (no_mint_of_all (by
      simp [traceToConnection, traceToEncode, traceToUploadQR, traceToUploadMetadata,
        traceOfFailure, Event.isLedgerMint]) he hm).elim
  | mintRejected iso e1 created qr md h1 h4 hs h6 =>
    have heq := key _ (traceOfFailure e1) _ (hpre iso qr created)
      (by simp [traceOfFailure, Event.isLedgerMint]) (by simpa using he)
    subst heq
    exact ⟨iso, created, qr, md, traceOfFailure e1, h1, h4, hs, rfl, by simp,
      by simp [traceOfFailure, Event.isLedgerMint, Event.isStoreCall, Event.isStep]⟩
  | waitRejected iso e1 created qr md h1 h4 hs h6 =>
    have heq := key _ (.txWait :: traceOfFailure e1) _ (hpre iso qr created)
      (by simp [traceOfFailure, Event.isLedgerMint]) (by simpa using he)
    subst heq
    exact ⟨iso, created, qr, md, .txWait :: traceOfFailure e1, h1, h4, hs, rfl, by simp,
      by simp [traceOfFailure, Event.isLedgerMint, Event.isStoreCall, Event.isStep]⟩
  | recordInvalid iso e1 created qr md r h1 h4 hs h6 h7 =>
    have heq := key _ (.txWait :: traceOfFailure e1) _ (hpre iso qr created)
      (by simp [traceOfFailure, Event.isLedgerMint]) (by simpa using he)
    subst heq
    exact ⟨iso, created, qr, md, .txWait :: traceOfFailure e1, h1, h4, hs, rfl, by simp,
      by simp [traceOfFailure, Event.isLedgerMint, Event.isStoreCall, Event.isStep]⟩
  | minted iso created iso2 qr md r h1 h4 hs h6 h7 =>
    have heq := key _ (.txWait :: traceOfSuccess cfg nextTokenId medicineId name iso2 qr md) _
      (hpre iso qr created) (by simp [traceOfSuccess, Event.isLedgerMint]) (by simpa using he)
    subst heq
    exact ⟨iso, created, qr, md,
      .txWait :: traceOfSuccess cfg nextTokenId medicineId name iso2 qr md, h1, h4, hs, rfl,
      by simp, by simp [traceOfSuccess, Event.isLedgerMint, Event.isStoreCall, Event.isStep]⟩

/-- The results of steps 1 to 4 are determined by the run. -/
theorem ArtifactsStored.unique {qr md qr2 md2 : UploadResult}
    (h : ArtifactsStored cfg w nextTokenId medicineId name expiry qr md)
    (h2 : ArtifactsStored cfg w nextTokenId medicineId name expiry qr2 md2) :
    qr = qr2 ∧ md = md2 := by
  obtain ⟨blob, created, _, hb, hq, hc, hmd⟩ := h
  obtain ⟨blob2, created2, _, hb2, hq2, hc2, hmd2⟩ := h2
  rw [hb] at hb2
  cases hb2
  rw [hq] at hq2
  cases hq2
  rw [hc] at hc2
  cases hc2
  rw [hmd] at hmd2
  cases hmd2
  exact ⟨rfl, rfl⟩

theorem artifactsVerdict_ok_iff (qr md : UploadResult) :
    artifactsVerdict cfg w nextTokenId medicineId name expiry = .ok (qr, md)
      ↔ ArtifactsStored cfg w nextTokenId medicineId name expiry qr md := by
  unfold artifactsVerdict ArtifactsStored
  constructor
  · intro h
    split at h
    · cases h
    · cases h
    · split at h
      · cases h
      · split at h
        · cases h
        · split at h
          · cases h
          · split at h
            · cases h
            · rename_i h0 _ blob h2 _ qr2 h3 _ created h4 _ md2 h5
              cases h
              exact ⟨blob, created, h0, h2, h3, h4, h5⟩
  · rintro ⟨blob, created, h0, h2, h3, h4, h5⟩
    simp [h0, h2, h3, h4, h5]

/-- A run raises exactly one alert, the one of its verdict. -/
theorem MintRun.alerts {t : List Event}
    (h : MintRun cfg w c nextTokenId medicineId name expiry t) :
    t.filter Event.isAlert
      = [alertOf nextTokenId medicineId (mintVerdict cfg w c nextTokenId medicineId name expiry)] := by
  have hpre : ∀ iso qr created,
      (traceBeforeMint cfg w nextTokenId medicineId name expiry iso qr created).filter
        Event.isAlert = [] := by
    intro iso qr created
    simp [traceBeforeMint, traceToConnection, traceToEncode, traceToUploadQR,
      traceToUploadMetadata, Event.isAlert, List.filter]
  cases h with
  | connectionFailed l m h0 =>
    have hv : artifactsVerdict cfg w nextTokenId medicineId name expiry
        = .error "Failed to connect to IPFS service. Please check your API credentials." := by
      simp [artifactsVerdict, h0]
    simp [mintVerdict, hv, alertOf, traceToConnection, traceOfFailure, Event.isAlert,
      List.filter]
  | expiryInvalid e1 h0 h1 h2 =>
    have hv : artifactsVerdict cfg w nextTokenId medicineId name expiry = .error e1 := by
      simp [artifactsVerdict, h0, h2]
    simp [mintVerdict, hv, alertOf, traceToConnection, traceToEncode, traceOfFailure,
      Event.isAlert, List.filter]
  | encodingFailed iso e1 h0 h1 h2 =>
    have hv : artifactsVerdict cfg w nextTokenId medicineId name expiry = .error e1 := by
      simp [artifactsVerdict, h0, h2]
    simp [mintVerdict, hv, alertOf, traceToConnection, traceToEncode, traceOfFailure,
      Event.isAlert, List.filter]
  | uploadQRFailed iso e1 h0 h1 h2 h3 =>
    have hv : artifactsVerdict cfg w nextTokenId medicineId name expiry = .error e1 := by
      simp [artifactsVerdict, h0, h2, h3]
    simp [mintVerdict, hv, alertOf, traceToConnection, traceToEncode, traceToUploadQR,
      traceOfFailure, Event.isAlert, List.filter]
  | createdInvalid iso e1 qr h0 h1 h2 h3 h4 =>
    have hv : artifactsVerdict cfg w nextTokenId medicineId name expiry = .error e1 := by
      simp [artifactsVerdict, h0, h2, h3, h4]
    simp [mintVerdict, hv, alertOf, traceToConnection, traceToEncode, traceToUploadQR,
      traceOfFailure, Event.isAlert, List.filter]
  | uploadMetadataFailed iso e1 created qr h0 h1 h2 h3 h4 h5 =>
    have hv : artifactsVerdict cfg w nextTokenId medicineId name expiry = .error e1 := by
      simp [artifactsVerdict, h0, h2, h3, h4, h5]
    simp [mintVerdict, hv, alertOf, traceToConnection, traceToEncode, traceToUploadQR,
      traceToUploadMetadata, traceOfFailure, Event.isAlert, List.filter]
  | mintRejected iso e1 created qr md h1 h4 hs h6 =>
    have hv := (artifactsVerdict_ok_iff qr md).2 hs
    simp [mintVerdict, hv, h6, alertOf, hpre, traceOfFailure, Event.isAlert, List.filter]
  | waitRejected iso e1 created qr md h1 h4 hs h6 =>
    have hv := (artifactsVerdict_ok_iff qr md).2 hs
    simp [mintVerdict, hv, h6, alertOf, hpre, traceOfFailure, Event.isAlert, List.filter]
  | recordInvalid iso e1 created qr md r h1 h4 hs h6 h7 =>
    have hv := (artifactsVerdict_ok_iff qr md).2 hs
    simp [mintVerdict, hv, h6, h7, alertOf, hpre, traceOfFailure, Event.isAlert, List.filter]
  | minted iso created iso2 qr md r h1 h4 hs h6 h7 =>
    have hv := (artifactsVerdict_ok_iff qr md).2 hs
    simp [mintVerdict, hv, h6, h7, alertOf, hpre, traceOfSuccess, Event.isAlert, List.filter]

/-- When steps 1 to 4 succeeded, the run issues the ledger mint call. -/
theorem MintRun.mint_mem_of_stored {t : List Event}
    (h : MintRun cfg w c nextTokenId medicineId name expiry t) {qr md : UploadResult}
    (hs : ArtifactsStored cfg w nextTokenId medicineId name expiry qr md) :
    Event.contractMintDrug medicineId name expiry md.ipfsUrl ∈ t := by
  have hv := (artifactsVerdict_ok_iff qr md).2 hs
  cases h with
  | connectionFailed l m h0 => simp [artifactsVerdict, h0] at hv
  | expiryInvalid e1 h0 h1 h2 => simp [artifactsVerdict, h0, h2] at hv
  | encodingFailed iso e1 h0 h1 h2 => simp [artifactsVerdict, h0, h2] at hv
  | uploadQRFailed iso e1 h0 h1 h2 h3 => simp [artifactsVerdict, h0, h2, h3] at hv
  | createdInvalid iso e1 qr h0 h1 h2 h3 h4 => simp [artifactsVerdict, h0, h2, h3, h4] at hv
  | uploadMetadataFailed iso e1 created qr h0 h1 h2 h3 h4 h5 =>
    simp [artifactsVerdict, h0, h2, h3, h4, h5] at hv
  | mintRejected iso e1 created qr2 md2 h1 h4 hs2 h6 =>
    obtain ⟨_, rfl⟩ := hs.unique hs2
    simp
  | waitRejected iso e1 created qr2 md2 h1 h4 hs2 h6 =>
    obtain ⟨_, rfl⟩ := hs.unique hs2
    simp
  | recordInvalid iso e1 created qr2 md2 r h1 h4 hs2 h6 h7 =>
    obtain ⟨_, rfl⟩ := hs.unique hs2
    simp
  | minted iso created iso2 qr2 md2 r h1 h4 hs2 h6 h7 =>
    obtain ⟨_, rfl⟩ := hs.unique hs2
    simp

/-- The QR data recorded by a run is the payload of `createQRCode` at the clock
reading of the recording; the run handed the payload at its first clock reading
to the QR encoder. -/
theorem MintRun.of_record_mem {t : List Event}
    (h : MintRun cfg w c nextTokenId medicineId name expiry t) (d : MintedQrData)
    (he : Event.setMintedQrData d ∈ t) :
    ∃ iso iso2, toISOString (w.now 0 + expiry * 1000) = .ok iso ∧
      toISOString (w.now 4 + expiry * 1000) = .ok iso2 ∧
      Event.toCanvas (qrText cfg nextTokenId medicineId name iso) 256 ∈ t ∧
      d.qrData = qrText cfg nextTokenId medicineId name iso2 := by
  cases h with
  | connectionFailed l m h0 =>
    exact (not_mem_of_all Event.isRecord (by
      simp [traceToConnection, traceOfFailure, Event.isRecord]) he rfl).elim
  | expiryInvalid e1 h0 h1 h2 =>
    exact (not_mem_of_all Event.isRecord (by
      simp [traceToConnection, traceToEncode, traceOfFailure, Event.isRecord]) he rfl).elim
  | encodingFailed iso e1 h0 h1 h2 =>
    exact (not_mem_of_all Event.isRecord (by
      simp [traceToConnection, traceToEncode, traceOfFailure, Event.isRecord]) he rfl).elim
  | uploadQRFailed iso e1 h0 h1 h2 h3 =>
    exact (not_mem_of_all Event.isRecord (by
      simp [traceToConnection, traceToEncode, traceToUploadQR, traceOfFailure,
        Event.isRecord]) he rfl).elim
  | createdInvalid iso e1 qr h0 h1 h2 h3 h4 =>
    exact (not_mem_of_all Event.isRecord (by
      simp [traceToConnection, traceToEncode, traceToUploadQR, traceOfFailure,
        Event.isRecord]) he rfl).elim
  | uploadMetadataFailed iso e1 created qr h0 h1 h2 h3 h4 h5 =>
    exact (not_mem_of_all Event.isRecord (by
      simp [traceToConnection, traceToEncode, traceToUploadQR, traceToUploadMetadata,
        traceOfFailure, Event.isRecord]) he rfl).elim
  | mintRejected iso e1 created qr md h1 h4 hs h6 =>
    exact (not_mem_of_all Event.isRecord (by
      simp [traceBeforeMint, traceToConnection, traceToEncode, traceToUploadQR,
        traceToUploadMetadata, traceOfFailure, Event.isRecord]) he rfl).elim
  | waitRejected iso e1 created qr md h1 h4 hs h6 =>
    exact (not_mem_of_all Event.isRecord (by
      simp [traceBeforeMint, traceToConnection, traceToEncode, traceToUploadQR,
        traceToUploadMetadata, traceOfFailure, Event.isRecord]) he rfl).elim
  | recordInvalid iso e1 created qr md r h1 h4 hs h6 h7 =>
    exact (not_mem_of_all Event.isRecord (by
      simp [traceBeforeMint, traceToConnection, traceToEncode, traceToUploadQR,
        traceToUploadMetadata, traceOfFailure, Event.isRecord]) he rfl).elim
  | minted iso created iso2 qr md r h1 h4 hs h6 h7 =>
    refine ⟨iso, iso2, h1, h7, ?_, ?_⟩
    · simp [traceBeforeMint, traceToUploadQR]
    · simp [traceBeforeMint, traceToConnection, traceToEncode, traceToUploadQR,
        traceToUploadMetadata, traceOfSuccess] at he
      rw [he]
      rfl

theorem testConnectionRequest_url (cfg : Config) :
    (IPFSService.new cfg).testConnectionRequest.url ≠ pinJSONUrl := by
  simp only [IPFSService.testConnectionRequest, IPFSService.new, pinJSONUrl]
  decide

theorem qrUploadRequest_url (cfg : Config) (w : World) (nextTokenId medicineId : Int)
    (name iso : String) :
    (qrUploadRequest cfg w nextTokenId medicineId name iso).url ≠ pinJSONUrl := by
  simp only [qrUploadRequest, IPFSService.uploadFileRequest, IPFSService.new, pinJSONUrl]
  decide

/-- A request of a run to the endpoint that pins JSON is the metadata upload of
the run, built from the result of its QR-image upload. -/
theorem MintRun.of_pinJSON_mem {t : List Event}
    (h : MintRun cfg w c nextTokenId medicineId name expiry t) (req : Request)
    (he : Event.fetch req ∈ t) (hurl : req.url = pinJSONUrl) :
    ∃ blob qr created,
      (stepEncode cfg w nextTokenId medicineId name expiry).result = .ok blob ∧
      (stepUploadQR cfg w nextTokenId blob).result = .ok qr ∧
      toISOString (w.now 2) = .ok created ∧
      req = metadataUploadRequest cfg w medicineId name expiry qr created := by
  have h0 := testConnectionRequest_url cfg
  have hq := fun iso => qrUploadRequest_url cfg w nextTokenId medicineId name iso
  have hstored : ∀ (iso created : String) (qr md : UploadResult),
      toISOString (w.now 2) = .ok created →
      ArtifactsStored cfg w nextTokenId medicineId name expiry qr md →
      (req = (IPFSService.new cfg).testConnectionRequest ∨
        req = qrUploadRequest cfg w nextTokenId medicineId name iso ∨
        req = metadataUploadRequest cfg w medicineId name expiry qr created) →
      ∃ blob qr created,
        (stepEncode cfg w nextTokenId medicineId name expiry).result = .ok blob ∧
        (stepUploadQR cfg w nextTokenId blob).result = .ok qr ∧
        toISOString (w.now 2) = .ok created ∧
        req = metadataUploadRequest cfg w medicineId name expiry qr created := by
    intro iso created qr md h4 hs hreq
    obtain ⟨blob, created2, _, h2, h3, _, _⟩ := hs
    rcases hreq with rfl | rfl | rfl
    · exact (h0 hurl).elim
    · exact (hq iso hurl).elim
    · exact ⟨blob, qr, created, h2, h3, h4, rfl⟩
  cases h with
  | connectionFailed l m h0c =>
    simp [traceToConnection, traceOfFailure] at he
    subst he
    exact (h0 hurl).elim
  | expiryInvalid e1 h0c h1 h2 =>
    simp [traceToConnection, traceToEncode, traceOfFailure] at he
    subst he
    exact (h0 hurl).elim
  | encodingFailed iso e1 h0c h1 h2 =>
    simp [traceToConnection, traceToEncode, traceOfFailure] at he
    subst he
    exact (h0 hurl).elim
  | uploadQRFailed iso e1 h0c h1 h2 h3 =>
    simp [traceToConnection, traceToEncode, traceToUploadQR, traceOfFailure] at he
    rcases he with rfl | rfl
    · exact (h0 hurl).elim
    · exact (hq iso hurl).elim
  | createdInvalid iso e1 qr h0c h1 h2 h3 h4 =>
    simp [traceToConnection, traceToEncode, traceToUploadQR, traceOfFailure] at he
    rcases he with rfl | rfl
    · exact (h0 hurl).elim
    · exact (hq iso hurl).elim
  | uploadMetadataFailed iso e1 created qr h0c h1 h2 h3 h4 h5 =>
    simp [traceToConnection, traceToEncode, traceToUploadQR, traceToUploadMetadata,
      traceOfFailure] at he
    rcases he with rfl | rfl | rfl
    · exact (h0 hurl).elim
    · exact (hq iso hurl).elim
    · exact ⟨_, qr, created, h2, h3, h4, rfl⟩
  | mintRejected iso e1 created qr md h1 h4 hs h6 =>
    apply hstored iso created qr md h4 hs
    simpa [traceBeforeMint, traceToConnection, traceToEncode, traceToUploadQR,
      traceToUploadMetadata, traceOfFailure] using he
  | waitRejected iso e1 created qr md h1 h4 hs h6 =>
    apply hstored iso created qr md h4 hs
    simpa [traceBeforeMint, traceToConnection, traceToEncode, traceToUploadQR,
      traceToUploadMetadata, traceOfFailure] using he
  | recordInvalid iso e1 created qr md r h1 h4 hs h6 h7 =>
    apply hstored iso created qr md h4 hs
    simpa [traceBeforeMint, traceToConnection, traceToEncode, traceToUploadQR,
      traceToUploadMetadata, traceOfFailure] using he
  | minted iso created iso2 qr md r h1 h4 hs h6 h7 =>
    apply hstored iso created qr md h4 hs
    simpa [traceBeforeMint, traceToConnection, traceToEncode, traceToUploadQR,
      traceToUploadMetadata, traceOfSuccess] using he

end RunFacts

set_option maxRecDepth 100000 in
theorem sample_artifacts_stored :
    ArtifactsStored sampleConfig sampleWorld 1 101 "Aspirin" 2592000 sampleUpload sampleUpload :=
  (artifactsVerdict_ok_iff _ _).1 (by decide)

theorem doMintDrug_mapReceipt {β : Type} (c : Contract) (f : Receipt → Receipt)
    (medicineId : Int) (name : String) (expiry : Int) (uri : String) (k : Outcome β) :
    ((c.mapReceipt f).doMintDrug medicineId name expiry uri).andThen (fun _ => k)
      = (c.doMintDrug medicineId name expiry uri).andThen (fun _ => k) := by
  unfold Contract.doMintDrug Contract.mapReceipt
  cases h : c.mintDrug medicineId name expiry uri with
  | error e => simp [Outcome.andThen, Except.map, h]
  | ok tx =>
    cases tx with
    | error e => simp [Outcome.andThen, Except.map, h]
    | ok r => simp [Outcome.andThen, Except.map, h]

/-! ## C1: the mint call comes last -/

/-- C1: in every run of `mintDrug`, a ledger mint call is issued only when the
connectivity test returned true and the QR encoding, the QR-image upload and the
metadata upload each succeeded, and then the steps of the run are, in this
order, the connectivity request, the QR encoding, the QR-image upload, the
metadata upload and the mint call (followed by no second mint call); when one
of the earlier steps fails, the run contains no ledger mint call. -/
theorem mint_only_after_artifacts (cfg : Config) (w : World) (contract : Option Contract)
    (nextTokenId medicineId : Int) (name : String) (expiry : Int) (uri : String) :
    (∀ e ∈ (mintDrug cfg w contract nextTokenId medicineId name expiry uri).trace,
      e.isLedgerMint = true →
      ∃ iso created qr md rest,
        toISOString (w.now 0 + expiry * 1000) = .ok iso ∧
        toISOString (w.now 2) = .ok created ∧
        ArtifactsStored cfg w nextTokenId medicineId name expiry qr md ∧
        (mintDrug cfg w contract nextTokenId medicineId name expiry uri).trace.filter
            Event.isStep =
          [.fetch (IPFSService.new cfg).testConnectionRequest,
            .toCanvas (qrText cfg nextTokenId medicineId name iso) 256,
            .fetch (qrUploadRequest cfg w nextTokenId medicineId name iso),
            .fetch (metadataUploadRequest cfg w medicineId name expiry qr created),
            e] ++ rest ∧
        ∀ x ∈ rest, x.isLedgerMint = false) ∧
    ((¬ ∃ qr md, ArtifactsStored cfg w nextTokenId medicineId name expiry qr md) →
      ∀ e ∈ (mintDrug cfg w contract nextTokenId medicineId name expiry uri).trace,
        e.isLedgerMint = false) := by
  cases contract with
  | none => simp [mintDrug, Outcome.ret]
  | some c =>
    have hrun := (mintDrug_run cfg w c nextTokenId medicineId name expiry uri).1
    constructor
    · intro e he hm
      obtain ⟨iso, created, qr, md, rest, h1, h4, hs, heq, ht, hrest⟩ :=
        hrun.of_mint_mem e he hm
      refine ⟨iso, created, qr, md, rest.filter Event.isStep, h1, h4, hs, ?_, ?_⟩
      · rw [ht, heq]
        simp [traceBeforeMint, traceToConnection, traceToEncode, traceToUploadQR,
          traceToUploadMetadata, Event.isStep, List.filter]
      · intro x hx
        exact (hrest x (List.mem_filter.1 hx).1).1
    · intro hno e he
      cases hm : e.isLedgerMint with
      | false => rfl
      | true =>
        obtain ⟨_, _, qr, md, _, _, _, hs, _⟩ := hrun.of_mint_mem e he hm
        exact (hno ⟨qr, md, hs⟩).elim

set_option maxRecDepth 100000 in
/-- C1, witness: a run of the sample world issues a mint call, after its four
artifact steps. -/
theorem mint_only_after_artifacts_witness :
    ∃ e ∈ (mintDrug sampleConfig sampleWorld (some (ledgerAssigning 1)) 1 101 "Aspirin"
        2592000 "").trace,
      e.isLedgerMint = true ∧
      ∃ qr md, ArtifactsStored sampleConfig sampleWorld 1 101 "Aspirin" 2592000 qr md := by
  have he : Event.contractMintDrug 101 "Aspirin" 2592000 "https://gateway.pinata.cloud/ipfs/QmHash"
      ∈ (mintDrug sampleConfig sampleWorld (some (ledgerAssigning 1)) 1 101 "Aspirin"
        2592000 "").trace := by decide
  obtain ⟨_, _, qr, md, _, _, _, hs, _⟩ :=
    (mint_only_after_artifacts sampleConfig sampleWorld (some (ledgerAssigning 1)) 1 101
      "Aspirin" 2592000 "").1 _ he rfl
  exact ⟨_, he, rfl, qr, md, hs⟩

/-! ## C2: the arguments of the mint call -/

/-- C2: every ledger mint call of a run of `mintDrug` carries the caller's
`medicineId`, `name` and `expiry` unchanged and, as locator, the `ipfsUrl` that
the metadata upload of that run returned; the run does not depend on the `uri`
parameter. -/
theorem mint_arguments (cfg : Config) (w : World) (contract : Option Contract)
    (nextTokenId medicineId : Int) (name : String) (expiry : Int) (uri : String) :
    (∀ mid n ex loc, Event.contractMintDrug mid n ex loc
        ∈ (mintDrug cfg w contract nextTokenId medicineId name expiry uri).trace →
      mid = medicineId ∧ n = name ∧ ex = expiry ∧
      ∃ qr created md, toISOString (w.now 2) = .ok created ∧
        ArtifactsStored cfg w nextTokenId medicineId name expiry qr md ∧
        (stepUploadMetadata cfg w medicineId name expiry qr created).result = .ok md ∧
        loc = md.ipfsUrl) ∧
    (∀ uri2, mintDrug cfg w contract nextTokenId medicineId name expiry uri2
      = mintDrug cfg w contract nextTokenId medicineId name expiry uri) := by
  constructor
  · cases contract with
    | none => simp [mintDrug, Outcome.ret]
    | some c =>
      intro mid n ex loc he
      have hrun := (mintDrug_run cfg w c nextTokenId medicineId name expiry uri).1
      obtain ⟨iso, created, qr, md, rest, h1, h4, hs, heq, ht, hrest⟩ :=
        hrun.of_mint_mem _ he rfl
      cases heq
      refine ⟨rfl, rfl, rfl, qr, created, md, h4, hs, ?_, rfl⟩
      obtain ⟨blob, created2, _, _, _, hc, hmd⟩ := hs
      rw [h4] at hc
      cases hc
      exact hmd
  · intro uri2
    rfl

set_option maxRecDepth 100000 in
/-- C2, witness: the mint call of the sample run, issued through the form
handler (which passes the empty string as `uri`), carries the locator that the
metadata upload returned. -/
theorem mint_arguments_witness :
    ∃ qr created md, toISOString (sampleWorld.now 2) = .ok created ∧
      ArtifactsStored sampleConfig sampleWorld 1 101 "Aspirin" (30 * 24 * 60 * 60) qr md ∧
      (stepUploadMetadata sampleConfig sampleWorld 101 "Aspirin" (30 * 24 * 60 * 60) qr
        created).result = .ok md ∧
      "https://gateway.pinata.cloud/ipfs/QmHash" = md.ipfsUrl :=
  ((mint_arguments sampleConfig sampleWorld (some (ledgerAssigning 1)) 1 101 "Aspirin"
    (30 * 24 * 60 * 60) "").1 101 "Aspirin" (30 * 24 * 60 * 60)
    "https://gateway.pinata.cloud/ipfs/QmHash"
    (by
      show Event.contractMintDrug 101 "Aspirin" (30 * 24 * 60 * 60)
        "https://gateway.pinata.cloud/ipfs/QmHash"
        ∈ (handleSubmit sampleConfig sampleWorld (some (ledgerAssigning 1)) 1 101 "Aspirin"
          30).trace
      decide)).2.2.2

/-! ## C3: no reconciliation of the token id -/

set_option maxRecDepth 100000 in
/-- C3, counterexample: predicted token id 1, the ledger assigns token id 2; the
run is, effect for effect, the run in which the ledger assigns token id 1, and
its only alert announces the token id 1: no mismatch is reported. -/
theorem no_reconciliation_counterexample :
    mintDrug sampleConfig sampleWorld (some (ledgerAssigning 2)) 1 101 "Aspirin" 2592000 ""
      = mintDrug sampleConfig sampleWorld (some (ledgerAssigning 1)) 1 101 "Aspirin" 2592000 "" ∧
    (mintDrug sampleConfig sampleWorld (some (ledgerAssigning 2)) 1 101 "Aspirin" 2592000
        "").trace.filter Event.isAlert
      = [.alert ("Drug minted successfully!\nNFT Token ID: 1\nMedicine ID: 101\nQR Code: "
          ++ "https://gateway.pinata.cloud/ipfs/QmHash\nMetadata: "
          ++ "https://gateway.pinata.cloud/ipfs/QmHash")] := by
  constructor
  · rfl
  · decide

/-- C3 (amended): the pipeline does not reconcile. The effects and the result of a
run of `mintDrug` are the same whatever token id the ledger assigned in its
receipt, and the alert of a successful run names the predicted token id. -/
theorem mint_ignores_assigned_id (cfg : Config) (w : World) (c : Contract)
    (f : Receipt → Receipt) (nextTokenId medicineId : Int) (name : String) (expiry : Int)
    (uri : String) :
    mintDrug cfg w (some (c.mapReceipt f)) nextTokenId medicineId name expiry uri
      = mintDrug cfg w (some c) nextTokenId medicineId name expiry uri ∧
    ∀ msg, Event.alert msg ∈ (mintDrug cfg w (some c) nextTokenId medicineId name expiry uri).trace →
      (∃ e, msg = "Failed to mint drug: " ++ e) ∨
      ∃ qr md : UploadResult, msg = "Drug minted successfully!\nNFT Token ID: " ++ numberToString nextTokenId
        ++ "\nMedicine ID: " ++ numberToString medicineId
        ++ "\nQR Code: " ++ qr.ipfsUrl ++ "\nMetadata: " ++ md.ipfsUrl := by
  constructor
  · simp only [mintDrug, mintDrugTry, Outcome.bind_eq, doMintDrug_mapReceipt]
  · intro msg hmsg
    have hrun := (mintDrug_run cfg w c nextTokenId medicineId name expiry uri).1
    have hm : Event.alert msg
        ∈ (mintDrug cfg w (some c) nextTokenId medicineId name expiry uri).trace.filter
          Event.isAlert := List.mem_filter.2 ⟨hmsg, rfl⟩
    rw [hrun.alerts] at hm
    cases hv : mintVerdict cfg w c nextTokenId medicineId name expiry with
    | error e =>
      left
      rw [hv] at hm
      simp [alertOf] at hm
      exact ⟨e, hm⟩
    | ok p =>
      right
      rw [hv] at hm
      simp [alertOf, mintSuccessAlert] at hm
      exact ⟨p.1, p.2, hm⟩

/-! ## C4: the verification payload -/

/-- C4: whenever `createQRCode` hands a text to the QR encoder, that text is the
serialization of the object with exactly the fields `tokenId`, `drugName`,
`medicineId`, `expiryDate`, `contractAddress` and `network`, in this order, where
`tokenId` and `medicineId` are the decimal renderings of the inputs, `drugName`
is the input name, `expiryDate` is the ISO-8601 rendering of the current time
plus `expirySeconds` seconds, `contractAddress` is the configured address and
`network` is `sepolia`; and it does hand over such a text whenever that date is
a valid date. -/
theorem createQRCode_payload (cfg : Config) (w : World) (now tokenId medicineId : Int)
    (drugName : String) (expirySeconds : Int) :
    (∀ text width, Event.toCanvas text width
        ∈ (createQRCode cfg w now tokenId medicineId drugName expirySeconds).trace →
      ∃ iso, toISOString (now + expirySeconds * 1000) = .ok iso ∧
        text = (Json.obj [("tokenId", .str (toString tokenId)),
          ("drugName", .str drugName),
          ("medicineId", .str (toString medicineId)),
          ("expiryDate", .str iso),
          ("contractAddress", .str cfg.contract_address),
          ("network", .str "sepolia")]).stringify) ∧
    (-maxTime ≤ now + expirySeconds * 1000 ∧ now + expirySeconds * 1000 ≤ maxTime →
      ∃ text, Event.toCanvas text 256
        ∈ (createQRCode cfg w now tokenId medicineId drugName expirySeconds).trace) := by
  constructor
  · intro text width he
    rcases createQRCode_cases cfg w now tokenId medicineId drugName expirySeconds with
      ⟨iso, h1, h2⟩ | ⟨e, h1, h2⟩ | ⟨iso, e, h1, h2⟩
    · rw [h2] at he
      simp at he
      exact ⟨iso, h1, he.1⟩
    · rw [h2] at he
      simp at he
    · rw [h2] at he
      simp at he
      exact ⟨iso, h1, he.1⟩
  · intro hrange
    rcases createQRCode_cases cfg w now tokenId medicineId drugName expirySeconds with
      ⟨iso, h1, h2⟩ | ⟨e, h1, h2⟩ | ⟨iso, e, h1, h2⟩
    · exact ⟨qrText cfg tokenId medicineId drugName iso, by rw [h2]; simp⟩
    · exfalso
      unfold toISOString at h1
      split at h1
      · rename_i hlt
        omega
      · cases h1
    · exact ⟨qrText cfg tokenId medicineId drugName iso, by rw [h2]; simp⟩

/-- C4, witness: thirty days from the clock reading 1700000000000 is a valid
date, so `createQRCode` hands a payload to the QR encoder. -/
theorem createQRCode_payload_witness :
    ∃ text, Event.toCanvas text 256
      ∈ (createQRCode sampleConfig sampleWorld 1700000000000 1 101 "Aspirin" 2592000).trace :=
  (createQRCode_payload sampleConfig sampleWorld 1700000000000 1 101 "Aspirin" 2592000).2
    (by decide)

/-! ## C5: the payload depends on the clock -/

set_option maxRecDepth 100000 in
/-- C5, counterexample: in the sample run the clock reads one second more at
every reading; the payload handed to the QR encoder and the `qrData` recorded
after the mint are two encodings of the same token id, medicine id, name and
expiry, and they differ (in `expiryDate`). -/
theorem qr_payloads_differ :
    (mintDrug sampleConfig sampleWorld (some (ledgerAssigning 1)) 1 101 "Aspirin" 2592000
        "").trace.filterMap Event.payload?
      = [qrText sampleConfig 1 101 "Aspirin" "2023-12-14T22:13:20.000Z",
        qrText sampleConfig 1 101 "Aspirin" "2023-12-14T22:13:24.000Z"] ∧
    qrText sampleConfig 1 101 "Aspirin" "2023-12-14T22:13:20.000Z"
      ≠ qrText sampleConfig 1 101 "Aspirin" "2023-12-14T22:13:24.000Z" := by
  constructor
  · decide
  · decide

/-- C5 (amended): the payload is a function of the token id, the medicine id, the
name, the expiry and the clock reading at the time of encoding. Two calls of
`createQRCode` with the same arguments and the same clock reading hand the same
text to the QR encoder, in whatever world; and in a run of `mintDrug` that
records `qrData`, the payload handed to the QR encoder is the encoding at the
first clock reading and `qrData` is the encoding at the last one, so that they
are identical when the two readings agree. -/
theorem qr_payload_by_clock (cfg : Config) (w : World) (contract : Option Contract)
    (nextTokenId medicineId : Int) (name : String) (expiry : Int) (uri : String) :
    (∀ (w2 : World) (now : Int) (t1 t2 : String),
      Event.toCanvas t1 256 ∈ (createQRCode cfg w now nextTokenId medicineId name expiry).trace →
      Event.toCanvas t2 256 ∈ (createQRCode cfg w2 now nextTokenId medicineId name expiry).trace →
      t1 = t2) ∧
    (∀ d, Event.setMintedQrData d
        ∈ (mintDrug cfg w contract nextTokenId medicineId name expiry uri).trace →
      ∃ iso iso2, toISOString (w.now 0 + expiry * 1000) = .ok iso ∧
        toISOString (w.now 4 + expiry * 1000) = .ok iso2 ∧
        Event.toCanvas (qrCodeData cfg nextTokenId medicineId name iso).stringify 256
          ∈ (mintDrug cfg w contract nextTokenId medicineId name expiry uri).trace ∧
        d.qrData = (qrCodeData cfg nextTokenId medicineId name iso2).stringify ∧
        (w.now 0 = w.now 4 →
          d.qrData = (qrCodeData cfg nextTokenId medicineId name iso).stringify)) := by
  constructor
  · intro w2 now t1 t2 h1 h2
    have key : ∀ (w3 : World) (t : String),
        Event.toCanvas t 256 ∈ (createQRCode cfg w3 now nextTokenId medicineId name expiry).trace →
        ∃ iso, toISOString (now + expiry * 1000) = .ok iso ∧
          t = qrText cfg nextTokenId medicineId name iso := by
      intro w3 t ht
      rcases createQRCode_cases cfg w3 now nextTokenId medicineId name expiry with
        ⟨iso, hi, hc⟩ | ⟨e, hi, hc⟩ | ⟨iso, e, hi, hc⟩
      · rw [hc] at ht
        simp at ht
        exact ⟨iso, hi, ht⟩
      · rw [hc] at ht
        simp at ht
      · rw [hc] at ht
        simp at ht
        exact ⟨iso, hi, ht⟩
    obtain ⟨iso, hi, rfl⟩ := key w t1 h1
    obtain ⟨iso2, hi2, rfl⟩ := key w2 t2 h2
    rw [hi] at hi2
    cases hi2
    rfl
  · cases contract with
    | none => simp [mintDrug, Outcome.ret]
    | some c =>
      intro d hd
      have hrun := (mintDrug_run cfg w c nextTokenId medicineId name expiry uri).1
      obtain ⟨iso, iso2, h1, h7, hc, hq⟩ := hrun.of_record_mem d hd
      refine ⟨iso, iso2, h1, h7, hc, hq, ?_⟩
      intro hnow
      rw [hnow, h7] at h1
      cases h1
      exact hq

/-! ## C6: the metadata document -/

/-- C6: the request by which a run of `mintDrug` uploads its metadata document
carries, as `pinataContent`, an object with the fields `name`, `description`,
`image`, `attributes`, `external_url`, `qr_code` (and, last, `qr_ipfs`), where
`image` and `qr_code` are the `ipfsUrl` that the QR-image upload of the same run
returned and `attributes` is a list of objects with exactly the fields
`trait_type` and `value`. -/
theorem metadata_document_shape (cfg : Config) (w : World) (contract : Option Contract)
    (nextTokenId medicineId : Int) (name : String) (expiry : Int) (uri : String)
    (req : Request)
    (he : Event.fetch req
      ∈ (mintDrug cfg w contract nextTokenId medicineId name expiry uri).trace)
    (hurl : req.url = "https://api.pinata.cloud/pinning/pinJSONToIPFS") :
    ∃ blob qr doc,
      (stepEncode cfg w nextTokenId medicineId name expiry).result = .ok blob ∧
      (stepUploadQR cfg w nextTokenId blob).result = .ok qr ∧
      req.body = .text (Json.obj [("pinataContent", doc),
        ("pinataMetadata", .obj [
          ("name", .str ("Medicine " ++ toString medicineId ++ " Metadata")),
          ("keyvalues", .obj [("type", .str "nft-metadata"),
            ("timestamp", .str (toString (w.now 3)))])])]).stringify ∧
      doc.keys = ["name", "description", "image", "attributes", "external_url", "qr_code",
        "qr_ipfs"] ∧
      doc.get? "image" = some (.str qr.ipfsUrl) ∧
      doc.get? "qr_code" = some (.str qr.ipfsUrl) ∧
      ∃ attrs, doc.get? "attributes" = some (.arr attrs) ∧
        ∀ a ∈ attrs, ∃ traitType value,
          a = .obj [("trait_type", .str traitType), ("value", .str value)] := by
  cases contract with
  | none => simp [mintDrug, Outcome.ret] at he
  | some c =>
    have hrun := (mintDrug_run cfg w c nextTokenId medicineId name expiry uri).1
    obtain ⟨blob, qr, created, h2, h3, h4, rfl⟩ := hrun.of_pinJSON_mem req he hurl
    refine ⟨blob, qr, mintMetadata cfg w medicineId name expiry qr created, h2, h3, rfl, rfl,
      ?_, ?_, ?_⟩
    · simp [mintMetadata, Json.get?, List.find?]
    · simp [mintMetadata, Json.get?, List.find?]
    · refine ⟨_, by simp [mintMetadata, Json.get?, List.find?]; rfl, ?_⟩
      intro a ha
      simp at ha
      rcases ha with rfl | rfl | rfl | rfl | rfl <;> exact ⟨_, _, rfl⟩

set_option maxRecDepth 100000 in
/-- C6, witness: the metadata upload of the sample run. -/
theorem metadata_document_shape_witness :
    ∃ blob qr doc,
      (stepEncode sampleConfig sampleWorld 1 101 "Aspirin" 2592000).result = .ok blob ∧
      (stepUploadQR sampleConfig sampleWorld 1 blob).result = .ok qr ∧
      (metadataUploadRequest sampleConfig sampleWorld 101 "Aspirin" 2592000 sampleUpload
          "2023-11-14T22:13:22.000Z").body
        = .text (Json.obj [("pinataContent", doc),
        ("pinataMetadata", .obj [
          ("name", .str ("Medicine " ++ toString (101 : Int) ++ " Metadata")),
          ("keyvalues", .obj [("type", .str "nft-metadata"),
            ("timestamp", .str (toString (sampleWorld.now 3)))])])]).stringify ∧
      doc.keys = ["name", "description", "image", "attributes", "external_url", "qr_code",
        "qr_ipfs"] ∧
      doc.get? "image" = some (.str qr.ipfsUrl) ∧
      doc.get? "qr_code" = some (.str qr.ipfsUrl) ∧
      ∃ attrs, doc.get? "attributes" = some (.arr attrs) ∧
        ∀ a ∈ attrs, ∃ traitType value,
          a = .obj [("trait_type", .str traitType), ("value", .str value)] :=
  metadata_document_shape sampleConfig sampleWorld (some (ledgerAssigning 1)) 1 101 "Aspirin"
    2592000 "" (metadataUploadRequest sampleConfig sampleWorld 101 "Aspirin" 2592000
      sampleUpload "2023-11-14T22:13:22.000Z") (by decide) (by decide)

/-! ## C7: the locator is not empty -/

/-- C7: for every configuration (gateway setting) and every world (content hash
returned by the store), the locator of a ledger mint call of `mintDrug` is the
gateway followed by `/ipfs/` and the hash the store returned for the metadata
document, and is not the empty string. -/
theorem mint_locator_nonempty (cfg : Config) (w : World) (contract : Option Contract)
    (nextTokenId medicineId : Int) (name : String) (expiry : Int) (uri : String)
    (mid : Int) (n : String) (ex : Int) (loc : String)
    (he : Event.contractMintDrug mid n ex loc
      ∈ (mintDrug cfg w contract nextTokenId medicineId name expiry uri).trace) :
    loc ≠ "" ∧ ∃ qr md, ArtifactsStored cfg w nextTokenId medicineId name expiry qr md ∧
      loc = (IPFSService.new cfg).pinataGateway ++ "/ipfs/" ++ md.hash := by
  cases contract with
  | none => simp [mintDrug, Outcome.ret] at he
  | some c =>
    have hrun := (mintDrug_run cfg w c nextTokenId medicineId name expiry uri).1
    obtain ⟨iso, created, qr, md, rest, h1, h4, hs, heq, ht, hrest⟩ :=
      hrun.of_mint_mem _ he rfl
    cases heq
    have hloc : md.ipfsUrl = (IPFSService.new cfg).pinataGateway ++ "/ipfs/" ++ md.hash := by
      obtain ⟨blob, created2, _, _, _, hc, hmd⟩ := hs
      rw [stepUploadMetadata, uploadJSON_result] at hmd
      obtain ⟨resp, b, _, _, _, hr⟩ := (uploadOutcome_ok_iff _ _ _).1 hmd
      rw [hr]
      simp [IPFSService.pinned, getHttpUrl_ipfs]
    exact ⟨by rw [hloc]; exact gateway_url_ne_empty _ _, qr, md, hs, hloc⟩

set_option maxRecDepth 100000 in
/-- C7, witness: the mint call of the sample run has a non-empty locator. -/
theorem mint_locator_nonempty_witness :
    ("https://gateway.pinata.cloud/ipfs/QmHash" : String) ≠ "" :=
  (mint_locator_nonempty sampleConfig sampleWorld (some (ledgerAssigning 1)) 1 101 "Aspirin"
    2592000 "" 101 "Aspirin" 2592000 "https://gateway.pinata.cloud/ipfs/QmHash"
    (by decide)).1

/-! ## C8: a rejected mint -/

/-- C8: when both uploads succeeded and the ledger rejects the mint (the call
or the wait for its transaction), the run of `mintDrug` shows the alert
`Failed to mint drug: ` followed by the message of the ledger, and after the mint call it issues
no call to the artifact store. -/
theorem mint_rejection_surfaced (cfg : Config) (w : World) (c : Contract)
    (nextTokenId medicineId : Int) (name : String) (expiry : Int) (uri : String)
    (qr md : UploadResult) (msg : String)
    (hs : ArtifactsStored cfg w nextTokenId medicineId name expiry qr md)
    (hrej : c.mintDrug medicineId name expiry md.ipfsUrl = .error msg ∨
      c.mintDrug medicineId name expiry md.ipfsUrl = .ok (.error msg)) :
    ∃ pre post,
      (mintDrug cfg w (some c) nextTokenId medicineId name expiry uri).trace
        = pre ++ .contractMintDrug medicineId name expiry md.ipfsUrl :: post ∧
      (∀ x ∈ pre, x.isLedgerMint = false) ∧
      Event.alert ("Failed to mint drug: " ++ msg) ∈ post ∧
      ∀ x ∈ post, x.isStoreCall = false ∧ x.isLedgerMint = false := by
  have hrun := (mintDrug_run cfg w c nextTokenId medicineId name expiry uri).1
  obtain ⟨iso, created, qr2, md2, rest, h1, h4, hs2, heq, ht, hrest⟩ :=
    hrun.of_mint_mem _ (hrun.mint_mem_of_stored hs) rfl
  have hv := (artifactsVerdict_ok_iff qr md).2 hs
  have hverdict : mintVerdict cfg w c nextTokenId medicineId name expiry = .error msg := by
    rcases hrej with h6 | h6 <;> simp [mintVerdict, hv, h6]
  have halert : Event.alert ("Failed to mint drug: " ++ msg)
      ∈ (mintDrug cfg w (some c) nextTokenId medicineId name expiry uri).trace := by
    have hf := hrun.alerts
    rw [hverdict] at hf
    have hm : Event.alert ("Failed to mint drug: " ++ msg)
        ∈ (mintDrug cfg w (some c) nextTokenId medicineId name expiry uri).trace.filter
          Event.isAlert := by
      rw [hf]
      simp [alertOf]
    exact (List.mem_filter.1 hm).1
  have hpre : ∀ x ∈ traceBeforeMint cfg w nextTokenId medicineId name expiry iso qr2 created,
      x.isLedgerMint = false ∧ x.isAlert = false := by
    simp [traceBeforeMint, traceToConnection, traceToEncode, traceToUploadQR,
      traceToUploadMetadata, Event.isLedgerMint, Event.isAlert]
  refine ⟨_, rest, ht, fun x hx => (hpre x hx).1, ?_, fun x hx => ⟨(hrest x hx).2.1, (hrest x hx).1⟩⟩
  rw [ht] at halert
  rcases List.mem_append.1 halert with h | h
  · have := (hpre _ h).2
    simp [Event.isAlert] at this
  · rcases List.mem_cons.1 h with h | h
    · cases h
    · exact h

/-- C8, witness: the sample world with a ledger that rejects the mint. -/
theorem mint_rejection_surfaced_witness :
    ∃ pre post,
      (mintDrug sampleConfig sampleWorld (some (ledgerRejecting "execution reverted")) 1 101
        "Aspirin" 2592000 "").trace
        = pre ++ .contractMintDrug 101 "Aspirin" 2592000 sampleUpload.ipfsUrl :: post ∧
      (∀ x ∈ pre, x.isLedgerMint = false) ∧
      Event.alert ("Failed to mint drug: " ++ "execution reverted") ∈ post ∧
      ∀ x ∈ post, x.isStoreCall = false ∧ x.isLedgerMint = false :=
  mint_rejection_surfaced sampleConfig sampleWorld (ledgerRejecting "execution reverted") 1 101
    "Aspirin" 2592000 "" sampleUpload sampleUpload "execution reverted"
    sample_artifacts_stored (Or.inl rfl)

/-! ## C9: what a failure reports -/

set_option maxRecDepth 100000 in
/-- C9, counterexample: a run whose QR-image upload (step 3) is answered `500 boom`
and a run whose metadata upload (step 4) is answered `500 boom` surface the same
alert, which names no step. -/
theorem upload_failures_indistinguishable :
    (mintDrug sampleConfig (worldFailingAt "https://api.pinata.cloud/pinning/pinFileToIPFS")
        (some (ledgerAssigning 1)) 1 101 "Aspirin" 2592000 "").trace.filter Event.isAlert
      = [.alert "Failed to mint drug: HTTP error! status: 500, message: boom"] ∧
    (mintDrug sampleConfig (worldFailingAt "https://api.pinata.cloud/pinning/pinJSONToIPFS")
        (some (ledgerAssigning 1)) 1 101 "Aspirin" 2592000 "").trace.filter Event.isAlert
      = [.alert "Failed to mint drug: HTTP error! status: 500, message: boom"] ∧
    (∃ blob, (stepUploadQR sampleConfig
        (worldFailingAt "https://api.pinata.cloud/pinning/pinFileToIPFS") 1 blob).result
      = .error "HTTP error! status: 500, message: boom") ∧
    ∃ blob qr created, (stepUploadQR sampleConfig
        (worldFailingAt "https://api.pinata.cloud/pinning/pinJSONToIPFS") 1 blob).result = .ok qr ∧
      (stepUploadMetadata sampleConfig
        (worldFailingAt "https://api.pinata.cloud/pinning/pinJSONToIPFS") 101 "Aspirin" 2592000
        qr created).result = .error "HTTP error! status: 500, message: boom" := by
  refine ⟨by decide, by decide, ⟨sampleFile.content, by decide⟩,
    sampleFile.content, sampleUpload, "", by decide, by decide⟩

/-- C9 (amended): a failed upload is surfaced as the single alert
`Failed to mint drug: ` followed by the message of the error the upload threw, for the
QR-image upload (step 3) and for the metadata upload (step 4) alike, as is every
failure of the `try` block; on a response that is not OK that message is
`HTTP error! status: S, message: B` in both `uploadFile` and `uploadJSON`, so
that it does not name the step. -/
theorem upload_failure_alert (cfg : Config) (w : World) (c : Contract)
    (nextTokenId medicineId : Int) (name : String) (expiry : Int) (uri : String) :
    (∀ blob e, (stepConnection cfg w).result = .ok true →
      (stepEncode cfg w nextTokenId medicineId name expiry).result = .ok blob →
      (stepUploadQR cfg w nextTokenId blob).result = .error e →
      (mintDrug cfg w (some c) nextTokenId medicineId name expiry uri).trace.filter Event.isAlert
        = [.alert ("Failed to mint drug: " ++ e)]) ∧
    (∀ blob qr created e, (stepConnection cfg w).result = .ok true →
      (stepEncode cfg w nextTokenId medicineId name expiry).result = .ok blob →
      (stepUploadQR cfg w nextTokenId blob).result = .ok qr →
      toISOString (w.now 2) = .ok created →
      (stepUploadMetadata cfg w medicineId name expiry qr created).result = .error e →
      (mintDrug cfg w (some c) nextTokenId medicineId name expiry uri).trace.filter Event.isAlert
        = [.alert ("Failed to mint drug: " ++ e)]) ∧
    (∀ e, mintVerdict cfg w c nextTokenId medicineId name expiry = .error e →
      (mintDrug cfg w (some c) nextTokenId medicineId name expiry uri).trace.filter Event.isAlert
        = [.alert ("Failed to mint drug: " ++ e)]) ∧
    (∀ (svc : IPFSService) now file filename resp,
      w.fetch (svc.uploadFileRequest now file filename) = .ok resp → resp.ok = false →
      (svc.uploadFile w now file filename).result
        = .error ("HTTP error! status: " ++ toString resp.status ++ ", message: " ++ resp.text)) ∧
    (∀ (svc : IPFSService) now jsonData filename resp,
      w.fetch (svc.uploadJSONRequest now jsonData filename) = .ok resp → resp.ok = false →
      (svc.uploadJSON w now jsonData filename).result
        = .error ("HTTP error! status: " ++ toString resp.status ++ ", message: " ++ resp.text)) := by
  have hrun := (mintDrug_run cfg w c nextTokenId medicineId name expiry uri).1
  refine ⟨?_, ?_, ?_, ?_, ?_⟩
  · intro blob e h0 h2 h3
    have hv : artifactsVerdict cfg w nextTokenId medicineId name expiry = .error e := by
      simp [artifactsVerdict, h0, h2, h3]
    rw [hrun.alerts]
    simp [mintVerdict, hv, alertOf]
  · intro blob qr created e h0 h2 h3 h4 h5
    have hv : artifactsVerdict cfg w nextTokenId medicineId name expiry = .error e := by
      simp [artifactsVerdict, h0, h2, h3, h4, h5]
    rw [hrun.alerts]
    simp [mintVerdict, hv, alertOf]
  · intro e hv
    rw [hrun.alerts, hv]
    rfl
  · intro svc now file filename resp hf hok
    rw [uploadFile_result, hf]
    simp [IPFSService.uploadOutcome, hok, httpErrorMessage]
  · intro svc now jsonData filename resp hf hok
    rw [uploadJSON_result, hf]
    simp [IPFSService.uploadOutcome, hok, httpErrorMessage]

/-! ## C10: the results of the uploads -/

set_option maxRecDepth 100000 in
/-- C10, counterexample: the store answers `200 OK` with a body that is not JSON;
`uploadFile` and `uploadJSON` throw and return no result. -/
theorem ok_response_without_result :
    (∃ resp, worldAnsweringHtml.fetch
        ((IPFSService.new sampleConfig).uploadFileRequest 0 sampleFile "qr") = .ok resp ∧
      resp.ok = true) ∧
    ((IPFSService.new sampleConfig).uploadFile worldAnsweringHtml 0 sampleFile "qr").result
      = .error "Unexpected token < in JSON at position 0" ∧
    ((IPFSService.new sampleConfig).uploadJSON worldAnsweringHtml 0 (.obj []) "doc").result
      = .error "Unexpected token < in JSON at position 0" :=
  ⟨⟨_, rfl, rfl⟩, by decide, by decide⟩

/-- C10 (amended): `uploadFile` and `uploadJSON` return a result exactly when the
store answers with an OK response whose body parses; then, for the hash `h` of
the body, the result is `hash = h`, `ipfsUri = "ipfs://" + h` and
`ipfsUrl = gateway + "/ipfs/" + h`, which is `getHttpUrl(ipfsUri)`; on a response
that is not OK they throw an error carrying the status and the body text. -/
theorem upload_result (svc : IPFSService) (w : World) (now : Int) (file : File)
    (jsonData : Json) (filename : String) :
    ((∀ r, (svc.uploadFile w now file filename).result = .ok r ↔
        ∃ resp b, w.fetch (svc.uploadFileRequest now file filename) = .ok resp ∧
          resp.ok = true ∧ resp.json = .ok b ∧
          r = ⟨"ipfs://" ++ b.IpfsHash, svc.pinataGateway ++ "/ipfs/" ++ b.IpfsHash,
            b.IpfsHash⟩) ∧
      (∀ r, (svc.uploadFile w now file filename).result = .ok r →
        r.ipfsUrl = svc.getHttpUrl r.ipfsUri) ∧
      (∀ resp, w.fetch (svc.uploadFileRequest now file filename) = .ok resp → resp.ok = false →
        (svc.uploadFile w now file filename).result
          = .error ("HTTP error! status: " ++ toString resp.status ++ ", message: "
            ++ resp.text))) ∧
    ((∀ r, (svc.uploadJSON w now jsonData filename).result = .ok r ↔
        ∃ resp b, w.fetch (svc.uploadJSONRequest now jsonData filename) = .ok resp ∧
          resp.ok = true ∧ resp.json = .ok b ∧
          r = ⟨"ipfs://" ++ b.IpfsHash, svc.pinataGateway ++ "/ipfs/" ++ b.IpfsHash,
            b.IpfsHash⟩) ∧
      (∀ r, (svc.uploadJSON w now jsonData filename).result = .ok r →
        r.ipfsUrl = svc.getHttpUrl r.ipfsUri) ∧
      (∀ resp, w.fetch (svc.uploadJSONRequest now jsonData filename) = .ok resp →
        resp.ok = false →
        (svc.uploadJSON w now jsonData filename).result
          = .error ("HTTP error! status: " ++ toString resp.status ++ ", message: "
            ++ resp.text))) := by
  have hp : ∀ b : ParsedBody, svc.pinned b
      = ⟨"ipfs://" ++ b.IpfsHash, svc.pinataGateway ++ "/ipfs/" ++ b.IpfsHash, b.IpfsHash⟩ := by
    intro b
    simp [IPFSService.pinned, getHttpUrl_ipfs]
  have hu : ∀ b : ParsedBody, (svc.pinned b).ipfsUrl = svc.getHttpUrl (svc.pinned b).ipfsUri := by
    intro b
    rfl
  refine ⟨⟨?_, ?_, ?_⟩, ⟨?_, ?_, ?_⟩⟩
  · intro r
    rw [uploadFile_result, uploadOutcome_ok_iff]
    simp only [hp]
  · intro r hr
    rw [uploadFile_result, uploadOutcome_ok_iff] at hr
    obtain ⟨_, b, _, _, _, rfl⟩ := hr
    exact hu b
  · intro resp hf hok
    rw [uploadFile_result, hf]
    simp [IPFSService.uploadOutcome, hok, httpErrorMessage]
  · intro r
    rw [uploadJSON_result, uploadOutcome_ok_iff]
    simp only [hp]
  · intro r hr
    rw [uploadJSON_result, uploadOutcome_ok_iff] at hr
    obtain ⟨_, b, _, _, _, rfl⟩ := hr
    exact hu b
  · intro resp hf hok
    rw [uploadJSON_result, hf]
    simp [IPFSService.uploadOutcome, hok, httpErrorMessage]

/-- C10, witness: the sample store answers `200 OK` with the hash `QmHash`;
`uploadFile` returns the content id, the `ipfs://` URI and the gateway locator. -/
theorem upload_result_witness :
    ((IPFSService.new sampleConfig).uploadFile sampleWorld 0 sampleFile "qr").result
      = .ok ⟨"ipfs://QmHash", "https://gateway.pinata.cloud/ipfs/QmHash", "QmHash"⟩ :=
  ((upload_result (IPFSService.new sampleConfig) sampleWorld 0 sampleFile (.obj []) "qr").1.1
    ⟨"ipfs://QmHash", "https://gateway.pinata.cloud/ipfs/QmHash", "QmHash"⟩).2
    ⟨⟨true, 200, "", .ok ⟨"QmHash"⟩⟩, ⟨"QmHash"⟩, rfl, rfl, rfl, by decide⟩

/-! ## Decimal strings and `parseInt` -/

theorem digitChar_facts (d : Nat) (h : d < 10) :
    isWhiteSpace (Nat.digitChar d) = false ∧ Nat.digitChar d ≠ '-' ∧ Nat.digitChar d ≠ '+' ∧
    Nat.digitChar d ≠ 'x' ∧ Nat.digitChar d ≠ 'X' ∧ digitOf 10 (Nat.digitChar d) = some d := by
  interval_cases d <;> decide

theorem toDigitsCore_eq (fuel : Nat) :
    ∀ (n : Nat) (ds : List Char), n < fuel →
      ∃ pre : List Nat, pre ≠ [] ∧ (∀ d ∈ pre, d < 10) ∧ digitsValue 10 pre = n ∧
        Nat.toDigitsCore 10 fuel n ds = pre.map Nat.digitChar ++ ds := by
  induction fuel with
  | zero => intro n ds h; omega
  | succ fuel ih =>
    intro n ds h
    unfold Nat.toDigitsCore
    by_cases h0 : n / 10 = 0
    · refine ⟨[n % 10], by simp, ?_, ?_, ?_⟩
      · intro d hd
        simp at hd
        omega
      · simp [digitsValue]
        omega
      · simp [h0]
    · have hlt : n / 10 < fuel := by omega
      obtain ⟨pre, hne, hd, hv, he⟩ := ih (n / 10) (Nat.digitChar (n % 10) :: ds) hlt
      refine ⟨pre ++ [n % 10], by simp, ?_, ?_, ?_⟩
      · intro d hmem
        rcases List.mem_append.1 hmem with h1 | h1
        · exact hd d h1
        · simp at h1
          omega
      · unfold digitsValue at hv ⊢
        rw [List.foldl_append, hv]
        simp
        omega
      · simp [h0, he]

theorem leadingDigits_map_digitChar (pre : List Nat) (h : ∀ d ∈ pre, d < 10) :
    leadingDigits 10 (pre.map Nat.digitChar) = pre := by
  induction pre with
  | nil => rfl
  | cons d pre ih =>
    have hd := (digitChar_facts d (h d (by simp))).2.2.2.2.2
    simp only [List.map_cons, leadingDigits, hd]
    rw [ih (fun x hx => h x (by simp [hx]))]

theorem parseInt_toString (round : Int → Int) (n : Nat) :
    parseInt round (toString n) = some (toNumber round n) := by
  obtain ⟨pre, hne, hd, hv, he⟩ := toDigitsCore_eq (n + 1) n [] (Nat.lt_succ_self n)
  have hs : (toString n).toList = pre.map Nat.digitChar := by
    show (Nat.repr n).toList = _
    unfold Nat.repr Nat.toDigits
    rw [he]
    simp [List.asString, String.toList]
  cases pre with
  | nil => exact (hne rfl).elim
  | cons d0 rest =>
    have f0 := digitChar_facts d0 (hd d0 (by simp))
    have hlead := leadingDigits_map_digitChar (d0 :: rest) hd
    have hhex : ¬ (((d0 :: rest).map Nat.digitChar).take 2 = ['0', 'x'] ∨
        ((d0 :: rest).map Nat.digitChar).take 2 = ['0', 'X']) := by
      cases rest with
      | nil => simp
      | cons d1 rest2 =>
        have f1 := digitChar_facts d1 (hd d1 (by simp))
        simp only [List.map_cons, List.take_succ_cons, List.take_zero]
        intro hc
        rcases hc with hc | hc
        · simp only [List.cons.injEq] at hc
          exact f1.2.2.2.1 hc.2.1
        · simp only [List.cons.injEq] at hc
          exact f1.2.2.2.2.1 hc.2.1
    unfold parseInt
    simp only [hs]
    have htrim : ((d0 :: rest).map Nat.digitChar).dropWhile isWhiteSpace
        = (d0 :: rest).map Nat.digitChar := by
      simp [List.dropWhile, f0.1]
    simp only [htrim]
    have hhead : ((d0 :: rest).map Nat.digitChar).head? = some (Nat.digitChar d0) := by simp
    simp only [hhead, Option.some.injEq, f0.2.1, f0.2.2.1, or_self, if_false, hhex, hlead, hv]
    simp

/-! ## C11: the connection test -/

/-- C11: `testConnection` always resolves with a boolean: `true` exactly when
`fetch` resolves with an OK response whose body parses, and `false` when the
response is not OK, when `fetch` rejects and when the body does not parse. -/
theorem testConnection_boolean (svc : IPFSService) (w : World) :
    (∃ b, (svc.testConnection w).result = .ok b ∧
      (b = true ↔ ∃ resp body, w.fetch svc.testConnectionRequest = .ok resp ∧
        resp.ok = true ∧ resp.json = .ok body)) ∧
    (∀ e, w.fetch svc.testConnectionRequest = .error e →
      (svc.testConnection w).result = .ok false) ∧
    (∀ resp, w.fetch svc.testConnectionRequest = .ok resp → resp.ok = false →
      (svc.testConnection w).result = .ok false) ∧
    (∀ resp e, w.fetch svc.testConnectionRequest = .ok resp → resp.json = .error e →
      (svc.testConnection w).result = .ok false) := by
  unfold IPFSService.testConnection World.doFetch
  cases hf : w.fetch svc.testConnectionRequest with
  | error e =>
    simp [Outcome.tryCatch, Outcome.andThen, Outcome.emit, Outcome.ret, hf]
  | ok resp =>
    cases hok : resp.ok with
    | false =>
      simp [Outcome.tryCatch, Outcome.andThen, Outcome.emit, Outcome.ret, hf, hok]
    | true =>
      cases hj : resp.json with
      | error e =>
        simp [Outcome.tryCatch, Outcome.andThen, Outcome.emit, Outcome.ret, Outcome.lift,
          hf, hok, hj]
      | ok b =>
        simp [Outcome.tryCatch, Outcome.andThen, Outcome.emit, Outcome.ret, Outcome.lift,
          hf, hok, hj]
        intro r e hr
        subst hr
        rw [hj]
        simp

/-- C11, witness: in the world that answers the authentication request `500`
the connection test resolves with `false`. -/
theorem testConnection_boolean_witness :
    ((IPFSService.new sampleConfig).testConnection
      (worldFailingAt "https://api.pinata.cloud/data/testAuthentication")).result = .ok false :=
  (testConnection_boolean (IPFSService.new sampleConfig)
    (worldFailingAt "https://api.pinata.cloud/data/testAuthentication")).2.2.1
    ⟨false, 500, "boom", .error "Unexpected token b in JSON"⟩
    (by simp [worldFailingAt, IPFSService.testConnectionRequest, IPFSService.new]) rfl

/-! ## C12: the prediction of the next token id -/

/-- C12: the effect of `useTokenCounter` accesses the ledger only by the query
`getNextTokenId()`; when the query answers `n` below `2^53` the predicted
`nextTokenId` becomes `n`; without a ledger client it stays at its initial
value 1 (nothing is set); and when the query fails it is set to 1. -/
theorem useTokenCounter_prediction (round : Int → Int) :
    (∀ contract, ∀ e ∈ (fetchNextTokenId round contract).trace, e.isLedgerAccess = true →
      e = .contractCall "getNextTokenId" []) ∧
    (∀ (c : CounterContract) (n : Nat), c.getNextTokenId = .ok n → n < 2 ^ 53 →
      useTokenCounter round (some c) = some (n : Int)) ∧
    (useTokenCounter round none = some 1 ∧ (fetchNextTokenId round none).trace = []) ∧
    (∀ (c : CounterContract) (e : String), c.getNextTokenId = .error e →
      useTokenCounter round (some c) = some 1) := by
  refine ⟨?_, ?_, ⟨rfl, rfl⟩, ?_⟩
  · intro contract e he hl
    cases contract with
    | none => simp [fetchNextTokenId, Outcome.ret] at he
    | some c =>
      cases hq : c.getNextTokenId with
      | error err =>
        simp [fetchNextTokenId, Outcome.tryCatch, Outcome.andThen, Outcome.emit, Outcome.call,
          hq] at he
        rcases he with rfl | rfl | rfl
        · rfl
        · simp [Event.isLedgerAccess] at hl
        · simp [Event.isLedgerAccess] at hl
      | ok n =>
        simp [fetchNextTokenId, Outcome.tryCatch, Outcome.andThen, Outcome.emit, Outcome.call,
          hq] at he
        rcases he with rfl | rfl
        · rfl
        · simp [Event.isLedgerAccess] at hl
  · intro c n hq hn
    have hnum : toNumber round (n : Int) = n := by
      unfold toNumber
      rw [if_pos]
      constructor
      · have : (0 : Int) ≤ n := Int.ofNat_nonneg n
        have h2 : (0 : Int) < 2 ^ 53 := by norm_num
        omega
      · exact_mod_cast hn
    simp [useTokenCounter, fetchNextTokenId, Outcome.tryCatch, Outcome.andThen, Outcome.emit,
      Outcome.call, hq, parseInt_toString, hnum, applyToCounter]
  · intro c e hq
    simp [useTokenCounter, fetchNextTokenId, Outcome.tryCatch, Outcome.andThen, Outcome.emit,
      Outcome.call, hq, applyToCounter]

/-- C12, witness: the ledger answers 7; the prediction is 7. -/
theorem useTokenCounter_prediction_witness :
    useTokenCounter (fun m => m) (some (counterAnswering 7)) = some 7 :=
  (useTokenCounter_prediction (fun m => m)).2.1 (counterAnswering 7) 7 rfl (by decide)

/-! ## C13: each remote call at most once -/

theorem step?_testConnection (cfg : Config) :
    Event.step? (.fetch (IPFSService.new cfg).testConnectionRequest)
      = some (.request "https://api.pinata.cloud/data/testAuthentication") := by
  simp only [Event.step?, IPFSService.testConnectionRequest, IPFSService.new]
  decide

theorem step?_qrUpload (cfg : Config) (w : World) (nextTokenId medicineId : Int)
    (name iso : String) :
    Event.step? (.fetch (qrUploadRequest cfg w nextTokenId medicineId name iso))
      = some (.request "https://api.pinata.cloud/pinning/pinFileToIPFS") := by
  simp only [Event.step?, qrUploadRequest, IPFSService.uploadFileRequest, IPFSService.new]
  decide

theorem step?_metadataUpload (cfg : Config) (w : World) (medicineId : Int) (name : String)
    (expiry : Int) (qr : UploadResult) (created : String) :
    Event.step? (.fetch (metadataUploadRequest cfg w medicineId name expiry qr created))
      = some (.request "https://api.pinata.cloud/pinning/pinJSONToIPFS") := by
  simp only [Event.step?, metadataUploadRequest, IPFSService.uploadJSONRequest, IPFSService.new]
  decide

section StepFacts

variable {cfg : Config} {w : World} {c : Contract} {nextTokenId medicineId : Int}
  {name : String} {expiry : Int}

/-- The calls of a run are an initial part of the calls of a complete run. -/
theorem MintRun.steps {t : List Event}
    (h : MintRun cfg w c nextTokenId medicineId name expiry t) :
    ∃ k, t.filterMap Event.step? = pipelineSteps.take k := by
  have hpre : ∀ iso qr created,
      (traceBeforeMint cfg w nextTokenId medicineId name expiry iso qr created).filterMap
        Event.step? = pipelineSteps.take 4 := by
    intro iso qr created
    simp [traceBeforeMint, traceToConnection, traceToEncode, traceToUploadQR,
      traceToUploadMetadata, List.filterMap_cons, step?_testConnection, step?_qrUpload,
      step?_metadataUpload, pipelineSteps]
    simp [Event.step?]
  cases h with
  | connectionFailed l m h0 =>
    refine ⟨1, ?_⟩
    simp [traceToConnection, traceOfFailure, List.filterMap_cons, step?_testConnection,
      pipelineSteps]
    simp [Event.step?]
  | expiryInvalid e1 h0 h1 h2 =>
    refine ⟨1, ?_⟩
    simp [traceToConnection, traceToEncode, traceOfFailure, List.filterMap_cons,
      step?_testConnection, pipelineSteps]
    simp [Event.step?]
  | encodingFailed iso e1 h0 h1 h2 =>
    refine ⟨2, ?_⟩
    simp [traceToConnection, traceToEncode, traceOfFailure, List.filterMap_cons,
      step?_testConnection, pipelineSteps]
    simp [Event.step?]
  | uploadQRFailed iso e1 h0 h1 h2 h3 =>
    refine ⟨3, ?_⟩
    simp [traceToConnection, traceToEncode, traceToUploadQR, traceOfFailure,
      List.filterMap_cons, step?_testConnection, step?_qrUpload, pipelineSteps]
    simp [Event.step?]
  | createdInvalid iso e1 qr h0 h1 h2 h3 h4 =>
    refine ⟨3, ?_⟩
    simp [traceToConnection, traceToEncode, traceToUploadQR, traceOfFailure,
      List.filterMap_cons, step?_testConnection, step?_qrUpload, pipelineSteps]
    simp [Event.step?]
  | uploadMetadataFailed iso e1 created qr h0 h1 h2 h3 h4 h5 =>
    refine ⟨4, ?_⟩
    simp [traceToConnection, traceToEncode, traceToUploadQR, traceToUploadMetadata,
      traceOfFailure, List.filterMap_cons, step?_testConnection, step?_qrUpload,
      step?_metadataUpload, pipelineSteps]
    simp [Event.step?]
  | mintRejected iso e1 created qr md h1 h4 hs h6 =>
    refine ⟨5, ?_⟩
    rw [List.filterMap_append, List.filterMap_append, hpre]
    simp [traceOfFailure, List.filterMap_cons, Event.step?, pipelineSteps]
  | waitRejected iso e1 created qr md h1 h4 hs h6 =>
    refine ⟨6, ?_⟩
    rw [List.filterMap_append, List.filterMap_append, hpre]
    simp [traceOfFailure, List.filterMap_cons, Event.step?, pipelineSteps]
  | recordInvalid iso e1 created qr md r h1 h4 hs h6 h7 =>
    refine ⟨6, ?_⟩
    rw [List.filterMap_append, List.filterMap_append, hpre]
    simp [traceOfFailure, List.filterMap_cons, Event.step?, pipelineSteps]
  | minted iso created iso2 qr md r h1 h4 hs h6 h7 =>
    refine ⟨6, ?_⟩
    rw [List.filterMap_append, List.filterMap_append, hpre]
    simp [traceOfSuccess, List.filterMap_cons, Event.step?, pipelineSteps]

end StepFacts

/-- C13: the calls to collaborators of a run of `mintDrug` are an initial part
of the list: connectivity request, QR encoding, QR-image upload, metadata
upload, ledger mint, wait for the transaction; that list has no repetition, so
that each call is issued at most once and none is retried. Every invocation of
`uploadFile`, `uploadJSON` and `testConnection` performs exactly one HTTP
request. -/
theorem remote_calls_at_most_once (cfg : Config) (w : World) (contract : Option Contract)
    (nextTokenId medicineId : Int) (name : String) (expiry : Int) (uri : String) :
    (∃ k, (mintDrug cfg w contract nextTokenId medicineId name expiry uri).trace.filterMap
        Event.step? = pipelineSteps.take k) ∧
    pipelineSteps.Nodup ∧
    (∀ (svc : IPFSService) (now : Int) (file : File) (filename : String),
      (svc.uploadFile w now file filename).trace.filter Event.isStoreCall
        = [.fetch (svc.uploadFileRequest now file filename)]) ∧
    (∀ (svc : IPFSService) (now : Int) (jsonData : Json) (filename : String),
      (svc.uploadJSON w now jsonData filename).trace.filter Event.isStoreCall
        = [.fetch (svc.uploadJSONRequest now jsonData filename)]) ∧
    (∀ svc : IPFSService,
      (svc.testConnection w).trace.filter Event.isStoreCall
        = [.fetch svc.testConnectionRequest]) := by
  refine ⟨?_, by decide, ?_, ?_, ?_⟩
  · cases contract with
    | none => exact ⟨0, by simp [mintDrug, Outcome.ret]⟩
    | some c => exact (mintDrug_run cfg w c nextTokenId medicineId name expiry uri).1.steps
  · intro svc now file filename
    rcases uploadFile_cases svc w now file filename with ⟨r, h⟩ | ⟨e, h⟩ <;>
      simp [h, Event.isStoreCall, List.filter]
  · intro svc now jsonData filename
    rcases uploadJSON_cases svc w now jsonData filename with ⟨r, h⟩ | ⟨e, h⟩ <;>
      simp [h, Event.isStoreCall, List.filter]
  · intro svc
    rcases testConnection_cases svc w with h | ⟨l, m, h⟩ <;>
      simp [h, Event.isStoreCall, List.filter]

/-- C13, witness: in the sample world the connection test performs the one
request to `/data/testAuthentication`. -/
theorem remote_calls_at_most_once_witness :
    ((IPFSService.new sampleConfig).testConnection sampleWorld).trace.filter Event.isStoreCall
      = [.fetch (IPFSService.new sampleConfig).testConnectionRequest] :=
  (remote_calls_at_most_once sampleConfig sampleWorld (some (ledgerAssigning 1)) 1 101
    "Aspirin" 2592000 "").2.2.2.2 (IPFSService.new sampleConfig)

/-! ## C14: a non-positive expiry -/

set_option maxRecDepth 100000 in
/-- C14, counterexample: the form is submitted with 0 days, and with -1 day; the
pipeline issues the ledger mint call with the expiry 0, and -86400, and, the
ledger accepting it, announces the mint. -/
theorem mint_call_with_nonpositive_expiry :
    Event.contractMintDrug 101 "Aspirin" 0 "https://gateway.pinata.cloud/ipfs/QmHash"
      ∈ (handleSubmit sampleConfig sampleWorld (some (ledgerAssigning 1)) 1 101 "Aspirin"
        0).trace ∧
    Event.contractMintDrug 101 "Aspirin" (-86400) "https://gateway.pinata.cloud/ipfs/QmHash"
      ∈ (handleSubmit sampleConfig sampleWorld (some (ledgerAssigning 1)) 1 101 "Aspirin"
        (-1)).trace ∧
    Event.incrementTokenId
      ∈ (handleSubmit sampleConfig sampleWorld (some (ledgerAssigning 1)) 1 101 "Aspirin"
        0).trace := by
  refine ⟨by decide, by decide, by decide⟩

/-- C14 (amended): the pipeline does not check the expiry. For an expiry that is
not positive, as for any other, `mintDrug` issues the ledger mint call with that
expiry unchanged once the connectivity test, the QR encoding and the two
uploads succeeded; whether a token is minted is decided by the ledger, and when
the ledger rejects the call the run shows the single alert
`Failed to mint drug: ` followed by the message of the ledger. -/
theorem mint_call_for_nonpositive_expiry (cfg : Config) (w : World) (c : Contract)
    (nextTokenId medicineId : Int) (name : String) (expiry : Int) (uri : String)
    (qr md : UploadResult) (hexp : expiry ≤ 0)
    (hs : ArtifactsStored cfg w nextTokenId medicineId name expiry qr md) :
    Event.contractMintDrug medicineId name expiry md.ipfsUrl
      ∈ (mintDrug cfg w (some c) nextTokenId medicineId name expiry uri).trace ∧
    ∀ e, (c.mintDrug medicineId name expiry md.ipfsUrl = .error e ∨
        c.mintDrug medicineId name expiry md.ipfsUrl = .ok (.error e)) →
      (mintDrug cfg w (some c) nextTokenId medicineId name expiry uri).trace.filter Event.isAlert
        = [.alert ("Failed to mint drug: " ++ e)] := by
  have _ := hexp
  have hrun := (mintDrug_run cfg w c nextTokenId medicineId name expiry uri).1
  refine ⟨hrun.mint_mem_of_stored hs, ?_⟩
  intro e hrej
  have hv := (artifactsVerdict_ok_iff qr md).2 hs
  have hverdict : mintVerdict cfg w c nextTokenId medicineId name expiry = .error e := by
    rcases hrej with h6 | h6 <;> simp [mintVerdict, hv, h6]
  rw [hrun.alerts, hverdict]
  rfl

set_option maxRecDepth 100000 in
/-- C14, witness: the sample world with the expiry 0 and a ledger that rejects
the mint as invalid. -/
theorem mint_call_for_nonpositive_expiry_witness :
    Event.contractMintDrug 101 "Aspirin" 0 sampleUpload.ipfsUrl
      ∈ (mintDrug sampleConfig sampleWorld (some (ledgerRejecting "InvalidInput")) 1 101
        "Aspirin" 0 "").trace ∧
    (mintDrug sampleConfig sampleWorld (some (ledgerRejecting "InvalidInput")) 1 101
        "Aspirin" 0 "").trace.filter Event.isAlert
      = [.alert ("Failed to mint drug: " ++ "InvalidInput")] :=
  have h := mint_call_for_nonpositive_expiry sampleConfig sampleWorld
    (ledgerRejecting "InvalidInput") 1 101 "Aspirin" 0 "" sampleUpload sampleUpload
    (by decide) ((artifactsVerdict_ok_iff _ _).1 (by decide))
  ⟨h.1, h.2 "InvalidInput" (Or.inl rfl)⟩

/-! ## Facts about the ledger -/

theorem lookup_succ {α : Type} (store : List α) (k : Nat) : lookup store (k + 1) = store[k]? := rfl

theorem lookup_eq_some {α : Type} {store : List α} {id : Nat} {a : α}
    (h : lookup store id = some a) : store[id - 1]? = some a ∧ 0 < id := by
  cases id with
  | zero => simp [lookup] at h
  | succ k => exact ⟨by simpa [lookup] using h, Nat.succ_pos k⟩

theorem findLastIdx?_spec {α : Type} (p : α → Bool) :
    ∀ (l : List α) (j : Nat), findLastIdx? p l = some j → ∃ a, l[j]? = some a ∧ p a = true := by
  intro l
  induction l with
  | nil => intro j h; simp [findLastIdx?] at h
  | cons a l ih =>
    intro j h
    unfold findLastIdx? at h
    cases hl : findLastIdx? p l with
    | some k =>
      rw [hl] at h
      simp only [Option.some.injEq] at h
      subst h
      obtain ⟨b, hb, hp⟩ := ih k hl
      exact ⟨b, by simpa using hb, hp⟩
    | none =>
      rw [hl] at h
      by_cases hp : p a = true
      · simp [hp] at h
        subst h
        exact ⟨a, by simp, hp⟩
      · simp [hp] at h

theorem earliestIdx?_spec (q : DrugToken → Bool) :
    ∀ (l : List DrugToken) (i : Nat) (t : DrugToken), earliestIdx? q l = some (i, t) →
      l[i]? = some t ∧ q t = true := by
  intro l
  induction l with
  | nil => intro i t h; simp [earliestIdx?] at h
  | cons a l ih =>
    intro i t h
    unfold earliestIdx? at h
    cases hl : earliestIdx? q l with
    | none =>
      rw [hl] at h
      by_cases hq : q a = true
      · simp [hq] at h
        obtain ⟨rfl, rfl⟩ := h
        exact ⟨by simp, hq⟩
      · simp [hq] at h
    | some r =>
      obtain ⟨j, u⟩ := r
      rw [hl] at h
      simp only at h
      split at h
      · rename_i hc
        simp only [Option.some.injEq, Prod.mk.injEq] at h
        obtain ⟨rfl, rfl⟩ := h
        simp only [Bool.and_eq_true] at hc
        exact ⟨by simp, hc.1⟩
      · simp only [Option.some.injEq, Prod.mk.injEq] at h
        obtain ⟨rfl, rfl⟩ := h
        obtain ⟨h1, h2⟩ := ih j u hl
        exact ⟨by simpa using h1, h2⟩

theorem countP_set_of_getElem? {α : Type} (p : α → Bool) :
    ∀ (l : List α) (i : Nat) (a b : α), l[i]? = some a →
      (l.set i b).countP p + (if p a then 1 else 0) = l.countP p + (if p b then 1 else 0) := by
  intro l
  induction l with
  | nil => intro i a b h; simp at h
  | cons x l ih =>
    intro i a b h
    cases i with
    | zero =>
      simp at h
      subst h
      simp [List.countP_cons]
      omega
    | succ k =>
      simp at h
      have := ih k a b h
      simp [List.countP_cons]
      omega

/-- How an attempted operation changes the tokens and the prescriptions. -/
theorem Ledger.exec_cases (s : Ledger) (now : Int) (op : Op) :
    ((s.exec now op).tokens = s.tokens ∧ (s.exec now op).prescriptions = s.prescriptions) ∨
    (∃ t, (s.exec now op).tokens = s.tokens ++ [t] ∧ t.status = .Minted ∧
      (s.exec now op).prescriptions = s.prescriptions) ∨
    (∃ i t t2, s.tokens[i]? = some t ∧ (s.exec now op).tokens = s.tokens.set i t2 ∧
      t2.status.rank = t.status.rank + 1 ∧ t2.status ≠ .Dispensed ∧
      (s.exec now op).prescriptions = s.prescriptions) ∨
    (∃ p, (s.exec now op).prescriptions = s.prescriptions ++ [p] ∧ p.consumed = false ∧
      (s.exec now op).tokens = s.tokens) ∨
    (∃ i j t p, s.tokens[i]? = some t ∧ t.status = .WithPharmacy ∧
      s.prescriptions[j]? = some p ∧ p.consumed = false ∧
      (s.exec now op).tokens = s.tokens.set i { t with status := .Dispensed } ∧
      (s.exec now op).prescriptions = s.prescriptions.set j { p with consumed := true }) := by
  cases op with
  | grantRole granter grantee role =>
    left
    simp only [Ledger.exec, Ledger.apply, Ledger.grantRole]
    split
    · rename_i s2 h
      split at h
      · split at h
        · cases h
          exact ⟨rfl, rfl⟩
        · cases h
          exact ⟨rfl, rfl⟩
      · cases h
    · exact ⟨rfl, rfl⟩
  | registerAsPatient caller =>
    left
    simp only [Ledger.exec, Ledger.apply, Ledger.registerAsPatient]
    split
    · rename_i s2 h
      split at h
      · cases h
        exact ⟨rfl, rfl⟩
      · cases h
        exact ⟨rfl, rfl⟩
    · exact ⟨rfl, rfl⟩
  | mint caller medicineId name expirySeconds artifactLocator =>
    simp only [Ledger.exec, Ledger.apply, Ledger.mint]
    split
    · rename_i s2 h
      split at h
      · cases h
      · split at h
        · cases h
        · split at h
          · cases h
          · cases h
            right; left
            exact ⟨_, rfl, rfl, rfl⟩
    · left
      exact ⟨rfl, rfl⟩
  | transferToIntermediary caller tokenId recipient =>
    simp only [Ledger.exec, Ledger.apply, Ledger.transferToIntermediary]
    split
    · rename_i s2 h
      split at h
      · cases h
      · rename_i t ht
        split at h
        · cases h
        · rename_i hst
          split at h
          · cases h
          · split at h
            · cases h
            · cases h
              right; right; left
              have hst2 : t.status = .Minted := by simpa using hst
              exact ⟨tokenId - 1, t, _, (lookup_eq_some ht).1, rfl, by simp [hst2, Status.rank],
                by simp, rfl⟩
    · left
      exact ⟨rfl, rfl⟩
  | transferToPharmacy caller tokenId recipient =>
    simp only [Ledger.exec, Ledger.apply, Ledger.transferToPharmacy]
    split
    · rename_i s2 h
      split at h
      · cases h
      · rename_i t ht
        split at h
        · cases h
        · rename_i hst
          split at h
          · cases h
          · split at h
            · cases h
            · cases h
              right; right; left
              have hst2 : t.status = .WithIntermediary := by simpa using hst
              exact ⟨tokenId - 1, t, _, (lookup_eq_some ht).1, rfl, by simp [hst2, Status.rank],
                by simp, rfl⟩
    · left
      exact ⟨rfl, rfl⟩
  | dispense caller patientAddress =>
    simp only [Ledger.exec, Ledger.apply, Ledger.dispense]
    split
    · rename_i s2 h
      split at h
      · cases h
      · split at h
        · cases h
        · rename_i j hj
          split at h
          · cases h
          · rename_i p hp
            split at h
            · cases h
            · split at h
              · cases h
              · rename_i i t hit
                cases h
                right; right; right; right
                obtain ⟨hget, hq⟩ := earliestIdx?_spec _ _ _ _ hit
                obtain ⟨p2, hp2, hpp⟩ := findLastIdx?_spec _ _ _ hj
                rw [hp] at hp2
                cases hp2
                simp only [Bool.and_eq_true, beq_iff_eq, Bool.not_eq_true', decide_eq_true_eq] at hq hpp
                exact ⟨i, j, t, p, hget, hq.1.1.1, hp, hpp.1.2, rfl, rfl⟩
    · left
      exact ⟨rfl, rfl⟩
  | createPrescription caller patientAddress medicineId validityDays =>
    simp only [Ledger.exec, Ledger.apply, Ledger.createPrescription]
    split
    · rename_i s2 h
      split at h
      · cases h
      · cases h
        right; right; right; left
        exact ⟨_, rfl, rfl, rfl⟩
    · left
      exact ⟨rfl, rfl⟩
  | createClaim caller prescriptionId =>
    left
    simp only [Ledger.exec, Ledger.apply, Ledger.createClaim]
    split
    · rename_i s2 h
      split at h
      · cases h
      · split at h
        · cases h
          exact ⟨rfl, rfl⟩
        · cases h
    · exact ⟨rfl, rfl⟩
  | processClaim caller claimId approve =>
    left
    simp only [Ledger.exec, Ledger.apply, Ledger.processClaim]
    split
    · rename_i s2 h
      split at h
      · cases h
      · split at h
        · cases h
        · split at h
          · cases h
          · cases h
            exact ⟨rfl, rfl⟩
    · exact ⟨rfl, rfl⟩

theorem set_eq_self_of_getElem? {α : Type} :
    ∀ (l : List α) (i : Nat) (a : α), l[i]? = some a → l.set i a = l := by
  intro l
  induction l with
  | nil => intro i a h; simp at h
  | cons x l ih =>
    intro i a h
    cases i with
    | zero =>
      simp at h
      simp [h]
    | succ k =>
      simp at h
      simp [ih k a h]

/-- How an attempted operation changes the claims. -/
theorem Ledger.exec_claims_cases (s : Ledger) (now : Int) (op : Op) :
    (s.exec now op).claims = s.claims ∨
    (∃ c, (s.exec now op).claims = s.claims ++ [c] ∧ c.processed = false ∧
      ∀ d ∈ s.claims, d.prescriptionId ≠ c.prescriptionId) ∨
    (∃ k c a, s.claims[k]? = some c ∧ c.processed = false ∧
      (s.exec now op).claims = s.claims.set k { c with isApproved := a, processed := true }) := by
  cases op with
  | grantRole granter grantee role =>
    left
    simp only [Ledger.exec, Ledger.apply, Ledger.grantRole]
    split
    · rename_i s2 h
      split at h
      · split at h
        · cases h
          rfl
        · cases h
          rfl
      · cases h
    · rfl
  | registerAsPatient caller =>
    left
    simp only [Ledger.exec, Ledger.apply, Ledger.registerAsPatient]
    split
    · rename_i s2 h
      split at h
      · cases h
        rfl
      · cases h
        rfl
    · rfl
  | mint caller medicineId name expirySeconds artifactLocator =>
    left
    simp only [Ledger.exec, Ledger.apply, Ledger.mint]
    split
    · rename_i s2 h
      split at h
      · cases h
      · split at h
        · cases h
        · split at h
          · cases h
          · cases h
            rfl
    · rfl
  | transferToIntermediary caller tokenId recipient =>
    left
    simp only [Ledger.exec, Ledger.apply, Ledger.transferToIntermediary]
    split
    · rename_i s2 h
      split at h
      · cases h
      · split at h
        · cases h
        · split at h
          · cases h
          · split at h
            · cases h
            · cases h
              rfl
    · rfl
  | transferToPharmacy caller tokenId recipient =>
    left
    simp only [Ledger.exec, Ledger.apply, Ledger.transferToPharmacy]
    split
    · rename_i s2 h
      split at h
      · cases h
      · split at h
        · cases h
        · split at h
          · cases h
          · split at h
            · cases h
            · cases h
              rfl
    · rfl
  | dispense caller patientAddress =>
    left
    simp only [Ledger.exec, Ledger.apply, Ledger.dispense]
    split
    · rename_i s2 h
      split at h
      · cases h
      · split at h
        · cases h
        · split at h
          · cases h
          · split at h
            · cases h
            · split at h
              · cases h
              · cases h
                rfl
    · rfl
  | createPrescription caller patientAddress medicineId validityDays =>
    left
    simp only [Ledger.exec, Ledger.apply, Ledger.createPrescription]
    split
    · rename_i s2 h
      split at h
      · cases h
      · cases h
        rfl
    · rfl
  | createClaim caller prescriptionId =>
    simp only [Ledger.exec, Ledger.apply, Ledger.createClaim]
    split
    · rename_i s2 h
      split at h
      · cases h
      · split at h
        · rename_i hc
          cases h
          right; left
          refine ⟨_, rfl, rfl, ?_⟩
          intro d hd
          have := List.all_eq_true.1 hc.2.2 d hd
          simpa using this
        · cases h
    · left
      rfl
  | processClaim caller claimId approve =>
    simp only [Ledger.exec, Ledger.apply, Ledger.processClaim]
    split
    · rename_i s2 h
      split at h
      · cases h
      · split at h
        · cases h
        · rename_i c hc
          split at h
          · cases h
          · rename_i hp
            cases h
            right; right
            exact ⟨claimId - 1, c, approve, (lookup_eq_some hc).1, by simpa using hp, rfl⟩
    · left
      rfl

theorem Ledger.reachable_foldl (ops : List (Int × Op)) :
    ∀ s : Ledger, s.Reachable → (ops.foldl (fun s x => s.exec x.1 x.2) s).Reachable := by
  induction ops with
  | nil => intro s h; exact h
  | cons x ops ih => intro s h; exact ih _ (Ledger.Reachable.step x.1 x.2 h)

theorem sampleLedger_reachable : sampleLedger.Reachable :=
  Ledger.reachable_foldl _ _ (Ledger.Reachable.start sampleRoles)

theorem Ledger.dispense_ok {s s2 : Ledger} {now : Int} {caller patient : String}
    (h : s.dispense now caller patient = .ok s2) :
    ∃ i j t p, s.tokens[i]? = some t ∧ t.status = .WithPharmacy ∧ t.currentHolder = caller ∧
      s.prescriptions[j]? = some p ∧ p.patientAddress = patient ∧ p.consumed = false ∧
      t.medicineId = p.medicineId ∧
      s2 = { s with
        tokens := s.tokens.set i { t with status := .Dispensed },
        prescriptions := s.prescriptions.set j { p with consumed := true } } := by
  simp only [Ledger.dispense] at h
  split at h
  · cases h
  · split at h
    · cases h
    · rename_i j hj
      split at h
      · cases h
      · rename_i p hp
        split at h
        · cases h
        · split at h
          · cases h
          · rename_i i t hit
            cases h
            obtain ⟨hget, hq⟩ := earliestIdx?_spec _ _ _ _ hit
            obtain ⟨p2, hp2, hpp⟩ := findLastIdx?_spec _ _ _ hj
            rw [hp] at hp2
            cases hp2
            simp only [Bool.and_eq_true, beq_iff_eq, Bool.not_eq_true', decide_eq_true_eq]
              at hq hpp
            exact ⟨i, j, t, p, hget, hq.1.1.1, hq.1.1.2, hp, hpp.1.1, hpp.1.2, hq.1.2, rfl⟩

/-- In every reachable state as many tokens are dispensed as prescriptions are
consumed. -/
theorem Ledger.Reachable.dispensed_eq_consumed {s : Ledger} (h : s.Reachable) :
    s.tokens.countP (fun t => t.status == .Dispensed)
      = s.prescriptions.countP (fun p => p.consumed) := by
  induction h with
  | start roles => rfl
  | @step s now op _ ih =>
    rcases s.exec_cases now op with h | ⟨t2, h, ht, hp⟩ | ⟨i, u, u2, hu, h, hr, hd, hp⟩ |
      ⟨p, h, hc, ht⟩ | ⟨i, j, u, p, hu, hus, hp, hpc, h, h2⟩
    · rw [h.1, h.2]; exact ih
    · rw [h, hp, List.countP_append]
      simp [ht, ih]
    · rw [h, hp, ← ih]
      have hc := countP_set_of_getElem? (fun t => t.status == .Dispensed) s.tokens i u u2 hu
      have hu1 : u.status ≠ .Dispensed := by
        intro hdis
        rw [hdis] at hr
        cases hst : u2.status <;> simp [hst, Status.rank] at hr
      simp [hu1, hd] at hc
      exact hc
    · rw [h, ht, List.countP_append]
      simp [hc, ih]
    · rw [h, h2]
      have hc := countP_set_of_getElem? (fun t => t.status == .Dispensed) s.tokens i u
        { u with status := .Dispensed } hu
      have hc2 := countP_set_of_getElem? (fun p => p.consumed) s.prescriptions j p
        { p with consumed := true } hp
      simp [hus] at hc
      simp [hpc] at hc2
      omega

/-- A processed claim is left as it is by every attempted operation. -/
theorem Ledger.processed_claim_kept (s : Ledger) (now : Int) (op : Op) (k : Nat)
    (c : InsuranceClaim) (hk : s.claims[k]? = some c) (hp : c.processed = true) :
    (s.exec now op).claims[k]? = some c := by
  rcases s.exec_claims_cases now op with h | ⟨d, h, _, _⟩ | ⟨i, d, a, hd, hdp, h⟩
  · rw [h]; exact hk
  · rw [h, List.getElem?_append_left (List.getElem?_eq_some.1 hk).1]; exact hk
  · by_cases hik : i = k
    · subst hik
      rw [hk] at hd
      cases hd
      rw [hp] at hdp
      cases hdp
    · rw [h, List.getElem?_set_ne hik]; exact hk

/-- In every reachable state no two claims are for the same prescription. -/
theorem Ledger.Reachable.claims_nodup {s : Ledger} (h : s.Reachable) :
    (s.claims.map (fun c => c.prescriptionId)).Nodup := by
  induction h with
  | start roles => exact List.nodup_nil
  | @step s now op _ ih =>
    rcases s.exec_claims_cases now op with h | ⟨d, h, _, hne⟩ | ⟨i, d, a, hd, hdp, h⟩
    · rw [h]; exact ih
    · rw [h, List.map_append]
      refine List.Nodup.append ih (List.nodup_singleton _) ?_
      intro x hx hx2
      simp only [List.map_cons, List.map_nil, List.mem_singleton] at hx2
      obtain ⟨e, he, rfl⟩ := List.mem_map.1 hx
      exact hne e he hx2
    · rw [h, List.map_set]
      have hm : (s.claims.map (fun c => c.prescriptionId))[i]? = some d.prescriptionId := by
        simp [hd]
      rw [set_eq_self_of_getElem? _ _ _ hm]
      exact ih

/-! ## C15: the status chain -/

/-- C15 (on the ledger modelled from the spec): the status of a token moves only
along Minted, WithIntermediary, WithPharmacy, Dispensed. Whatever operation is
attempted, every token keeps its status or moves to the next one; a transfer to
an intermediary of a token that is not `Minted`, and a transfer to a pharmacy of
a token that is not `WithIntermediary` (an attempt that skips a stage, repeats
one or moves backward) fails with `WrongState`; and a `Dispensed` token fails
both transfers and is left as it is by every attempted operation, dispensing
included. -/
theorem status_moves_along_chain (s : Ledger) (now : Int) :
    (∀ (op : Op) (k : Nat) (t : DrugToken), s.tokens[k]? = some t →
      ∃ t2, (s.exec now op).tokens[k]? = some t2 ∧
        (t2.status = t.status ∨ t2.status.rank = t.status.rank + 1)) ∧
    (∀ (caller recipient : String) (tokenId : Nat) (t : DrugToken),
      lookup s.tokens tokenId = some t →
      (t.status ≠ .Minted →
        s.apply now (.transferToIntermediary caller tokenId recipient) = .error .WrongState) ∧
      (t.status ≠ .WithIntermediary →
        s.apply now (.transferToPharmacy caller tokenId recipient) = .error .WrongState)) ∧
    (∀ (op : Op) (k : Nat) (t : DrugToken), s.tokens[k]? = some t → t.status = .Dispensed →
      (s.exec now op).tokens[k]? = some t) := by
  have hstep : ∀ (op : Op) (k : Nat) (t : DrugToken), s.tokens[k]? = some t →
      ∃ t2, (s.exec now op).tokens[k]? = some t2 ∧
        (t2.status = t.status ∨ (t2.status.rank = t.status.rank + 1 ∧ t.status ≠ .Dispensed)) := by
    intro op k t hk
    have hlt : k < s.tokens.length := (List.getElem?_eq_some.1 hk).1
    rcases s.exec_cases now op with h | ⟨t2, h, _, _⟩ | ⟨i, u, u2, hu, h, hr, hd, _⟩ | ⟨p, _, _, h⟩ |
      ⟨i, j, u, p, hu, hus, _, _, h, _⟩
    · exact ⟨t, by rw [h.1]; exact hk, Or.inl rfl⟩
    · exact ⟨t, by rw [h, List.getElem?_append_left hlt]; exact hk, Or.inl rfl⟩
    · by_cases hik : i = k
      · subst hik
        rw [hk] at hu
        cases hu
        refine ⟨u2, by rw [h]; simp [hlt], Or.inr ⟨hr, ?_⟩⟩
        intro hdis
        rw [hdis] at hr
        cases hst : u2.status <;> simp [hst, Status.rank] at hr
      · exact ⟨t, by rw [h, List.getElem?_set_ne hik]; exact hk, Or.inl rfl⟩
    · exact ⟨t, by rw [h]; exact hk, Or.inl rfl⟩
    · by_cases hik : i = k
      · subst hik
        rw [hk] at hu
        cases hu
        refine ⟨{ t with status := .Dispensed }, by rw [h]; simp [hlt], Or.inr ⟨?_, ?_⟩⟩
        · simp [hus, Status.rank]
        · simp [hus]
      · exact ⟨t, by rw [h, List.getElem?_set_ne hik]; exact hk, Or.inl rfl⟩
  refine ⟨?_, ?_, ?_⟩
  · intro op k t hk
    obtain ⟨t2, h1, h2⟩ := hstep op k t hk
    exact ⟨t2, h1, h2.imp id (fun h => h.1)⟩
  · intro caller recipient tokenId t ht
    constructor
    · intro hst
      simp [Ledger.apply, Ledger.transferToIntermediary, ht, hst]
    · intro hst
      simp [Ledger.apply, Ledger.transferToPharmacy, ht, hst]
  · intro op k t hk hdis
    obtain ⟨t2, h1, h2⟩ := hstep op k t hk
    rcases s.exec_cases now op with h | ⟨t3, h, _, _⟩ | ⟨i, u, u2, hu, h, hr, hd, _⟩ | ⟨p, _, _, h⟩ |
      ⟨i, j, u, p, hu, hus, _, _, h, _⟩
    · rw [h.1]; exact hk
    · rw [h, List.getElem?_append_left (List.getElem?_eq_some.1 hk).1]; exact hk
    · by_cases hik : i = k
      · subst hik
        rw [hk] at hu
        cases hu
        rw [hdis] at hr
        cases hst : u2.status <;> simp [hst, Status.rank] at hr
      · rw [h, List.getElem?_set_ne hik]; exact hk
    · rw [h]; exact hk
    · by_cases hik : i = k
      · subst hik
        rw [hk] at hu
        cases hu
        rw [hdis] at hus
        cases hus
      · rw [h, List.getElem?_set_ne hik]; exact hk

set_option maxRecDepth 100000 in
/-- C15, witness: the token 1 of the sample ledger is dispensed; transferring it
fails with `WrongState`, and a further `dispense` leaves it as it is. -/
theorem status_moves_along_chain_witness :
    sampleLedger.apply 9 (.transferToIntermediary "phar" 1 "int") = .error .WrongState ∧
    sampleLedger.apply 9 (.transferToPharmacy "phar" 1 "phar") = .error .WrongState ∧
    (sampleLedger.exec 9 (.dispense "phar" "pat")).tokens[0]?
      = some ⟨1, 101, "Aspirin", 2592000, .Dispensed, "phar"⟩ :=
  ⟨((status_moves_along_chain sampleLedger 9).2.1 "phar" "int" 1
      ⟨1, 101, "Aspirin", 2592000, .Dispensed, "phar"⟩ (by decide)).1 (by decide),
    ((status_moves_along_chain sampleLedger 9).2.1 "phar" "phar" 1
      ⟨1, 101, "Aspirin", 2592000, .Dispensed, "phar"⟩ (by decide)).2 (by decide),
    (status_moves_along_chain sampleLedger 9).2.2 (.dispense "phar" "pat") 0
      ⟨1, 101, "Aspirin", 2592000, .Dispensed, "phar"⟩ (by decide) rfl⟩

/-! ## C16: dispensing consumes the prescription -/

/-- C16 (on the ledger modelled from the spec): a successful `dispense` changes
exactly one token, which was `WithPharmacy` with the caller and becomes
`Dispensed`, and exactly one prescription of the patient for the same medicine,
which was not consumed and becomes consumed, and nothing else; a failed
`dispense` leaves the ledger as it was; and in every reachable state as many
tokens are `Dispensed` as prescriptions are consumed. -/
theorem dispense_atomic (s : Ledger) (now : Int) (caller patient : String) :
    (∀ s2, s.apply now (.dispense caller patient) = .ok s2 →
      ∃ i j t p, s.tokens[i]? = some t ∧ t.status = .WithPharmacy ∧ t.currentHolder = caller ∧
        s.prescriptions[j]? = some p ∧ p.patientAddress = patient ∧ p.consumed = false ∧
        t.medicineId = p.medicineId ∧
        s2 = { s with
          tokens := s.tokens.set i { t with status := .Dispensed },
          prescriptions := s.prescriptions.set j { p with consumed := true } }) ∧
    (∀ e, s.apply now (.dispense caller patient) = .error e →
      s.exec now (.dispense caller patient) = s) ∧
    (s.Reachable →
      s.tokens.countP (fun t => t.status == .Dispensed)
        = s.prescriptions.countP (fun p => p.consumed)) := by
  refine ⟨?_, ?_, ?_⟩
  · intro s2 h
    exact Ledger.dispense_ok h
  · intro e h
    simp [Ledger.exec, h]
  · intro h
    exact h.dispensed_eq_consumed

/-- C16, witness: the sample ledger is reachable; one of its tokens is dispensed
and one of its prescriptions is consumed. -/
theorem dispense_atomic_witness :
    sampleLedger.Reachable ∧
    sampleLedger.tokens.countP (fun t => t.status == .Dispensed)
      = sampleLedger.prescriptions.countP (fun p => p.consumed) ∧
    sampleLedger.prescriptions.countP (fun p => p.consumed) = 1 :=
  ⟨sampleLedger_reachable,
    (dispense_atomic sampleLedger 0 "phar" "pat").2.2 sampleLedger_reachable, by decide⟩

/-! ## C17: a claim is processed once -/

/-- C17 (on the ledger modelled from the spec): after a successful
`processClaim` with the decision `a1`, a second `processClaim` on the same
claim by an insurer, with whatever decision `a2`, fails with
`AlreadyProcessed`; the claim has `isApproved = a1` and `processed = true` and
is the same after the second attempt, and after every attempted operation. -/
theorem processClaim_rejects_second (s s1 : Ledger) (now now2 : Int) (c1 c2 : String)
    (claimId : Nat) (a1 a2 : Bool)
    (h1 : s.apply now (.processClaim c1 claimId a1) = .ok s1)
    (h2 : s1.hasRole c2 .Insurer = true) :
    s1.apply now2 (.processClaim c2 claimId a2) = .error .AlreadyProcessed ∧
    (∃ c, lookup s1.claims claimId = some c ∧ c.isApproved = a1 ∧ c.processed = true ∧
      lookup (s1.exec now2 (.processClaim c2 claimId a2)).claims claimId = some c ∧
      ∀ (now3 : Int) (op : Op), lookup (s1.exec now3 op).claims claimId = some c) := by
  simp only [Ledger.apply, Ledger.processClaim] at h1
  split at h1
  · cases h1
  · split at h1
    · cases h1
    · rename_i c hc
      split at h1
      · cases h1
      · cases h1
        obtain ⟨hget, hpos⟩ := lookup_eq_some hc
        obtain ⟨k, rfl⟩ : ∃ k, claimId = k + 1 := ⟨claimId - 1, by omega⟩
        simp only [Nat.add_sub_cancel] at hget
        have hlt : k < s.claims.length := (List.getElem?_eq_some.1 hget).1
        have hnew : lookup (s.claims.set k { c with isApproved := a1, processed := true }) (k + 1)
            = some { c with isApproved := a1, processed := true } := by
          simp [lookup, hlt]
        simp only [Nat.add_sub_cancel] at h2
        refine ⟨?_, _, by simpa using hnew, rfl, rfl, ?_, ?_⟩
        · simp [Ledger.apply, Ledger.processClaim, h2, hnew]
        · simp [Ledger.exec, Ledger.apply, Ledger.processClaim, h2, hnew]
        · intro now3 op
          rw [lookup_succ]
          exact Ledger.processed_claim_kept _ now3 op k _ (by simp [hlt]) rfl

set_option maxRecDepth 100000 in
/-- C17, witness: in the ledger of the scenarios A and C, the claim 1 is approved
by the insurer; a second attempt, to reject it, fails with `AlreadyProcessed`
and the claim stays approved. -/
theorem processClaim_rejects_second_witness :
    (sampleLedger.apply 7 (.processClaim "ins" 1 false) = .error .AlreadyProcessed) ∧
    ∃ c, lookup sampleLedger.claims 1 = some c ∧ c.isApproved = true ∧ c.processed = true ∧
      lookup (sampleLedger.exec 7 (.processClaim "ins" 1 false)).claims 1 = some c ∧
      ∀ (now3 : Int) (op : Op), lookup (sampleLedger.exec now3 op).claims 1 = some c :=
  processClaim_rejects_second
    ([((0 : Int), Op.mint "mfg" 101 "Aspirin" 2592000 "loc"),
      (1, .transferToIntermediary "mfg" 1 "int"),
      (2, .transferToPharmacy "int" 1 "phar"),
      (3, .createPrescription "doc" "pat" 101 7),
      (4, .dispense "phar" "pat"),
      (5, .createClaim "pat" 1)].foldl (fun s x => s.exec x.1 x.2) (Ledger.initial sampleRoles))
    sampleLedger 6 7 "ins" "ins" 1 true false (by decide) (by decide)

/-! ## C18: one claim per prescription -/

/-- C18 (on the ledger modelled from the spec): in every reachable state no two
claims are for the same prescription, and a `createClaim` for a prescription
that already has a claim fails with `NotEligible`, whoever the caller, and
leaves the ledger, its claims included, as it was. -/
theorem one_claim_per_prescription (s : Ledger) :
    (s.Reachable → (s.claims.map (fun c => c.prescriptionId)).Nodup) ∧
    (∀ (now : Int) (caller : String) (prescriptionId : Nat),
      (∃ c ∈ s.claims, c.prescriptionId = prescriptionId) →
      s.apply now (.createClaim caller prescriptionId) = .error .NotEligible ∧
      s.exec now (.createClaim caller prescriptionId) = s) := by
  constructor
  · intro h
    exact h.claims_nodup
  · intro now caller prescriptionId ⟨c, hc, hpid⟩
    have hall : s.claims.all (fun c => c.prescriptionId != prescriptionId) = false := by
      rw [List.all_eq_false]
      exact ⟨c, hc, by simp [hpid]⟩
    have happ : s.apply now (.createClaim caller prescriptionId) = .error .NotEligible := by
      simp only [Ledger.apply, Ledger.createClaim]
      split
      · rfl
      · simp [hall]
    exact ⟨happ, by simp [Ledger.exec, happ]⟩

set_option maxRecDepth 100000 in
/-- C18, witness: the sample ledger is reachable and has a claim for the
prescription 1; a second claim for it is refused. -/
theorem one_claim_per_prescription_witness :
    (sampleLedger.claims.map (fun c => c.prescriptionId)).Nodup ∧
    sampleLedger.apply 8 (.createClaim "pat" 1) = .error .NotEligible ∧
    sampleLedger.exec 8 (.createClaim "pat" 1) = sampleLedger :=
  ⟨(one_claim_per_prescription sampleLedger).1 sampleLedger_reachable,
    (one_claim_per_prescription sampleLedger).2 8 "pat" 1
      ⟨⟨1, 1, true, true⟩, by decide, rfl⟩⟩

/-! ## C19: the validity window of a prescription -/

/-- C19: the only transaction of `createPrescription(patientAddress, medicineId,
validityDays)` is `contract.createPrescription` with the patient address and the
medicine id unchanged and the validity window `validityDays * 86400` seconds; it
is submitted whenever a ledger client is connected, also through the form
handler; so that a ledger that adds the window to its time `now` has
`validUntil = now + validityDays * 86400`. -/
theorem createPrescription_window (contract : Option PrescriptionContract)
    (patientAddress : String) (medicineId validityDays : Int) :
    (∀ method args, Event.contractSend method args
        ∈ (createPrescription contract patientAddress medicineId validityDays).trace →
      method = "createPrescription" ∧
      args = [.str patientAddress, .int medicineId, .int (validityDays * 86400)]) ∧
    (contract.isSome = true →
      Event.contractSend "createPrescription"
          [.str patientAddress, .int medicineId, .int (validityDays * 86400)]
        ∈ (PrescriptionForm.handleSubmit contract patientAddress medicineId
          validityDays).trace) ∧
    (∀ window now : Int,
      Event.contractSend "createPrescription" [.str patientAddress, .int medicineId, .int window]
        ∈ (createPrescription contract patientAddress medicineId validityDays).trace →
      now + window = now + validityDays * 86400) := by
  have hw : validityDays * 24 * 60 * 60 = validityDays * 86400 := by ring
  have key : ∀ method args, Event.contractSend method args
        ∈ (createPrescription contract patientAddress medicineId validityDays).trace →
      method = "createPrescription" ∧
      args = [.str patientAddress, .int medicineId, .int (validityDays * 86400)] := by
    intro method args he
    cases contract with
    | none => simp [createPrescription, Outcome.ret] at he
    | some c =>
      cases hq : c.createPrescription patientAddress medicineId (validityDays * 86400) with
      | error e =>
        simp [createPrescription, Outcome.tryFinally, Outcome.tryCatch, Outcome.andThen,
          Outcome.emit, Outcome.send, hw, hq] at he
        exact he
      | ok tx =>
        cases tx with
        | error e =>
          simp [createPrescription, Outcome.tryFinally, Outcome.tryCatch, Outcome.andThen,
            Outcome.emit, Outcome.send, hw, hq] at he
          exact he
        | ok r =>
          simp [createPrescription, Outcome.tryFinally, Outcome.tryCatch, Outcome.andThen,
            Outcome.emit, Outcome.send, hw, hq] at he
          exact he
  refine ⟨key, ?_, ?_⟩
  · intro hsome
    cases contract with
    | none => cases hsome
    | some c =>
      cases hq : c.createPrescription patientAddress medicineId (validityDays * 86400) with
      | error e =>
        simp [PrescriptionForm.handleSubmit, createPrescription, Outcome.tryFinally,
          Outcome.tryCatch, Outcome.andThen, Outcome.emit, Outcome.send, hw, hq]
      | ok tx =>
        cases tx with
        | error e =>
          simp [PrescriptionForm.handleSubmit, createPrescription, Outcome.tryFinally,
            Outcome.tryCatch, Outcome.andThen, Outcome.emit, Outcome.send, hw, hq]
        | ok r =>
          simp [PrescriptionForm.handleSubmit, createPrescription, Outcome.tryFinally,
            Outcome.tryCatch, Outcome.andThen, Outcome.emit, Outcome.send, hw, hq]
  · intro window now he
    have h := (key _ _ he).2
    simp only [List.cons.injEq, LedgerArg.int.injEq, true_and, and_true] at h
    rw [h]

set_option maxRecDepth 100000 in
/-- C19, witness: a prescription valid for 7 days is submitted with the window
604800 seconds. -/
theorem createPrescription_window_witness :
    Event.contractSend "createPrescription" [.str "0xPAT", .int 101, .int 604800]
      ∈ (PrescriptionForm.handleSubmit (some samplePrescriptionContract) "0xPAT" 101 7).trace :=
  (createPrescription_window (some samplePrescriptionContract) "0xPAT" 101 7).2.1 rfl

/-! ## C20: the ledger accesses of a verification -/

/-- The runs of `verifyDrug` with a ledger client: the flag is set, the `try`
block makes the first `k` of its ledger accesses (`pre`), the rest of the run
(`post`) makes none, and the flag is reset. -/
theorem verifyDrug_trace (c : VerifyContract) (tokenId nowTry nowCatch : Int) :
    ∃ (k : Nat) (pre post : List Event),
      (verifyDrug (some c) tokenId nowTry nowCatch).trace
        = .setVerifyLoading true :: (pre ++ (post ++ [.setVerifyLoading false])) ∧
      pre.filterMap Event.step? = verifySteps.take k ∧
      (∀ e ∈ pre, e.isStateUpdate = false) ∧
      post.filterMap Event.step? = [] ∧
      (∀ e ∈ post, e.isStateUpdate = true → ∃ r, e = .setVerificationResult r) ∧
      ((∃ info expired owner uri, c.drugs tokenId = .ok info ∧
          c.isDrugExpired tokenId = .ok expired ∧ c.ownerOf tokenId = .ok owner ∧
          c.tokenURI tokenId = .ok uri) →
        5 ≤ k ∧ Event.contractSend "verifyDrug" [.int tokenId] ∈ pre) := by
  have hcatch : ∀ e, ∃ post, (verifyDrugCatch tokenId nowCatch e).trace = post ∧
      post.filterMap Event.step? = [] ∧
      (∀ x ∈ post, x.isStateUpdate = true → ∃ r, x = .setVerificationResult r) := by
    intro e
    refine ⟨_, rfl, ?_, ?_⟩
    · cases ht : toISOString nowCatch <;>
        simp [verifyDrugCatch, Outcome.andThen, Outcome.emit, Outcome.lift, ht, Event.step?]
    · cases ht : toISOString nowCatch <;>
        simp [verifyDrugCatch, Outcome.andThen, Outcome.emit, Outcome.lift, ht,
          Event.isStateUpdate]
  cases h1 : c.drugs tokenId with
  | error e =>
    obtain ⟨post, hp, hp1, hp2⟩ := hcatch e
    refine ⟨1, [.contractCall "drugs" [.int tokenId]], post, ?_, by simp [Event.step?, verifySteps],
      by simp [Event.isStateUpdate], hp1, hp2, ?_⟩
    · simp [verifyDrug, verifyDrugTry, Outcome.tryFinally, Outcome.tryCatch, Outcome.andThen,
        Outcome.emit, Outcome.call, h1, hp]
    · rintro ⟨info, _, _, _, hc, _⟩
      cases hc
  | ok info =>
    cases h2 : c.isDrugExpired tokenId with
    | error e =>
      obtain ⟨post, hp, hp1, hp2⟩ := hcatch e
      refine ⟨2, [.contractCall "drugs" [.int tokenId],
        .contractCall "isDrugExpired" [.int tokenId]], post, ?_,
        by simp [Event.step?, verifySteps], by simp [Event.isStateUpdate], hp1, hp2, ?_⟩
      · simp [verifyDrug, verifyDrugTry, Outcome.tryFinally, Outcome.tryCatch, Outcome.andThen,
          Outcome.emit, Outcome.call, h1, h2, hp]
      · rintro ⟨_, _, _, _, _, hc, _⟩
        cases hc
    | ok expired =>
      cases h3 : c.ownerOf tokenId with
      | error e =>
        obtain ⟨post, hp, hp1, hp2⟩ := hcatch e
        refine ⟨3, [.contractCall "drugs" [.int tokenId],
          .contractCall "isDrugExpired" [.int tokenId], .contractCall "ownerOf" [.int tokenId]],
          post, ?_, by simp [Event.step?, verifySteps], by simp [Event.isStateUpdate], hp1, hp2,
          ?_⟩
        · simp [verifyDrug, verifyDrugTry, Outcome.tryFinally, Outcome.tryCatch,
            Outcome.andThen, Outcome.emit, Outcome.call, h1, h2, h3, hp]
        · rintro ⟨_, _, _, _, _, _, hc, _⟩
          cases hc
      | ok owner =>
        cases h4 : c.tokenURI tokenId with
        | error e =>
          obtain ⟨post, hp, hp1, hp2⟩ := hcatch e
          refine ⟨4, [.contractCall "drugs" [.int tokenId],
            .contractCall "isDrugExpired" [.int tokenId],
            .contractCall "ownerOf" [.int tokenId], .contractCall "tokenURI" [.int tokenId]],
            post, ?_, by simp [Event.step?, verifySteps], by simp [Event.isStateUpdate], hp1,
            hp2, ?_⟩
          · simp [verifyDrug, verifyDrugTry, Outcome.tryFinally, Outcome.tryCatch,
              Outcome.andThen, Outcome.emit, Outcome.call, h1, h2, h3, h4, hp]
          · rintro ⟨_, _, _, _, _, _, _, hc⟩
            cases hc
        | ok uri =>
          cases h5 : c.verifyDrug tokenId with
          | error e =>
            obtain ⟨post, hp, hp1, hp2⟩ := hcatch e
            refine ⟨5, [.contractCall "drugs" [.int tokenId],
              .contractCall "isDrugExpired" [.int tokenId],
              .contractCall "ownerOf" [.int tokenId], .contractCall "tokenURI" [.int tokenId],
              .contractSend "verifyDrug" [.int tokenId]],
              post, ?_, by simp [Event.step?, verifySteps], by simp [Event.isStateUpdate], hp1,
              hp2, fun _ => ⟨Nat.le_refl 5, by simp⟩⟩
            simp [verifyDrug, verifyDrugTry, Outcome.tryFinally, Outcome.tryCatch,
              Outcome.andThen, Outcome.emit, Outcome.call, Outcome.send, h1, h2, h3, h4, h5, hp]
          | ok tx =>
            cases tx with
            | error e =>
              obtain ⟨post, hp, hp1, hp2⟩ := hcatch e
              refine ⟨6, [.contractCall "drugs" [.int tokenId],
                .contractCall "isDrugExpired" [.int tokenId],
                .contractCall "ownerOf" [.int tokenId], .contractCall "tokenURI" [.int tokenId],
                .contractSend "verifyDrug" [.int tokenId], .txWait],
                post, ?_, by simp [Event.step?, verifySteps], by simp [Event.isStateUpdate],
                hp1, hp2, fun _ => ⟨by decide, by simp⟩⟩
              simp [verifyDrug, verifyDrugTry, Outcome.tryFinally, Outcome.tryCatch,
                Outcome.andThen, Outcome.emit, Outcome.call, Outcome.send, h1, h2, h3, h4, h5,
                hp]
            | ok r =>
              cases h6 : toISOString nowTry with
              | error e =>
                obtain ⟨post, hp, hp1, hp2⟩ := hcatch e
                refine ⟨6, [.contractCall "drugs" [.int tokenId],
                  .contractCall "isDrugExpired" [.int tokenId],
                  .contractCall "ownerOf" [.int tokenId],
                  .contractCall "tokenURI" [.int tokenId],
                  .contractSend "verifyDrug" [.int tokenId], .txWait],
                  post, ?_, by simp [Event.step?, verifySteps], by simp [Event.isStateUpdate],
                  hp1, hp2, fun _ => ⟨by decide, by simp⟩⟩
                simp [verifyDrug, verifyDrugTry, Outcome.tryFinally, Outcome.tryCatch,
                  Outcome.andThen, Outcome.emit, Outcome.call, Outcome.send, Outcome.lift, h1,
                  h2, h3, h4, h5, h6, hp]
              | ok ts =>
                refine ⟨6, [.contractCall "drugs" [.int tokenId],
                  .contractCall "isDrugExpired" [.int tokenId],
                  .contractCall "ownerOf" [.int tokenId],
                  .contractCall "tokenURI" [.int tokenId],
                  .contractSend "verifyDrug" [.int tokenId], .txWait],
                  [.setVerificationResult
                      ⟨tokenId, true,
                        some ⟨toString info.tokenId, toString info.medicineId, info.name,
                          toString info.expiryTimestamp, info.status, info.currentHolder, owner,
                          expired, uri⟩,
                        none, ts⟩,
                    .alert ("Drug token " ++ numberToString tokenId ++ " verified successfully!")],
                  ?_, by simp [Event.step?, verifySteps], by simp [Event.isStateUpdate],
                  by simp [Event.step?], by simp [Event.isStateUpdate],
                  fun _ => ⟨by decide, by simp⟩⟩
                simp [verifyDrug, verifyDrugTry, Outcome.tryFinally, Outcome.tryCatch,
                  Outcome.andThen, Outcome.emit, Outcome.call, Outcome.send, Outcome.lift,
                  h1, h2, h3, h4, h5, h6]

set_option maxRecDepth 100000 in
/-- C20, counterexample: on a ledger that answers every call, verifying token 1
submits the ledger transaction `verifyDrug(1)` and waits for it, after the
four queries, and it sets the flag `verifyLoading` besides the verification
result. -/
theorem verifyDrug_submits_transaction :
    (verifyDrug (some sampleVerifyContract) 1 1700000000000 1700000001000).trace.filterMap
        Event.step?
      = [.ledgerCall "drugs", .ledgerCall "isDrugExpired", .ledgerCall "ownerOf",
          .ledgerCall "tokenURI", .ledgerSend "verifyDrug", .transactionWait] ∧
    Event.contractSend "verifyDrug" [.int 1]
      ∈ (verifyDrug (some sampleVerifyContract) 1 1700000000000 1700000001000).trace ∧
    Event.setVerifyLoading true
      ∈ (verifyDrug (some sampleVerifyContract) 1 1700000000000 1700000001000).trace := by
  refine ⟨by decide, by decide, by decide⟩

/-- C20 (amended): the ledger accesses of a run of `verifyDrug` are an initial
part of: the four queries `drugs`, `isDrugExpired`, `ownerOf`, `tokenURI`,
then the transaction `verifyDrug` and the wait for it; the transaction is
submitted whenever the four queries are answered. Of the client state the run
updates only the flag `verifyLoading` and the verification result, and its
last effect resets the flag. Without a ledger client the run has no effect. -/
theorem verifyDrug_accesses (c : VerifyContract) (tokenId nowTry nowCatch : Int) :
    (∃ k, (verifyDrug (some c) tokenId nowTry nowCatch).trace.filterMap Event.step?
          = verifySteps.take k ∧
        ((∃ info expired owner uri, c.drugs tokenId = .ok info ∧
            c.isDrugExpired tokenId = .ok expired ∧ c.ownerOf tokenId = .ok owner ∧
            c.tokenURI tokenId = .ok uri) →
          5 ≤ k ∧ Event.contractSend "verifyDrug" [.int tokenId]
            ∈ (verifyDrug (some c) tokenId nowTry nowCatch).trace)) ∧
    (∀ e ∈ (verifyDrug (some c) tokenId nowTry nowCatch).trace, e.isStateUpdate = true →
      (∃ b, e = .setVerifyLoading b) ∨ ∃ r, e = .setVerificationResult r) ∧
    (verifyDrug (some c) tokenId nowTry nowCatch).trace.getLast?
      = some (.setVerifyLoading false) ∧
    (verifyDrug none tokenId nowTry nowCatch).trace = [] := by
  obtain ⟨k, pre, post, ht, hpre, hpre2, hpost, hpost2, hk⟩ :=
    verifyDrug_trace c tokenId nowTry nowCatch
  refine ⟨⟨k, ?_, fun h => ⟨(hk h).1, ?_⟩⟩, ?_, ?_, rfl⟩
  · rw [ht]
    simp [List.filterMap_append, hpre, hpost, Event.step?]
  · rw [ht]
    simp [(hk h).2]
  · rw [ht]
    intro e he hu
    simp only [List.mem_cons, List.mem_append, List.mem_singleton, List.not_mem_nil,
      or_false] at he
    rcases he with rfl | he | he | rfl
    · exact .inl ⟨_, rfl⟩
    · rw [hpre2 e he] at hu
      cases hu
    · exact .inr (hpost2 e he hu)
    · exact .inl ⟨_, rfl⟩
  · have hl : Event.setVerifyLoading true :: (pre ++ (post ++ [.setVerifyLoading false]))
        = (Event.setVerifyLoading true :: (pre ++ post)) ++ [.setVerifyLoading false] := by
      simp
    rw [ht, hl, List.getLast?_concat]

/-- C20, witness: the sample ledger answers the four queries, and the
transaction `verifyDrug(1)` is submitted. -/
theorem verifyDrug_accesses_witness :
    ∃ k, (verifyDrug (some sampleVerifyContract) 1 1700000000000 1700000001000).trace.filterMap
          Event.step? = verifySteps.take k ∧
      5 ≤ k ∧
      Event.contractSend "verifyDrug" [.int 1]
        ∈ (verifyDrug (some sampleVerifyContract) 1 1700000000000 1700000001000).trace :=
  match (verifyDrug_accesses sampleVerifyContract 1 1700000000000 1700000001000).1 with
  | ⟨k, hk, h⟩ => ⟨k, hk, h ⟨_, _, _, _, rfl, rfl, rfl, rfl⟩⟩

/-! ## Dates -/

/-- A time value in the range of `Date` has an ISO rendering. -/
theorem toISOString_ok (t : Int) (h1 : -maxTime ≤ t) (h2 : t ≤ maxTime) :
    ∃ ts, toISOString t = .ok ts := by
  have h : ¬ (t < -maxTime ∨ maxTime < t) := by omega
  unfold toISOString
  rw [if_neg h]
  exact ⟨_, rfl⟩

/-! ## C21: the snapshot of a verification -/

/-- C21: when the four queries, the transaction `verifyDrug` and the wait for it
succeed (and the clock reads a valid date), the run sets exactly one
verification result: it has `verified = true`, no error, and a snapshot with the
`tokenId`, `medicineId` and `expiryTimestamp` of the ledger record as decimal
strings, its `name`, `status` and `currentHolder` unchanged, the owner, the
`isExpired` flag the ledger reported and the token URI. -/
theorem verifyDrug_snapshot (c : VerifyContract) (tokenId nowTry nowCatch : Int)
    (info : DrugInfo) (expired : Bool) (owner uri : String) (receipt : Receipt)
    (h1 : c.drugs tokenId = .ok info) (h2 : c.isDrugExpired tokenId = .ok expired)
    (h3 : c.ownerOf tokenId = .ok owner) (h4 : c.tokenURI tokenId = .ok uri)
    (h5 : c.verifyDrug tokenId = .ok (.ok receipt))
    (hlo : -maxTime ≤ nowTry) (hhi : nowTry ≤ maxTime) :
    ∃ ts, toISOString nowTry = .ok ts ∧
      ∀ res, Event.setVerificationResult res
          ∈ (verifyDrug (some c) tokenId nowTry nowCatch).trace ↔
        res = ⟨tokenId, true,
          some ⟨toString info.tokenId, toString info.medicineId, info.name,
            toString info.expiryTimestamp, info.status, info.currentHolder, owner, expired,
            uri⟩,
          none, ts⟩ := by
  obtain ⟨ts, hts⟩ := toISOString_ok nowTry hlo hhi
  refine ⟨ts, hts, fun res => ?_⟩
  simp [verifyDrug, verifyDrugTry, Outcome.tryFinally, Outcome.tryCatch, Outcome.andThen,
    Outcome.emit, Outcome.call, Outcome.send, Outcome.lift, h1, h2, h3, h4, h5, hts]

set_option maxRecDepth 100000 in
/-- C21, witness: the sample ledger answers every call; the result of verifying
token 1 carries its record. -/
theorem verifyDrug_snapshot_witness :
    ∃ ts, toISOString 1700000000000 = .ok ts ∧
      ∀ res, Event.setVerificationResult res
          ∈ (verifyDrug (some sampleVerifyContract) 1 1700000000000 1700000001000).trace ↔
        res = ⟨1, true,
          some ⟨"1", "101", "Aspirin", "1702592000", 0, "0xMFG", "0xMFG", false,
            "https://gateway.pinata.cloud/ipfs/QmHash"⟩,
          none, ts⟩ :=
  verifyDrug_snapshot sampleVerifyContract 1 1700000000000 1700000001000
    ⟨1, 101, "Aspirin", 1702592000, 0, "0xMFG"⟩ false "0xMFG"
    "https://gateway.pinata.cloud/ipfs/QmHash" ⟨1⟩ rfl rfl rfl rfl rfl (by decide) (by decide)

/-! ## C22: a failed verification -/

/-- A run of `verifyDrug` in which a ledger call fails with the message `e`: the
flag is set, ledger calls are made, the `catch` block runs for `e`, and the flag
is reset. -/
theorem verifyDrug_of_failure (c : VerifyContract) (tokenId nowTry nowCatch : Int) (e : String)
    (he : c.firstFailure tokenId = some e) :
    ∃ pre : List Event,
      (verifyDrug (some c) tokenId nowTry nowCatch).trace
        = .setVerifyLoading true :: (pre ++ ((verifyDrugCatch tokenId nowCatch e).trace
          ++ [.setVerifyLoading false])) ∧
      ∀ x ∈ pre, x.isLedgerAccess = true := by
  cases h1 : c.drugs tokenId with
  | error e1 =>
    simp [VerifyContract.firstFailure, h1] at he
    subst he
    exact ⟨[.contractCall "drugs" [.int tokenId]],
      by simp [verifyDrug, verifyDrugTry, Outcome.tryFinally, Outcome.tryCatch, Outcome.andThen,
        Outcome.emit, Outcome.call, h1],
      by simp [Event.isLedgerAccess]⟩
  | ok info =>
    cases h2 : c.isDrugExpired tokenId with
    | error e1 =>
      simp [VerifyContract.firstFailure, h1, h2] at he
      subst he
      exact ⟨[.contractCall "drugs" [.int tokenId],
          .contractCall "isDrugExpired" [.int tokenId]],
        by simp [verifyDrug, verifyDrugTry, Outcome.tryFinally, Outcome.tryCatch,
          Outcome.andThen, Outcome.emit, Outcome.call, h1, h2],
        by simp [Event.isLedgerAccess]⟩
    | ok expired =>
      cases h3 : c.ownerOf tokenId with
      | error e1 =>
        simp [VerifyContract.firstFailure, h1, h2, h3] at he
        subst he
        exact ⟨[.contractCall "drugs" [.int tokenId],
            .contractCall "isDrugExpired" [.int tokenId],
            .contractCall "ownerOf" [.int tokenId]],
          by simp [verifyDrug, verifyDrugTry, Outcome.tryFinally, Outcome.tryCatch,
            Outcome.andThen, Outcome.emit, Outcome.call, h1, h2, h3],
          by simp [Event.isLedgerAccess]⟩
      | ok owner =>
        cases h4 : c.tokenURI tokenId with
        | error e1 =>
          simp [VerifyContract.firstFailure, h1, h2, h3, h4] at he
          subst he
          exact ⟨[.contractCall "drugs" [.int tokenId],
              .contractCall "isDrugExpired" [.int tokenId],
              .contractCall "ownerOf" [.int tokenId],
              .contractCall "tokenURI" [.int tokenId]],
            by simp [verifyDrug, verifyDrugTry, Outcome.tryFinally, Outcome.tryCatch,
              Outcome.andThen, Outcome.emit, Outcome.call, h1, h2, h3, h4],
            by simp [Event.isLedgerAccess]⟩
        | ok uri =>
          cases h5 : c.verifyDrug tokenId with
          | error e1 =>
            simp [VerifyContract.firstFailure, h1, h2, h3, h4, h5] at he
            subst he
            exact ⟨[.contractCall "drugs" [.int tokenId],
                .contractCall "isDrugExpired" [.int tokenId],
                .contractCall "ownerOf" [.int tokenId],
                .contractCall "tokenURI" [.int tokenId],
                .contractSend "verifyDrug" [.int tokenId]],
              by simp [verifyDrug, verifyDrugTry, Outcome.tryFinally, Outcome.tryCatch,
                Outcome.andThen, Outcome.emit, Outcome.call, Outcome.send, h1, h2, h3, h4, h5],
              by simp [Event.isLedgerAccess]⟩
          | ok tx =>
            cases tx with
            | error e1 =>
              simp [VerifyContract.firstFailure, h1, h2, h3, h4, h5] at he
              subst he
              exact ⟨[.contractCall "drugs" [.int tokenId],
                  .contractCall "isDrugExpired" [.int tokenId],
                  .contractCall "ownerOf" [.int tokenId],
                  .contractCall "tokenURI" [.int tokenId],
                  .contractSend "verifyDrug" [.int tokenId], .txWait],
                by simp [verifyDrug, verifyDrugTry, Outcome.tryFinally, Outcome.tryCatch,
                  Outcome.andThen, Outcome.emit, Outcome.call, Outcome.send, h1, h2, h3, h4,
                  h5],
                by simp [Event.isLedgerAccess]⟩
            | ok r =>
              simp [VerifyContract.firstFailure, h1, h2, h3, h4, h5] at he

/-- C22: when a ledger call of `verifyDrug` fails, with the message `e` (and the
clock reads a valid date), the run sets exactly one verification result, with
`verified = false`, the message `e` and no snapshot. A result with
`verified = true` is set only in a run in which no ledger call failed; whatever
result is set in a run in which a call failed has `verified = false`, no
snapshot and the message of the failure. -/
theorem verifyDrug_failure (c : VerifyContract) (tokenId nowTry nowCatch : Int) :
    (∀ e, c.firstFailure tokenId = some e → -maxTime ≤ nowCatch → nowCatch ≤ maxTime →
      ∃ ts, toISOString nowCatch = .ok ts ∧
        ∀ res, Event.setVerificationResult res
            ∈ (verifyDrug (some c) tokenId nowTry nowCatch).trace ↔
          res = ⟨tokenId, false, none, some e, ts⟩) ∧
    (∀ res, Event.setVerificationResult res
        ∈ (verifyDrug (some c) tokenId nowTry nowCatch).trace →
      res.verified = true → c.firstFailure tokenId = none) ∧
    (∀ res e, Event.setVerificationResult res
        ∈ (verifyDrug (some c) tokenId nowTry nowCatch).trace →
      c.firstFailure tokenId = some e →
      res.verified = false ∧ res.drugInfo = none ∧ res.error = some e) := by
  have hcatch : ∀ e res, Event.setVerificationResult res
      ∈ (verifyDrugCatch tokenId nowCatch e).trace →
      res.verified = false ∧ res.drugInfo = none ∧ res.error = some e := by
    intro e res
    cases ht : toISOString nowCatch <;>
      simp [verifyDrugCatch, Outcome.andThen, Outcome.emit, Outcome.lift, ht]
    rintro rfl
    simp
  have hfail : ∀ res e, Event.setVerificationResult res
        ∈ (verifyDrug (some c) tokenId nowTry nowCatch).trace →
      c.firstFailure tokenId = some e →
      res.verified = false ∧ res.drugInfo = none ∧ res.error = some e := by
    intro res e hres he
    obtain ⟨pre, ht, hpre⟩ := verifyDrug_of_failure c tokenId nowTry nowCatch e he
    rw [ht] at hres
    simp only [List.mem_cons, List.mem_append, List.mem_singleton, List.not_mem_nil,
      or_false] at hres
    rcases hres with hres | hres | hres | hres
    · cases hres
    · have := hpre _ hres
      simp [Event.isLedgerAccess] at this
    · exact hcatch e res hres
    · cases hres
  refine ⟨?_, ?_, hfail⟩
  · intro e he hlo hhi
    obtain ⟨ts, hts⟩ := toISOString_ok nowCatch hlo hhi
    refine ⟨ts, hts, fun res => ?_⟩
    obtain ⟨pre, ht, hpre⟩ := verifyDrug_of_failure c tokenId nowTry nowCatch e he
    have hc : (verifyDrugCatch tokenId nowCatch e).trace
        = [.consoleError "Failed to verify drug:" e,
          .setVerificationResult ⟨tokenId, false, none, some e, ts⟩,
          .alert ("Failed to verify drug: " ++ e)] := by
      simp [verifyDrugCatch, Outcome.andThen, Outcome.emit, Outcome.lift, hts]
    have hnot : Event.setVerificationResult res ∉ pre := fun h => by
      simpa [Event.isLedgerAccess] using hpre _ h
    rw [ht, hc]
    simp [hnot]
  · intro res hres hv
    cases he : c.firstFailure tokenId with
    | none => rfl
    | some e =>
      have := (hfail res e hres he).1
      rw [hv] at this
      cases this

set_option maxRecDepth 100000 in
/-- C22, witness: the ledger rejects the first query for token 9 with
`NotFound`; the result of the run is the failure with that message. -/
theorem verifyDrug_failure_witness :
    ∃ ts, toISOString 1700000001000 = .ok ts ∧
      ∀ res, Event.setVerificationResult res
          ∈ (verifyDrug (some verifyContractRejecting) 9 1700000000000 1700000001000).trace ↔
        res = ⟨9, false, none, some "NotFound", ts⟩ :=
  (verifyDrug_failure verifyContractRejecting 9 1700000000000 1700000001000).1 "NotFound" rfl
    (by decide) (by decide)

/-! ## C23: the roles of an account -/

/-- In a list of pairs with distinct first components, the first component of a
pair of the list is among those of the pairs selected by `f` exactly when `f`
selects the pair. -/
theorem mem_map_fst_filter {l : List (String × String)} (hn : (l.map Prod.fst).Nodup)
    (f : String × String → Bool) {p : String × String} (hp : p ∈ l) :
    p.1 ∈ (l.filter f).map Prod.fst ↔ f p = true := by
  constructor
  · intro h
    obtain ⟨q, hq, hqp⟩ := List.mem_map.1 h
    obtain ⟨hql, hfq⟩ := List.mem_filter.1 hq
    have := List.inj_on_of_nodup_map hn hql hp hqp
    rw [← this]
    exact hfq
  · intro h
    exact List.mem_map.2 ⟨p, List.mem_filter.2 ⟨hp, h⟩, rfl⟩

/-- The loop of `checkUserRoles`, when every `hasRole` query is answered: it
returns the names of the pairs for which the answer is `true`, appended in
order to the roles it was entered with; its effects are the queries and lines
of the log. -/
theorem checkRoleLoop_ok (c : RolesContract) (address : String) :
    ∀ (checks : List (String × String)) (acc : List String),
      (∀ p ∈ checks, ∃ b, c.hasRole p.2 address = .ok b) →
      (checkRoleLoop c address checks acc).result
        = .ok (acc ++ (checks.filter
            (fun p => decide (c.hasRole p.2 address = .ok true))).map Prod.fst) ∧
      ∀ x ∈ (checkRoleLoop c address checks acc).trace,
        (∃ args, x = .contractCall "hasRole" args) ∨ ∃ label, x = .consoleLog label := by
  intro checks
  induction checks with
  | nil =>
    intro acc _
    simp [checkRoleLoop, Outcome.ret]
  | cons p rest ih =>
    intro acc h
    obtain ⟨name, hash⟩ := p
    obtain ⟨b, hb⟩ := h (name, hash) (List.mem_cons_self _ _)
    have hrest : ∀ q ∈ rest, ∃ b, c.hasRole q.2 address = .ok b :=
      fun q hq => h q (List.mem_cons_of_mem _ hq)
    obtain ⟨ih1, ih2⟩ := ih (if b then acc ++ [name] else acc) hrest
    constructor
    · cases b <;>
        simp [checkRoleLoop, Outcome.andThen, Outcome.call, Outcome.emit, hb, List.filter] at ih1 ⊢
        <;> rw [ih1]
    · intro x hx
      simp [checkRoleLoop, Outcome.andThen, Outcome.call, Outcome.emit, hb] at hx
      rcases hx with rfl | rfl | hx
      · exact .inl ⟨_, rfl⟩
      · exact .inr ⟨_, rfl⟩
      · exact ih2 x hx

/-- C23: when the seven queries for the role identifiers and the seven
`hasRole` queries are answered, `checkUserRoles` sets `userRoles` once, to a list
that contains the name of a role exactly when `hasRole` answered `true` for the
identifier of that role and the given address; the list has no duplicate and is
a sub-sequence of Admin, Manufacturer, Intermediary, Pharmacist, Doctor, Patient,
Insurer; every ledger access of the run is a query. There is an account for
which the list is empty and one for which it holds two roles. -/
theorem checkUserRoles_roles :
    (∀ (c : RolesContract) (address adminId mfgId intId pharId docId patId insId : String),
      c.DEFAULT_ADMIN_ROLE = .ok adminId → c.MFG_ROLE = .ok mfgId → c.INT_ROLE = .ok intId →
      c.PHAR_ROLE = .ok pharId → c.DOC_ROLE = .ok docId → c.PAT_ROLE = .ok patId →
      c.INS_ROLE = .ok insId →
      (∀ id ∈ [adminId, mfgId, intId, pharId, docId, patId, insId],
        ∃ b, c.hasRole id address = .ok b) →
      ∃ roles : List String,
        (∀ rs, Event.setUserRoles rs ∈ (checkUserRoles c address).trace ↔ rs = roles) ∧
        (∀ p ∈ roleNames.zip [adminId, mfgId, intId, pharId, docId, patId, insId],
          p.1 ∈ roles ↔ c.hasRole p.2 address = .ok true) ∧
        roles.Nodup ∧ roles.Sublist roleNames ∧
        (∀ x ∈ (checkUserRoles c address).trace, x.isLedgerAccess = true →
          ∃ method args, x = .contractCall method args)) ∧
    Event.setUserRoles [] ∈ (checkUserRoles sampleRolesContract "0xB").trace ∧
    Event.setUserRoles ["Admin", "Doctor"] ∈ (checkUserRoles sampleRolesContract "0xA").trace := by
  refine ⟨?_, by decide, by decide⟩
  intro c address adminId mfgId intId pharId docId patId insId h0 h1 h2 h3 h4 h5 h6 hhas
  have hchecks : ∀ p ∈ roleNames.zip [adminId, mfgId, intId, pharId, docId, patId, insId],
      ∃ b, c.hasRole p.2 address = .ok b := by
    intro p hp
    apply hhas
    simp [roleNames] at hp
    rcases hp with rfl | rfl | rfl | rfl | rfl | rfl | rfl <;> simp
  obtain ⟨hres, htr⟩ := checkRoleLoop_ok c address _ [] hchecks
  have hfst : (roleNames.zip [adminId, mfgId, intId, pharId, docId, patId, insId]).map Prod.fst
      = roleNames := rfl
  have hnd : roleNames.Nodup := by decide
  have hnot : ∀ rs, Event.setUserRoles rs ∉ (checkRoleLoop c address
      (roleNames.zip [adminId, mfgId, intId, pharId, docId, patId, insId]) []).trace := by
    intro rs hrs
    rcases htr _ hrs with ⟨_, h⟩ | ⟨_, h⟩ <;> cases h
  have hzip : roleNames.zip [adminId, mfgId, intId, pharId, docId, patId, insId]
      = [("Admin", adminId), ("Manufacturer", mfgId), ("Intermediary", intId),
        ("Pharmacist", pharId), ("Doctor", docId), ("Patient", patId), ("Insurer", insId)] := rfl
  refine ⟨((roleNames.zip [adminId, mfgId, intId, pharId, docId, patId, insId]).filter
    (fun p => decide (c.hasRole p.2 address = .ok true))).map Prod.fst, ?_, ?_, ?_, ?_, ?_⟩
  · intro rs
    rw [hzip] at hres hnot
    have hn := hnot rs
    simp [checkUserRoles, Outcome.tryCatch, Outcome.andThen, Outcome.call, Outcome.emit, h0, h1,
      h2, h3, h4, h5, h6, hres, hn]
    rfl
  · intro p hp
    rw [mem_map_fst_filter (by rw [hfst]; exact hnd) _ hp]
    simp
  · exact (hfst ▸ hnd).sublist ((List.filter_sublist _).map Prod.fst)
  · have h : (List.map Prod.fst (List.filter
        (fun p => decide (c.hasRole p.2 address = .ok true))
        (roleNames.zip [adminId, mfgId, intId, pharId, docId, patId, insId]))).Sublist
        (List.map Prod.fst (roleNames.zip [adminId, mfgId, intId, pharId, docId, patId, insId])) :=
      (List.filter_sublist _).map Prod.fst
    rw [hfst] at h
    exact h
  · intro x hx hacc
    rw [hzip] at hres htr
    simp [checkUserRoles, Outcome.tryCatch, Outcome.andThen, Outcome.call, Outcome.emit, h0, h1,
      h2, h3, h4, h5, h6, hres] at hx
    rcases hx with rfl | rfl | rfl | rfl | rfl | rfl | rfl | rfl | hx | rfl | rfl
    case inr.inr.inr.inr.inr.inr.inr.inr.inl =>
      rcases htr _ hx with ⟨_, rfl⟩ | ⟨_, rfl⟩
      · exact ⟨_, _, rfl⟩
      · simp [Event.isLedgerAccess] at hacc
    all_goals first
      | exact ⟨_, _, rfl⟩
      | simp [Event.isLedgerAccess] at hacc

/-- C23, witness: on the sample ledger the account `0xA` holds the roles of admin
and of doctor; its list of roles is determined by the answers of `hasRole`. -/
theorem checkUserRoles_roles_witness :
    ∃ roles : List String,
      (∀ rs, Event.setUserRoles rs ∈ (checkUserRoles sampleRolesContract "0xA").trace
        ↔ rs = roles) ∧
      (∀ p ∈ roleNames.zip ["0x00", "0xMFG", "0xINT", "0xPHAR", "0xDOC", "0xPAT", "0xINS"],
        p.1 ∈ roles ↔ sampleRolesContract.hasRole p.2 "0xA" = .ok true) ∧
      roles.Nodup ∧ roles.Sublist roleNames ∧
      (∀ x ∈ (checkUserRoles sampleRolesContract "0xA").trace, x.isLedgerAccess = true →
        ∃ method args, x = .contractCall method args) :=
  checkUserRoles_roles.1 sampleRolesContract "0xA" "0x00" "0xMFG" "0xINT" "0xPHAR" "0xDOC"
    "0xPAT" "0xINS" rfl rfl rfl rfl rfl rfl rfl (fun _ _ => ⟨_, rfl⟩)

/-! ## C24: the pending claims are for insurers -/

/-- C24: without a ledger client, and for a caller whose roles do not include
`Insurer`, `loadPendingClaims` has no effect at all: it queries nothing and does
not set the list of claims. The form that shows the list is offered in the tab
`insurer` exactly when the roles include `Insurer`, and in no other tab. -/
theorem loadPendingClaims_guard (contract : Option ClaimsContract) (userRoles : List String) :
    (contract = none ∨ "Insurer" ∉ userRoles →
      (loadPendingClaims contract userRoles).trace = [] ∧
      (loadPendingClaims contract userRoles).result = .ok ()) ∧
    (renderTabContent "insurer" userRoles = .insurerForm ↔ "Insurer" ∈ userRoles) ∧
    (∀ activeTab, renderTabContent activeTab userRoles = .insurerForm →
      activeTab = "insurer" ∧ "Insurer" ∈ userRoles) := by
  refine ⟨?_, ?_, ?_⟩
  · rintro (h | h)
    · subst h
      exact ⟨rfl, rfl⟩
    · cases contract with
      | none => exact ⟨rfl, rfl⟩
      | some c => simp [loadPendingClaims, h, Outcome.ret]
  · by_cases h : "Insurer" ∈ userRoles <;> simp [renderTabContent, h]
  · intro activeTab h
    unfold renderTabContent at h
    split at h <;> (try split at h) <;> simp_all

/-- C24, witness: a doctor who is not an insurer loads nothing, also with a
ledger client. -/
theorem loadPendingClaims_guard_witness :
    (loadPendingClaims (some sampleClaimsContract) ["Doctor"]).trace = [] ∧
    (loadPendingClaims (some sampleClaimsContract) ["Doctor"]).result = .ok () :=
  (loadPendingClaims_guard (some sampleClaimsContract) ["Doctor"]).1 (.inr (by decide))

/-! ## C25: grants are offered to admins -/

/-- C25: `RoleGranter` renders the form that grants roles exactly when the roles
of the caller include `Admin`; for a caller without `Admin` it renders the notice
instead, and a submission has no effect, so that every ledger access of a
submission to `RoleGranter` is made for a caller whose roles include `Admin`.
In the application the form is offered in no tab to a caller without `Admin`. -/
theorem grant_only_for_admin (contract : Option GrantContract) (userRoles : List String)
    (grantData : GrantData) :
    (RoleGranter userRoles = .grantForm ↔ "Admin" ∈ userRoles) ∧
    ("Admin" ∉ userRoles →
      RoleGranter userRoles = .adminRequired ∧
      (RoleGranter.submit contract userRoles grantData).trace = []) ∧
    (∀ x ∈ (RoleGranter.submit contract userRoles grantData).trace,
      x.isLedgerAccess = true → "Admin" ∈ userRoles) ∧
    (∀ activeTab, renderTabContent activeTab userRoles = .roleGranter .grantForm →
      activeTab = "admin" ∧ "Admin" ∈ userRoles) := by
  by_cases h : "Admin" ∈ userRoles
  · refine ⟨by simp [RoleGranter, h], fun hn => absurd h hn, fun _ _ _ => h, ?_⟩
    intro activeTab ht
    unfold renderTabContent at ht
    split at ht <;> (try split at ht) <;> simp_all
  · refine ⟨by simp [RoleGranter, h], fun _ => ⟨by simp [RoleGranter, h], ?_⟩, ?_, ?_⟩
    · simp [RoleGranter.submit, RoleGranter, h, Outcome.ret]
    · intro x hx
      simp [RoleGranter.submit, RoleGranter, h, Outcome.ret] at hx
    · intro activeTab ht
      unfold renderTabContent at ht
      split at ht <;> (try split at ht) <;> simp_all [RoleGranter]

set_option maxRecDepth 100000 in
/-- C25, witness: a doctor gets the notice and a submission grants nothing; an
admin gets the form, and the submission issues the grant. -/
theorem grant_only_for_admin_witness :
    (RoleGranter ["Doctor"] = .adminRequired ∧
      (RoleGranter.submit (some sampleGrantContract) ["Doctor"] ⟨"0xB", "doctor"⟩).trace = []) ∧
    Event.contractSend "grantDoc" [.str "0xB"]
      ∈ (RoleGranter.submit (some sampleGrantContract) ["Admin"] ⟨"0xB", "doctor"⟩).trace :=
  ⟨(grant_only_for_admin (some sampleGrantContract) ["Doctor"] ⟨"0xB", "doctor"⟩).2.1
    (by decide), by decide⟩

/-! ## C26: one grant per submission -/

/-- A role value outside the seven of the form selects no transaction. -/
theorem grantTransaction_invalid (c : GrantContract) (grantData : GrantData)
    (h : grantData.role ∉
      ["admin", "manufacturer", "intermediary", "pharmacist", "doctor", "patient", "insurer"]) :
    grantTransaction c grantData = Outcome.throw "Invalid role selected" := by
  simp at h
  obtain ⟨h0, h1, h2, h3, h4, h5, h6⟩ := h
  unfold grantTransaction
  split <;> simp_all

/-- The transactions of a submission are those of the `switch` statement. -/
theorem handleGrantRole_transactions (c : GrantContract) (grantData : GrantData) :
    (handleGrantRole (some c) grantData).trace.filter Event.isTransaction
      = (grantTransaction c grantData).trace.filter Event.isTransaction := by
  rcases hr : (grantTransaction c grantData).result with e | (e | r) <;>
    simp [handleGrantRole, Outcome.tryFinally, Outcome.tryCatch, Outcome.andThen, Outcome.emit,
      hr, Event.isTransaction, List.filter_append, List.filter]

/-- The `switch` statement submits at most one transaction. -/
theorem grantTransaction_le_one (c : GrantContract) (grantData : GrantData) :
    ((grantTransaction c grantData).trace.filter Event.isTransaction).length ≤ 1 := by
  unfold grantTransaction
  split
  · cases h : c.DEFAULT_ADMIN_ROLE <;>
      simp [Outcome.andThen, Outcome.call, Outcome.submit, h, Event.isTransaction, List.filter]
  all_goals simp [Outcome.submit, Outcome.throw, Event.isTransaction, List.filter]

/-- C26: with a ledger client, a submission of `handleGrantRole` for one of the
seven roles of the form submits exactly one transaction, the grant of the
selected role to the entered address: `grantRole(adminRole, address)` for
`admin`, where `adminRole` is what the query `DEFAULT_ADMIN_ROLE()` answered,
`grantMfg(address)` for `manufacturer`, `grantInt` for `intermediary`,
`grantPhar` for `pharmacist`, `grantDoc` for `doctor`, `grantPat` for `patient`,
`grantIns` for `insurer`. For any other role value it makes no ledger access and
alerts `Failed to grant role: Invalid role selected`. No submission submits more
than one transaction. -/
theorem handleGrantRole_dispatch (c : GrantContract) (address : String) :
    (∀ adminRole, c.DEFAULT_ADMIN_ROLE = .ok adminRole →
      (handleGrantRole (some c) ⟨address, "admin"⟩).trace.filter Event.isTransaction
        = [.contractSend "grantRole" [.str adminRole, .str address]]) ∧
    (handleGrantRole (some c) ⟨address, "manufacturer"⟩).trace.filter Event.isTransaction
      = [.contractSend "grantMfg" [.str address]] ∧
    (handleGrantRole (some c) ⟨address, "intermediary"⟩).trace.filter Event.isTransaction
      = [.contractSend "grantInt" [.str address]] ∧
    (handleGrantRole (some c) ⟨address, "pharmacist"⟩).trace.filter Event.isTransaction
      = [.contractSend "grantPhar" [.str address]] ∧
    (handleGrantRole (some c) ⟨address, "doctor"⟩).trace.filter Event.isTransaction
      = [.contractSend "grantDoc" [.str address]] ∧
    (handleGrantRole (some c) ⟨address, "patient"⟩).trace.filter Event.isTransaction
      = [.contractSend "grantPat" [.str address]] ∧
    (handleGrantRole (some c) ⟨address, "insurer"⟩).trace.filter Event.isTransaction
      = [.contractSend "grantIns" [.str address]] ∧
    (∀ role, role ∉ ["admin", "manufacturer", "intermediary", "pharmacist", "doctor",
        "patient", "insurer"] →
      (handleGrantRole (some c) ⟨address, role⟩).trace.filter Event.isLedgerAccess = [] ∧
      (handleGrantRole (some c) ⟨address, role⟩).trace.filter Event.isAlert
        = [.alert "Failed to grant role: Invalid role selected"]) ∧
    (∀ (contract : Option GrantContract) (grantData : GrantData),
      ((handleGrantRole contract grantData).trace.filter Event.isTransaction).length ≤ 1) := by
  refine ⟨?_, ?_, ?_, ?_, ?_, ?_, ?_, ?_, ?_⟩
  · intro adminRole h
    rw [handleGrantRole_transactions]
    simp [grantTransaction, Outcome.andThen, Outcome.call, Outcome.submit, h,
      Event.isTransaction, List.filter]
  · rw [handleGrantRole_transactions]
    simp [grantTransaction, Outcome.submit, Event.isTransaction, List.filter]
  · rw [handleGrantRole_transactions]
    simp [grantTransaction, Outcome.submit, Event.isTransaction, List.filter]
  · rw [handleGrantRole_transactions]
    simp [grantTransaction, Outcome.submit, Event.isTransaction, List.filter]
  · rw [handleGrantRole_transactions]
    simp [grantTransaction, Outcome.submit, Event.isTransaction, List.filter]
  · rw [handleGrantRole_transactions]
    simp [grantTransaction, Outcome.submit, Event.isTransaction, List.filter]
  · rw [handleGrantRole_transactions]
    simp [grantTransaction, Outcome.submit, Event.isTransaction, List.filter]
  · intro role h
    have ht := grantTransaction_invalid c ⟨address, role⟩ h
    simp [handleGrantRole, Outcome.tryFinally, Outcome.tryCatch, Outcome.andThen, Outcome.emit,
      Outcome.throw, ht, Event.isLedgerAccess, Event.isAlert, List.filter]
  · intro contract grantData
    cases contract with
    | none => simp [handleGrantRole, Outcome.ret]
    | some c2 =>
      rw [handleGrantRole_transactions]
      exact grantTransaction_le_one c2 grantData

set_option maxRecDepth 100000 in
/-- C26, witness: on the sample ledger the submission of the role `admin` for the
address `0xB` reads the identifier of the admin role and submits
`grantRole(0x00, 0xB)`; the submission of the role `nurse` accesses nothing. -/
theorem handleGrantRole_dispatch_witness :
    (handleGrantRole (some sampleGrantContract) ⟨"0xB", "admin"⟩).trace.filter
        Event.isTransaction
      = [.contractSend "grantRole" [.str "0x00", .str "0xB"]] ∧
    ((handleGrantRole (some sampleGrantContract) ⟨"0xB", "nurse"⟩).trace.filter
        Event.isLedgerAccess = [] ∧
      (handleGrantRole (some sampleGrantContract) ⟨"0xB", "nurse"⟩).trace.filter Event.isAlert
        = [.alert "Failed to grant role: Invalid role selected"]) :=
  ⟨(handleGrantRole_dispatch sampleGrantContract "0xB").1 "0x00" rfl,
    (handleGrantRole_dispatch sampleGrantContract "0xB").2.2.2.2.2.2.2.1 "nurse" (by decide)⟩

/-! ## C27: the token counter -/

section CounterFacts

variable {cfg : Config} {w : World} {c : Contract} {nextTokenId medicineId : Int}
  {name : String} {expiry : Int}

/-- The counter after a run: one more when the run completed, else unchanged. -/
theorem MintRun.counter {t : List Event}
    (h : MintRun cfg w c nextTokenId medicineId name expiry t) (n : Int) :
    counterAfter (some n) t
      = some (if (mintVerdict cfg w c nextTokenId medicineId name expiry).toBool then n + 1
        else n) := by
  have hpre : ∀ iso qr created (m : Option Int),
      (traceBeforeMint cfg w nextTokenId medicineId name expiry iso qr created).foldl
        applyToCounter m = m := by
    intro iso qr created m
    simp [traceBeforeMint, traceToConnection, traceToEncode, traceToUploadQR,
      traceToUploadMetadata, applyToCounter]
  unfold counterAfter
  cases h with
  | connectionFailed l m h0 =>
    have hv : artifactsVerdict cfg w nextTokenId medicineId name expiry
        = .error "Failed to connect to IPFS service. Please check your API credentials." := by
      simp [artifactsVerdict, h0]
    simp [mintVerdict, hv, traceToConnection, traceOfFailure, applyToCounter, Except.toBool]
  | expiryInvalid e1 h0 h1 h2 =>
    have hv : artifactsVerdict cfg w nextTokenId medicineId name expiry = .error e1 := by
      simp [artifactsVerdict, h0, h2]
    simp [mintVerdict, hv, traceToConnection, traceToEncode, traceOfFailure, applyToCounter,
      Except.toBool]
  | encodingFailed iso e1 h0 h1 h2 =>
    have hv : artifactsVerdict cfg w nextTokenId medicineId name expiry = .error e1 := by
      simp [artifactsVerdict, h0, h2]
    simp [mintVerdict, hv, traceToConnection, traceToEncode, traceOfFailure, applyToCounter,
      Except.toBool]
  | uploadQRFailed iso e1 h0 h1 h2 h3 =>
    have hv : artifactsVerdict cfg w nextTokenId medicineId name expiry = .error e1 := by
      simp [artifactsVerdict, h0, h2, h3]
    simp [mintVerdict, hv, traceToConnection, traceToEncode, traceToUploadQR,
      traceOfFailure, applyToCounter, Except.toBool]
  | createdInvalid iso e1 qr h0 h1 h2 h3 h4 =>
    have hv : artifactsVerdict cfg w nextTokenId medicineId name expiry = .error e1 := by
      simp [artifactsVerdict, h0, h2, h3, h4]
    simp [mintVerdict, hv, traceToConnection, traceToEncode, traceToUploadQR,
      traceOfFailure, applyToCounter, Except.toBool]
  | uploadMetadataFailed iso e1 created qr h0 h1 h2 h3 h4 h5 =>
    have hv : artifactsVerdict cfg w nextTokenId medicineId name expiry = .error e1 := by
      simp [artifactsVerdict, h0, h2, h3, h4, h5]
    simp [mintVerdict, hv, traceToConnection, traceToEncode, traceToUploadQR,
      traceToUploadMetadata, traceOfFailure, applyToCounter, Except.toBool]
  | mintRejected iso e1 created qr md h1 h4 hs h6 =>
    have hv := (artifactsVerdict_ok_iff qr md).2 hs
    simp [mintVerdict, hv, h6, hpre, traceOfFailure, applyToCounter, Except.toBool]
  | waitRejected iso e1 created qr md h1 h4 hs h6 =>
    have hv := (artifactsVerdict_ok_iff qr md).2 hs
    simp [mintVerdict, hv, h6, hpre, traceOfFailure, applyToCounter, Except.toBool]
  | recordInvalid iso e1 created qr md r h1 h4 hs h6 h7 =>
    have hv := (artifactsVerdict_ok_iff qr md).2 hs
    simp [mintVerdict, hv, h6, h7, hpre, traceOfFailure, applyToCounter, Except.toBool]
  | minted iso created iso2 qr md r h1 h4 hs h6 h7 =>
    have hv := (artifactsVerdict_ok_iff qr md).2 hs
    simp [mintVerdict, hv, h6, h7, hpre, traceOfSuccess, applyToCounter, Except.toBool]

end CounterFacts

/-- C27: after a run of `mintDrug` from the prediction `n` the prediction is
`n + 1` when the run completed, and `n` otherwise. The run completes when steps
1 to 4 succeeded, the ledger minted the token and the expiry date recorded for
display is a valid date; it completes only when there is a ledger client and the
ledger minted the token. So the prediction is unchanged without a ledger client,
when the connectivity test, the encoding or an upload failed, and when the
ledger rejected the mint or the wait for it. After `k` calls that completed,
each run with the prediction the previous one left, the prediction is `n + k`. -/
theorem counter_after_mint (cfg : Config) :
    (∀ (w : World) (contract : Option Contract) (n medicineId : Int) (name : String)
        (expiry : Int) (uri : String),
      counterAfter (some n) (mintDrug cfg w contract n medicineId name expiry uri).trace
        = some (if mintCompleted cfg w contract n medicineId name expiry then n + 1 else n)) ∧
    (∀ (w : World) (c : Contract) (n medicineId : Int) (name : String) (expiry : Int)
        (qr md : UploadResult) (r : Receipt),
      ArtifactsStored cfg w n medicineId name expiry qr md →
      c.mintDrug medicineId name expiry md.ipfsUrl = .ok (.ok r) →
      -maxTime ≤ w.now 4 + expiry * 1000 → w.now 4 + expiry * 1000 ≤ maxTime →
      mintCompleted cfg w (some c) n medicineId name expiry = true) ∧
    (∀ (w : World) (contract : Option Contract) (n medicineId : Int) (name : String)
        (expiry : Int),
      mintCompleted cfg w contract n medicineId name expiry = true →
      ∃ c qr md r, contract = some c ∧ ArtifactsStored cfg w n medicineId name expiry qr md ∧
        c.mintDrug medicineId name expiry md.ipfsUrl = .ok (.ok r)) ∧
    (∀ (w : World) (contract : Option Contract) (n medicineId : Int) (name : String)
        (expiry : Int) (uri : String),
      (contract = none ∨
        (∃ e, artifactsVerdict cfg w n medicineId name expiry = .error e) ∨
        (∃ c qr md e, contract = some c ∧
          artifactsVerdict cfg w n medicineId name expiry = .ok (qr, md) ∧
          (c.mintDrug medicineId name expiry md.ipfsUrl = .error e ∨
            c.mintDrug medicineId name expiry md.ipfsUrl = .ok (.error e)))) →
      counterAfter (some n) (mintDrug cfg w contract n medicineId name expiry uri).trace
        = some n) ∧
    (∀ (attempts : List MintAttempt) (n : Int),
      (∀ (i : Nat) (a : MintAttempt), attempts[i]? = some a →
        mintCompleted cfg a.world a.contract (n + i) a.medicineId a.name a.expiry = true) →
      mintSession cfg n attempts = some (n + attempts.length)) := by
  have h1 : ∀ (w : World) (contract : Option Contract) (n medicineId : Int) (name : String)
      (expiry : Int) (uri : String),
      counterAfter (some n) (mintDrug cfg w contract n medicineId name expiry uri).trace
        = some (if mintCompleted cfg w contract n medicineId name expiry then n + 1 else n) := by
    intro w contract n medicineId name expiry uri
    cases contract with
    | none => simp [mintDrug, Outcome.ret, counterAfter, mintCompleted]
    | some c =>
      have h := (mintDrug_run cfg w c n medicineId name expiry uri).1.counter n
      simpa [mintCompleted] using h
  refine ⟨h1, ?_, ?_, ?_, ?_⟩
  · intro w c n medicineId name expiry qr md r hs hm hlo hhi
    obtain ⟨ts, hts⟩ := toISOString_ok _ hlo hhi
    have hv := (artifactsVerdict_ok_iff qr md).2 hs
    simp [mintCompleted, mintVerdict, hv, hm, hts, Except.toBool]
  · intro w contract n medicineId name expiry h
    cases contract with
    | none => simp [mintCompleted] at h
    | some c =>
      simp only [mintCompleted, mintVerdict] at h
      cases hv : artifactsVerdict cfg w n medicineId name expiry with
      | error e => simp [hv, Except.toBool] at h
      | ok p =>
        obtain ⟨qr, md⟩ := p
        have hs := (artifactsVerdict_ok_iff qr md).1 hv
        rcases hm : c.mintDrug medicineId name expiry md.ipfsUrl with e | (e | r)
        · simp [hv, hm, Except.toBool] at h
        · simp [hv, hm, Except.toBool] at h
        · exact ⟨c, qr, md, r, rfl, hs, hm⟩
  · intro w contract n medicineId name expiry uri h
    rw [h1]
    have hc : mintCompleted cfg w contract n medicineId name expiry = false := by
      rcases h with h | ⟨e, h⟩ | ⟨c, qr, md, e, hc, hv, hm⟩
      · subst h
        rfl
      · cases contract with
        | none => rfl
        | some c => simp [mintCompleted, mintVerdict, h, Except.toBool]
      · subst hc
        rcases hm with hm | hm <;> simp [mintCompleted, mintVerdict, hv, hm, Except.toBool]
    simp [hc]
  · intro attempts
    induction attempts with
    | nil =>
      intro n _
      simp [mintSession]
    | cons a rest ih =>
      intro n h
      have h0 := h 0 a (by simp)
      simp only [Nat.cast_zero, add_zero] at h0
      have hrest := ih (n + 1) (fun i b hb => by
        have := h (i + 1) b (by simpa using hb)
        have he : n + ((i + 1 : Nat) : Int) = n + 1 + (i : Int) := by push_cast; ring
        rw [he] at this
        exact this)
      simp only [mintSession, h1, h0, if_true, Option.some_bind, hrest, List.length_cons,
        Nat.cast_add, Nat.cast_one]
      congr 1
      ring

set_option maxRecDepth 100000 in
/-- C27, witness: two mints that complete in the sample world, from the
prediction 1, leave the prediction 3. -/
theorem counter_after_mint_witness :
    mintSession sampleConfig 1 [sampleAttempt, sampleAttempt] = some 3 :=
  (counter_after_mint sampleConfig).2.2.2.2 [sampleAttempt, sampleAttempt] 1
    (fun i a h =>
      match i, h with
      | 0, h => by
        cases h
        decide
      | 1, h => by
        cases h
        decide
      | _ + 2, h => by simp at h)

/-! ## C28: the locator of a content id -/

/-- A string that starts with `p` is `p` followed by a string. -/
theorem eq_append_of_startsWith {u p : String} (h : startsWith u p = true) :
    ∃ t : String, u = p ++ t := by
  simp only [startsWith, List.isPrefixOf_iff_prefix] at h
  obtain ⟨t, ht⟩ := h
  refine ⟨⟨t⟩, ?_⟩
  apply String.ext
  simp only [String.toList] at ht
  simp [String.data_append, ← ht]

/-- Appending to the same string is injective. -/
theorem append_left_cancel {a b c : String} (h : a ++ b = a ++ c) : b = c := by
  have := congrArg String.data h
  simp only [String.data_append, List.append_cancel_left_eq] at this
  exact String.ext this

/-- A list of characters that neither starts with `ipfs://` nor is `ipfs:/`,
followed by `/ipfs/` and more, does not start with `ipfs://`. -/
theorem not_prefix_of_gateway (G H : List Char)
    (h1 : ¬ ['i', 'p', 'f', 's', ':', '/', '/'] <+: G)
    (h2 : G ≠ ['i', 'p', 'f', 's', ':', '/']) :
    ¬ ['i', 'p', 'f', 's', ':', '/', '/'] <+: G ++ ('/' :: 'i' :: 'p' :: 'f' :: 's' :: '/' :: H) := by
  rcases G with _ | ⟨c1, _ | ⟨c2, _ | ⟨c3, _ | ⟨c4, _ | ⟨c5, _ | ⟨c6, _ | ⟨c7, G⟩⟩⟩⟩⟩⟩⟩ <;>
    simp_all [List.cons_prefix_cons]
  · intro a1 a2 a3 a4 a5 a6
    exact h2 a1.symm a2.symm a3.symm a4.symm a5.symm a6.symm
  · exact h1

/-- A gateway that neither starts with `ipfs://` nor is `ipfs:/` gives locators
that do not start with `ipfs://`. -/
theorem gateway_url_not_ipfs (g h : String) (h1 : startsWith g "ipfs://" = false)
    (h2 : g ≠ "ipfs:/") : startsWith (g ++ "/ipfs/" ++ h) "ipfs://" = false := by
  have hg : g.data ≠ ['i', 'p', 'f', 's', ':', '/'] := fun hc => h2 (String.ext hc)
  rw [Bool.eq_false_iff] at h1 ⊢
  simp only [startsWith, String.toList, String.data_append, List.isPrefixOf_iff_prefix,
    ne_eq] at h1 ⊢
  have := not_prefix_of_gateway g.data h.data h1 hg
  simpa [List.append_assoc] using this

set_option maxRecDepth 100000 in
/-- C28, counterexample: the gateway `ipfs:/` does not start with `ipfs://`, yet
with it `getHttpUrl` is not idempotent: it maps `ipfs://x` to `ipfs://ipfs/x`
and that to `ipfs://ipfs/ipfs/x`. -/
theorem getHttpUrl_not_idempotent :
    (IPFSService.new (configWithGateway "ipfs:/")).pinataGateway = "ipfs:/" ∧
    startsWith (IPFSService.new (configWithGateway "ipfs:/")).pinataGateway "ipfs://" = false ∧
    (IPFSService.new (configWithGateway "ipfs:/")).getHttpUrl "ipfs://x" = "ipfs://ipfs/x" ∧
    (IPFSService.new (configWithGateway "ipfs:/")).getHttpUrl
      ((IPFSService.new (configWithGateway "ipfs:/")).getHttpUrl "ipfs://x")
      = "ipfs://ipfs/ipfs/x" := by
  refine ⟨by decide, by decide, by decide, by decide⟩

/-- C28 (amended): `getHttpUrl` maps `ipfs://` followed by `h` to the gateway
followed by `/ipfs/` and `h`, for every string `h`; it returns a URI that does
not start with `ipfs://` unchanged; it is injective in `h`; and it is idempotent
whenever the gateway neither starts with `ipfs://` nor is `ipfs:/`. -/
theorem getHttpUrl_laws (svc : IPFSService) :
    (∀ h, svc.getHttpUrl ("ipfs://" ++ h) = svc.pinataGateway ++ "/ipfs/" ++ h) ∧
    (∀ u, startsWith u "ipfs://" = false → svc.getHttpUrl u = u) ∧
    (∀ h1 h2, svc.getHttpUrl ("ipfs://" ++ h1) = svc.getHttpUrl ("ipfs://" ++ h2) → h1 = h2) ∧
    (startsWith svc.pinataGateway "ipfs://" = false → svc.pinataGateway ≠ "ipfs:/" →
      ∀ u, svc.getHttpUrl (svc.getHttpUrl u) = svc.getHttpUrl u) := by
  have hfix : ∀ u, startsWith u "ipfs://" = false → svc.getHttpUrl u = u := by
    intro u hu
    simp [IPFSService.getHttpUrl, hu]
  refine ⟨getHttpUrl_ipfs svc, hfix, ?_, ?_⟩
  · intro h1 h2 h
    rw [getHttpUrl_ipfs, getHttpUrl_ipfs, String.append_assoc, String.append_assoc] at h
    exact append_left_cancel (append_left_cancel h)
  · intro hg1 hg2 u
    cases hu : startsWith u "ipfs://" with
    | false =>
      rw [hfix u hu]
      exact hfix u hu
    | true =>
      obtain ⟨t, rfl⟩ := eq_append_of_startsWith hu
      rw [getHttpUrl_ipfs]
      exact hfix _ (gateway_url_not_ipfs _ t hg1 hg2)

set_option maxRecDepth 100000 in
/-- C28, witness: with the default gateway the locator of `ipfs://QmHash` is a
fixed point. -/
theorem getHttpUrl_laws_witness :
    (IPFSService.new sampleConfig).getHttpUrl
        ((IPFSService.new sampleConfig).getHttpUrl "ipfs://QmHash")
      = (IPFSService.new sampleConfig).getHttpUrl "ipfs://QmHash" :=
  (getHttpUrl_laws (IPFSService.new sampleConfig)).2.2.2 (by decide) (by decide) "ipfs://QmHash"

/-! ## C29: days and seconds -/

/-- C29: for `d` days entered in the mint form, `handleSubmit` runs the pipeline
with the expiry `d * 86400` seconds; every ledger mint call of the run carries
that expiry; and the metadata document that the run uploads has, as its third
attribute, `Expiry (days)` with the decimal string of `d` as value. -/
theorem expiry_days_round_trip (cfg : Config) (w : World) (contract : Option Contract)
    (nextTokenId medicineId : Int) (name : String) (d : Nat) :
    handleSubmit cfg w contract nextTokenId medicineId name d
      = mintDrug cfg w contract nextTokenId medicineId name (d * 86400) "" ∧
    (∀ m nm expiry uri, Event.contractMintDrug m nm expiry uri
        ∈ (handleSubmit cfg w contract nextTokenId medicineId name d).trace →
      expiry = d * 86400) ∧
    (∀ req, Event.fetch req ∈ (handleSubmit cfg w contract nextTokenId medicineId name d).trace →
      req.url = "https://api.pinata.cloud/pinning/pinJSONToIPFS" →
      ∃ doc attrs,
        req.body = .text (Json.obj [("pinataContent", doc),
          ("pinataMetadata", .obj [
            ("name", .str ("Medicine " ++ toString medicineId ++ " Metadata")),
            ("keyvalues", .obj [("type", .str "nft-metadata"),
              ("timestamp", .str (toString (w.now 3)))])])]).stringify ∧
        doc.get? "attributes" = some (.arr attrs) ∧
        attrs[2]? = some (.obj [("trait_type", .str "Expiry (days)"),
          ("value", .str (toString d))])) ∧
    w.divToString (d * 86400) (24 * 60 * 60) = toString d := by
  have hsec : (d : Int) * 24 * 60 * 60 = d * 86400 := by ring
  have hdiv : w.divToString (d * 86400) (24 * 60 * 60) = toString d := by
    have h1 : ((d : Int) * 86400) % (24 * 60 * 60) = 0 := by
      norm_num
    have h2 : ((d : Int) * 86400) / (24 * 60 * 60) = d := by
      norm_num
    simp only [World.divToString, h1, h2, if_true, numberToString]
    rfl
  have hrun : handleSubmit cfg w contract nextTokenId medicineId name d
      = mintDrug cfg w contract nextTokenId medicineId name (d * 86400) "" := by
    simp only [handleSubmit, hsec]
  refine ⟨hrun, ?_, ?_, hdiv⟩
  · intro m nm expiry uri he
    rw [hrun] at he
    cases contract with
    | none => simp [mintDrug, Outcome.ret] at he
    | some c =>
      have hr := (mintDrug_run cfg w c nextTokenId medicineId name (d * 86400) "").1
      obtain ⟨_, _, _, md, _, _, _, _, heq, _⟩ := hr.of_mint_mem _ he rfl
      cases heq
      rfl
  · intro req he hurl
    rw [hrun] at he
    cases contract with
    | none => simp [mintDrug, Outcome.ret] at he
    | some c =>
      have hr := (mintDrug_run cfg w c nextTokenId medicineId name (d * 86400) "").1
      obtain ⟨blob, qr, created, h2, h3, h4, rfl⟩ := hr.of_pinJSON_mem req he hurl
      refine ⟨mintMetadata cfg w medicineId name (d * 86400) qr created,
        [.obj [("trait_type", .str "Medicine ID"), ("value", .str (numberToString medicineId))],
          .obj [("trait_type", .str "Drug Name"), ("value", .str name)],
          .obj [("trait_type", .str "Expiry (days)"),
            ("value", .str (w.divToString (d * 86400) (24 * 60 * 60)))],
          .obj [("trait_type", .str "Created"), ("value", .str created)],
          .obj [("trait_type", .str "Contract"), ("value", .str cfg.contract_address)]],
        rfl, ?_, ?_⟩
      · simp [mintMetadata, Json.get?, List.find?]
      · rw [hdiv]
        rfl

set_option maxRecDepth 100000 in
/-- C29, witness: 30 days entered in the sample world: the ledger mint call
carries 2592000 seconds. -/
theorem expiry_days_round_trip_witness :
    Event.contractMintDrug 101 "Aspirin" 2592000 "https://gateway.pinata.cloud/ipfs/QmHash"
      ∈ (handleSubmit sampleConfig sampleWorld (some (ledgerAssigning 1)) 1 101 "Aspirin"
        30).trace ∧
    (2592000 : Int) = (30 : Nat) * 86400 :=
  ⟨by decide,
    (expiry_days_round_trip sampleConfig sampleWorld (some (ledgerAssigning 1)) 1 101 "Aspirin"
      30).2.1 101 "Aspirin" 2592000 "https://gateway.pinata.cloud/ipfs/QmHash" (by decide)⟩

/-! ## C30: the list of pending claims -/

/-- The detail lookups of `loadPendingClaims`: they resolve with the entries of
the claims, `none` for a claim whose lookup fails; their effects are queries
and lines of the log. -/
theorem loadClaimDetails_ok (c : ClaimsContract) :
    ∀ ids : List Nat,
      (Outcome.all (ids.map (loadClaimDetail c))).result = .ok (ids.map c.entry?) ∧
      ∀ x ∈ (Outcome.all (ids.map (loadClaimDetail c))).trace,
        (∃ args, x = .contractCall "insuranceClaims" args) ∨
          ∃ label message, x = .consoleError label message := by
  intro ids
  induction ids with
  | nil => simp [Outcome.all]
  | cons claimId rest ih =>
    obtain ⟨ih1, ih2⟩ := ih
    cases h : c.insuranceClaims claimId with
    | error e =>
      constructor
      · simp [Outcome.all, loadClaimDetail, Outcome.tryCatch, Outcome.andThen, Outcome.call,
          Outcome.emit, Outcome.ret, h, ih1, ClaimsContract.entry?]
      · intro x hx
        simp [Outcome.all, loadClaimDetail, Outcome.tryCatch, Outcome.andThen, Outcome.call,
          Outcome.emit, Outcome.ret, h] at hx
        rcases hx with rfl | rfl | hx
        · exact .inl ⟨_, rfl⟩
        · exact .inr ⟨_, _, rfl⟩
        · exact ih2 x hx
    | ok claim =>
      constructor
      · simp [Outcome.all, loadClaimDetail, Outcome.tryCatch, Outcome.andThen, Outcome.call,
          Outcome.emit, Outcome.ret, h, ih1, ClaimsContract.entry?]
      · intro x hx
        simp [Outcome.all, loadClaimDetail, Outcome.tryCatch, Outcome.andThen, Outcome.call,
          Outcome.emit, Outcome.ret, h] at hx
        rcases hx with rfl | hx
        · exact .inl ⟨_, rfl⟩
        · exact ih2 x hx

/-- The entries of a list of ids are those of the ids whose lookup succeeds. -/
theorem entries_of_answered (c : ClaimsContract) (ids : List Nat) :
    ids.filterMap c.entry?
      = (ids.filter (fun id => (c.insuranceClaims id).toBool)).filterMap c.entry? := by
  induction ids with
  | nil => rfl
  | cons id rest ih =>
    cases h : c.insuranceClaims id <;>
      simp [List.filter, List.filterMap, ClaimsContract.entry?, h, Except.toBool] <;>
      exact ih

/-- The ids of the entries of a list of ids are, in order, among the ids. -/
theorem entries_sublist (c : ClaimsContract) (ids : List Nat) :
    ((ids.filterMap c.entry?).map (fun entry => entry.claimId)).Sublist
      (ids.map (fun id => toString id)) := by
  induction ids with
  | nil => simp
  | cons id rest ih =>
    cases h : c.insuranceClaims id with
    | error e =>
      simp only [List.filterMap, ClaimsContract.entry?, h, List.map_cons]
      exact List.Sublist.cons _ ih
    | ok claim =>
      simp only [List.filterMap, ClaimsContract.entry?, h, List.map_cons]
      exact List.Sublist.cons₂ _ ih

/-- C30: for a caller whose roles include `Insurer`, when the query
`getPendingClaims()` answers the ids `ids`, `loadPendingClaims` sets the list of
claims once, to the entries, in the order of `ids`, of the ids whose detail
lookup succeeded; the entry of an id carries the id and the `prescriptionId` of
its claim as decimal strings and its `isApproved`; an id whose lookup fails has
no entry and the load still resolves; the list is not longer than `ids`. When
the query `getPendingClaims()` fails the list of claims is not set. -/
theorem loadPendingClaims_list (c : ClaimsContract) (userRoles : List String)
    (hins : "Insurer" ∈ userRoles) :
    (∀ ids, c.getPendingClaims = .ok ids →
      (∀ claims, Event.setClaims claims ∈ (loadPendingClaims (some c) userRoles).trace ↔
        claims = ids.filterMap c.entry?) ∧
      ids.filterMap c.entry?
        = (ids.filter (fun id => (c.insuranceClaims id).toBool)).filterMap c.entry? ∧
      ((ids.filterMap c.entry?).map (fun entry => entry.claimId)).Sublist
        (ids.map (fun id => toString id)) ∧
      (ids.filterMap c.entry?).length ≤ ids.length) ∧
    (∀ id claim, c.insuranceClaims id = .ok claim →
      c.entry? id = some ⟨toString id, toString claim.prescriptionId, claim.isApproved⟩) ∧
    (∀ id e, c.insuranceClaims id = .error e → c.entry? id = none) ∧
    (∀ e, c.getPendingClaims = .error e →
      ∀ claims, Event.setClaims claims ∉ (loadPendingClaims (some c) userRoles).trace) ∧
    (loadPendingClaims (some c) userRoles).result = .ok () := by
  refine ⟨?_, ?_, ?_, ?_, ?_⟩
  · intro ids hids
    obtain ⟨h1, h2⟩ := loadClaimDetails_ok c ids
    refine ⟨?_, ?_, ?_, ?_⟩
    · intro claims
      have hnot : Event.setClaims claims ∉ (Outcome.all (ids.map (loadClaimDetail c))).trace := by
        intro h
        rcases h2 _ h with ⟨_, h⟩ | ⟨_, _, h⟩ <;> cases h
      simp [loadPendingClaims, hins, Outcome.tryCatch, Outcome.andThen, Outcome.call,
        Outcome.emit, hids, h1, hnot]
      exact Iff.rfl
    · exact entries_of_answered c ids
    · exact entries_sublist c ids
    · exact List.length_filterMap_le _ _
  · intro id claim h
    simp [ClaimsContract.entry?, h]
  · intro id e h
    simp [ClaimsContract.entry?, h]
  · intro e he claims
    simp [loadPendingClaims, hins, Outcome.tryCatch, Outcome.andThen, Outcome.call,
      Outcome.emit, he]
  · cases hq : c.getPendingClaims with
    | error e =>
      simp [loadPendingClaims, hins, Outcome.tryCatch, Outcome.andThen, Outcome.call,
        Outcome.emit, hq]
    | ok ids =>
      obtain ⟨h1, h2⟩ := loadClaimDetails_ok c ids
      simp [loadPendingClaims, hins, Outcome.tryCatch, Outcome.andThen, Outcome.call,
        Outcome.emit, hq, h1]

set_option maxRecDepth 100000 in
/-- C30, witness: of the pending claims 1, 2 and 3 of the sample ledger the
lookup of claim 2 fails; an insurer gets the entries of the claims 1 and 3. -/
theorem loadPendingClaims_list_witness :
    Event.setClaims [⟨"1", "11", false⟩, ⟨"3", "13", true⟩]
      ∈ (loadPendingClaims (some sampleClaimsContract) ["Insurer"]).trace :=
  (((loadPendingClaims_list sampleClaimsContract ["Insurer"] (by decide)).1 [1, 2, 3] rfl).1
    _).2 (by decide)

end MedicalSupply
